import Mathlib

/-!
# SafariProfileMigrator.js: a verification development

Shallow embedding of `browser/components/migration/src/SafariProfileMigrator.js`.

* `MainPreferencesPropertyList` (the shared, single-flight property-list cache) is a
  state record `_dict` / `_callbacks`; `read` and the completion handler `readPrefs`
  are functions on that state returning the new state, the trace of observable events
  and the exception (if any) that escapes the call.
* `Bookmarks._migrateCollection` / `Bookmarks._migrateEntries` are functions on the log
  of writes issued to the native bookmarks store.
* `Preferences._set`, `_migrateFontSettings`, `_migrateDownloadsFolder` and
  `migratePrefs` are functions on the log of writes issued to the preference service,
  giving the new log and the return value or the exception that escapes.
* `History.migrate` gives the trace of its store call, error reports and calls of the
  completion callback, and the exception that escapes, for a decode result, a
  completion callback and a response of the history store; `_parseCocoaDate` follows
  the date algorithms of the host, whose time zone and double rounding are parameters.

Shallow embedding of `js/src/builtin/String.js`: `String_codePointAt`,
`String_static_fromCodePoint`, and `String_repeat` with its double counter and the
maximum string length of the engine.
-/

namespace SafariProfileMigrator

/-! ## MainPreferencesPropertyList -/

/-- Observable events of the cache. Callbacks are identified by a number; `D` is the
type of decoded dictionaries and `Option D` the value handed to a callback (`none` is
the failure value `null`). -/
inductive CacheEvent (D : Type) where
  /-- The call `PropertyListUtils.read(this._file, readPrefs)`. -/
  | startRead : CacheEvent D
  /-- The call `callback(aDict)`. -/
  | call (callback : Nat) (aDict : Option D) : CacheEvent D
  /-- The call `Cu.reportError(ex)`. -/
  | reportError (ex : String) : CacheEvent D
  deriving DecidableEq

/-- The object built by `function MainPreferencesPropertyList(aPreferencesFile)`.
`_dict = none` means that the property `"_dict"` is not in the object;
`_dict = some d` means it is, with value `d` (which may be the failure value). -/
structure MainPreferencesPropertyList (D : Type) where
  _dict : Option (Option D)
  _callbacks : List Nat
  deriving DecidableEq

/-- The constructor: `this._callbacks = []`, no `_dict` property. -/
def MainPreferencesPropertyList.new (D : Type) : MainPreferencesPropertyList D :=
  { _dict := none, _callbacks := [] }

/-- What a call leaves behind: the object, the events in the order they happened, and
the exception that escaped the call (`none` when it returned normally). -/
structure Outcome (D : Type) where
  state : MainPreferencesPropertyList D
  trace : List (CacheEvent D)
  thrown : Option String
  deriving DecidableEq

/-- The behaviour of the callbacks: `run cb d` is `.error ex` when callback `cb` throws
`ex` on argument `d`. -/
abbrev Callbacks (D : Type) := Nat → Option D → Except String Unit

/-- The statement `callback(aDict);`. -/
def invoke {D : Type} (run : Callbacks D) (callback : Nat) (aDict : Option D) :
    List (CacheEvent D) × Option String :=
  ([CacheEvent.call callback aDict],
    match run callback aDict with
    | .ok _ => none
    | .error ex => some ex)

/-- The statement `try { callback(aDict); } catch(ex) { Cu.reportError(ex); }`. -/
def tryInvoke {D : Type} (run : Callbacks D) (callback : Nat) (aDict : Option D) :
    List (CacheEvent D) × Option String :=
  match invoke run callback aDict with
  | (t, none) => (t, none)
  | (t, some ex) => (t ++ [CacheEvent.reportError ex], none)

/-- The loop `for (let callback of this._callbacks) { try ... catch ... }`: an exception
escaping one iteration ends the loop. -/
def forCallbacks {D : Type} (run : Callbacks D) (aDict : Option D) :
    List Nat → List (CacheEvent D) × Option String
  | [] => ([], none)
  | callback :: rest =>
    match tryInvoke run callback aDict with
    | (t, some ex) => (t, some ex)
    | (t, none) =>
      let r := forCallbacks run aDict rest
      (t ++ r.1, r.2)

/-- The completion handler `function readPrefs(aDict)` passed to
`PropertyListUtils.read`. -/
def readPrefs {D : Type} (run : Callbacks D) (self : MainPreferencesPropertyList D)
    (aDict : Option D) : Outcome D :=
  -- this._dict = aDict;
  let self1 : MainPreferencesPropertyList D := { self with _dict := some aDict }
  match forCallbacks run aDict self1._callbacks with
  | (t, some ex) => { state := self1, trace := t, thrown := some ex }
  | (t, none) =>
    -- this._callbacks.splice(0);
    { state := { self1 with _callbacks := [] }, trace := t, thrown := none }

/-- The method `MainPreferencesPropertyList.prototype.read`. -/
def read {D : Type} (run : Callbacks D) (self : MainPreferencesPropertyList D)
    (aCallback : Nat) : Outcome D :=
  match self._dict with
  | some d =>
    -- if ("_dict" in this) { aCallback(this._dict); return; }
    let r := invoke run aCallback d
    { state := self, trace := r.1, thrown := r.2 }
  | none =>
    let alreadyReading := decide (self._callbacks.length > 0)
    let self1 : MainPreferencesPropertyList D :=
      { self with _callbacks := self._callbacks ++ [aCallback] }
    if !alreadyReading then
      { state := self1, trace := [CacheEvent.startRead], thrown := none }
    else
      { state := self1, trace := [], thrown := none }

/-- Several calls of `read` one after the other, none of them interleaved with the
completion of the underlying read. An exception escaping one call does not undo the
calls already made; the traces are concatenated. -/
def readAll {D : Type} (run : Callbacks D) (self : MainPreferencesPropertyList D) :
    List Nat → MainPreferencesPropertyList D × List (CacheEvent D)
  | [] => (self, [])
  | cb :: rest =>
    let o := read run self cb
    let r := readAll run o.state rest
    (r.1, o.trace ++ r.2)

/-- The callbacks invoked in a trace, with their argument, in order. -/
def calls {D : Type} : List (CacheEvent D) → List (Nat × Option D)
  | [] => []
  | CacheEvent.call cb d :: t => (cb, d) :: calls t
  | _ :: t => calls t

/-- The number of underlying reads started in a trace. -/
def startedReads {D : Type} : List (CacheEvent D) → Nat
  | [] => 0
  | CacheEvent.startRead :: t => startedReads t + 1
  | _ :: t => startedReads t

/-- The errors reported to the diagnostic sink in a trace, in order. -/
def reported {D : Type} : List (CacheEvent D) → List String
  | [] => []
  | CacheEvent.reportError ex :: t => ex :: reported t
  | _ :: t => reported t

/-- The exception thrown by callback `cb` on argument `d`, if it throws. -/
def errorOf {D : Type} (run : Callbacks D) (d : Option D) (cb : Nat) : Option String :=
  match run cb d with
  | .ok _ => none
  | .error ex => some ex

/-- An example behaviour: callbacks with an odd number throw, the others return. -/
def oddThrow : Callbacks Nat := fun cb _ =>
  if cb % 2 = 1 then .error "odd callback failed" else .ok ()

/-! ## Bookmarks

A Safari bookmark entry is a property-list dictionary. The embedding keeps the keys
the migrator reads; a field is `none` when the key is absent (`entry.has(key)` is
false and `entry.get(key)` is `undefined`). -/

/-- A folder id of the native bookmarks store. -/
abbrev FolderId := Int

/-- The result of a successful `NetUtil.newURI(spec)`. -/
abbrev URI := String

/-- The dictionary under the key `URIDictionary` of a leaf; only `title` is read. -/
structure URIDictionary where
  title : Option String
  deriving DecidableEq

/-- A bookmark entry: the keys `WebBookmarkType`, `Title`, `ShouldOmitFromUI`
(a property-list boolean), `URLString`, `URIDictionary` and `Children`. -/
inductive Entry where
  | mk (WebBookmarkType : Option String) (Title : Option String)
      (ShouldOmitFromUI : Option Bool) (URLString : Option String)
      (URIDictionary : Option URIDictionary) (Children : Option (List Entry)) : Entry

/-- The value of `entry.get("WebBookmarkType")`. -/
def Entry.WebBookmarkType : Entry → Option String
  | .mk t _ _ _ _ _ => t

/-- The value of `entry.get("Title")`. -/
def Entry.Title : Entry → Option String
  | .mk _ t _ _ _ _ => t

/-- The value of `entry.get("ShouldOmitFromUI")`. -/
def Entry.ShouldOmitFromUI : Entry → Option Bool
  | .mk _ _ o _ _ _ => o

/-- The value of `entry.get("URLString")`. -/
def Entry.URLString : Entry → Option String
  | .mk _ _ _ u _ _ => u

/-- The value of `entry.get("URIDictionary")`. -/
def Entry.URIDictionary : Entry → Option URIDictionary
  | .mk _ _ _ _ d _ => d

/-- The value of `entry.get("Children")`. -/
def Entry.Children : Entry → Option (List Entry)
  | .mk _ _ _ _ _ c => c

/-- A write call received by the native store (`PlacesUtils.bookmarks.createFolder`,
`MigrationUtils.createImportedBookmarksFolder`, `PlacesUtils.bookmarks.insertBookmark`)
with its arguments. -/
inductive Write where
  | createFolder (aParent : FolderId) (aTitle : Option String) (aIndex : Int)
  | createImportedBookmarksFolder (aSource : String) (aParent : FolderId)
  | insertBookmark (aParent : FolderId) (aURI : URI) (aIndex : Int)
      (aTitle : Option String)
  deriving DecidableEq

/-- The native store, seen as the log of the write calls made so far, oldest first. -/
abbrev Store := List Write

/-- The collaborators of `Bookmarks` that are not part of the file: the migration
flag, the ids of the native root folders, the store constant `DEFAULT_INDEX`, the
string bundle, the URL parser (`none` when `NetUtil.newURI` throws) and the id the
store returns for a folder created when its log is the given one. -/
structure Env where
  isStartupMigration : Bool
  unfiledBookmarksFolderId : FolderId
  bookmarksMenuFolderId : FolderId
  toolbarFolderId : FolderId
  DEFAULT_INDEX : Int
  getLocalizedString : String → String
  newURI : String → Option URI
  newFolderId : Store → FolderId

/-- The constant `ROOT_COLLECTION: 0`. -/
def ROOT_COLLECTION : Int := 0

/-- The constant `MENU_COLLECTION: 1`. -/
def MENU_COLLECTION : Int := 1

/-- The constant `TOOLBAR_COLLECTION: 2`. -/
def TOOLBAR_COLLECTION : Int := 2

/-- The constant `READING_LIST_COLLECTION: 3`. -/
def READING_LIST_COLLECTION : Int := 3

mutual
/-- The method `Bookmarks.prototype._migrateEntries`: the loop
`for (let entry of aEntries)`. -/
def _migrateEntries (env : Env) : List Entry → FolderId → Store → Store
  | [], _, st => st
  | entry :: rest, aFolderId, st =>
    _migrateEntries env rest aFolderId (migrateEntry env entry aFolderId st)
/-- The body of the loop of `_migrateEntries` for one entry. A URL that does not parse
is reported with `Cu.reportError`, which writes nothing to the store. -/
def migrateEntry (env : Env) : Entry → FolderId → Store → Store
  | .mk type title _ urlString uriDictionary children, aFolderId, st =>
    if type == some "WebBookmarkTypeList" && children.isSome then
      -- let folderId = PlacesUtils.bookmarks.createFolder(aFolderId, title, DEFAULT_INDEX);
      let st1 := st ++ [Write.createFolder aFolderId title env.DEFAULT_INDEX]
      let folderId := env.newFolderId st
      -- if (entry.has("Children")) this._migrateEntries(entry.get("Children"), folderId, false);
      match children with
      | some cs => _migrateEntries env cs folderId st1
      | none => st1
    else if type == some "WebBookmarkTypeLeaf" && urlString.isSome then
      -- if (entry.has("URIDictionary")) title = entry.get("URIDictionary").get("title");
      let title : Option String :=
        match uriDictionary with
        | some d => d.title
        | none => none
      match urlString with
      | some u =>
        -- try { uri = NetUtil.newURI(...) } catch(ex) { Cu.reportError(...) }
        match env.newURI u with
        | some uri =>
          -- if (uri) PlacesUtils.bookmarks.insertBookmark(aFolderId, uri, DEFAULT_INDEX, title);
          st ++ [Write.insertBookmark aFolderId uri env.DEFAULT_INDEX title]
        | none => st
      | none => st
    else st
end

/-- An exception escaping a method of `Bookmarks`: the message of `new Error(message)`
and the log of the native store at the time of the throw. -/
structure Thrown where
  message : String
  store : Store
  deriving DecidableEq

/-- The method `Bookmarks.prototype._migrateCollection`. The result is `.error ex`
when the method throws; `ex` holds the message and the store as the throw left it. -/
def _migrateCollection (env : Env) (aEntries : List Entry) (aCollection : Int)
    (st : Store) : Except Thrown Store :=
  -- let entriesFiltered = []; if (aCollection == this.ROOT_COLLECTION) { for ... } else ...
  let loop : Except Thrown (Store × List Entry) :=
    if _h : aCollection = ROOT_COLLECTION then
      aEntries.foldl (fun acc entry =>
        match acc with
        | .error ex => .error ex
        | .ok (s, entriesFiltered) =>
          let type := entry.WebBookmarkType
          if type == some "WebBookmarkTypeList" && entry.Children.isSome then
            let title := entry.Title
            let children := entry.Children.getD []
            if title == some "BookmarksBar" then
              (_migrateCollection env children TOOLBAR_COLLECTION s).map
                (fun s1 => (s1, entriesFiltered))
            else if title == some "BookmarksMenu" then
              (_migrateCollection env children MENU_COLLECTION s).map
                (fun s1 => (s1, entriesFiltered))
            else if title == some "com.apple.ReadingList" then
              (_migrateCollection env children READING_LIST_COLLECTION s).map
                (fun s1 => (s1, entriesFiltered))
            else if entry.ShouldOmitFromUI != some true then
              .ok (s, entriesFiltered ++ [entry])
            else .ok (s, entriesFiltered)
          else if type == some "WebBookmarkTypeLeaf" then
            .ok (s, entriesFiltered ++ [entry])
          else .ok (s, entriesFiltered)) (.ok (st, []))
    else .ok (st, aEntries)
  match loop with
  | .error ex => .error ex
  | .ok (st1, entriesFiltered) =>
    -- if (entriesFiltered.length == 0) return;
    if entriesFiltered.length == 0 then .ok st1
    -- switch (aCollection)
    else if aCollection = ROOT_COLLECTION then
      .ok (_migrateEntries env entriesFiltered env.unfiledBookmarksFolderId st1)
    else if aCollection = MENU_COLLECTION then
      if !env.isStartupMigration then
        .ok (_migrateEntries env entriesFiltered (env.newFolderId st1)
          (st1 ++ [Write.createImportedBookmarksFolder "Safari" env.bookmarksMenuFolderId]))
      else .ok (_migrateEntries env entriesFiltered env.bookmarksMenuFolderId st1)
    else if aCollection = TOOLBAR_COLLECTION then
      if !env.isStartupMigration then
        .ok (_migrateEntries env entriesFiltered (env.newFolderId st1)
          (st1 ++ [Write.createImportedBookmarksFolder "Safari" env.toolbarFolderId]))
      else .ok (_migrateEntries env entriesFiltered env.toolbarFolderId st1)
    else if aCollection = READING_LIST_COLLECTION then
      .ok (_migrateEntries env entriesFiltered (env.newFolderId st1)
        (st1 ++ [Write.createFolder env.bookmarksMenuFolderId
          (some (env.getLocalizedString "importedSafariReadingList")) env.DEFAULT_INDEX]))
    else .error { message := "Unexpected value for aCollection!", store := st1 }
termination_by (if aCollection = ROOT_COLLECTION then 1 else 0 : Nat)
decreasing_by
  all_goals simp_wf
  all_goals simp_all [ROOT_COLLECTION, TOOLBAR_COLLECTION, MENU_COLLECTION,
    READING_LIST_COLLECTION]

/-- The body of the loop `for (let entry of aEntries)` of `_migrateCollection` at the
Root collection, on the pair of the store and `entriesFiltered`; named for the proofs
(`migrateCollection_root` shows that it is the function folded in
`_migrateCollection`). -/
def rootStep (env : Env) (acc : Except Thrown (Store × List Entry)) (entry : Entry) :
    Except Thrown (Store × List Entry) :=
  match acc with
  | .error ex => .error ex
  | .ok (s, entriesFiltered) =>
    let type := entry.WebBookmarkType
    if type == some "WebBookmarkTypeList" && entry.Children.isSome then
      let title := entry.Title
      let children := entry.Children.getD []
      if title == some "BookmarksBar" then
        (_migrateCollection env children TOOLBAR_COLLECTION s).map
          (fun s1 => (s1, entriesFiltered))
      else if title == some "BookmarksMenu" then
        (_migrateCollection env children MENU_COLLECTION s).map
          (fun s1 => (s1, entriesFiltered))
      else if title == some "com.apple.ReadingList" then
        (_migrateCollection env children READING_LIST_COLLECTION s).map
          (fun s1 => (s1, entriesFiltered))
      else if entry.ShouldOmitFromUI != some true then
        .ok (s, entriesFiltered ++ [entry])
      else .ok (s, entriesFiltered)
    else if type == some "WebBookmarkTypeLeaf" then
      .ok (s, entriesFiltered ++ [entry])
    else .ok (s, entriesFiltered)

/-! ### The specification's view of the bookmark tree (spec §3, §4.3) -/

/-- A folder-type node: `WebBookmarkType` is `WebBookmarkTypeList` and there is a
`Children` list. -/
def Entry.isFolder (e : Entry) : Bool :=
  e.WebBookmarkType == some "WebBookmarkTypeList" && e.Children.isSome

/-- A leaf-type node: `WebBookmarkType` is `WebBookmarkTypeLeaf`. -/
def Entry.isLeafType (e : Entry) : Bool :=
  e.WebBookmarkType == some "WebBookmarkTypeLeaf"

/-- The lookup table from the reserved folder titles to the collections (spec §4.3
step 1): bookmarks bar, bookmarks menu, reading list. -/
def reservedCollection (title : Option String) : Option Int :=
  if title = some "BookmarksBar" then some TOOLBAR_COLLECTION
  else if title = some "BookmarksMenu" then some MENU_COLLECTION
  else if title = some "com.apple.ReadingList" then some READING_LIST_COLLECTION
  else none

/-- What spec §4.3 step 1 does with a child of the Root collection. -/
inductive RootClass where
  /-- A reserved folder: recurse into its children with the given collection tag. -/
  | collection (children : List Entry) (tag : Int) : RootClass
  /-- Keep as a plain entry of the Root collection. -/
  | keep : RootClass
  /-- Neither recursed into nor kept. -/
  | drop : RootClass

/-- Spec §4.3 step 1, for one child of the Root collection. -/
def classifyRoot (e : Entry) : RootClass :=
  if e.isFolder then
    match reservedCollection e.Title with
    | some c => .collection (e.Children.getD []) c
    | none => if e.ShouldOmitFromUI = some true then .drop else .keep
  else if e.isLeafType then .keep
  else .drop

/-- The children kept as plain Root entries, in the words of the specification: every
leaf-type child, and every folder child whose title is not reserved and whose
`ShouldOmitFromUI` flag is not `true`. -/
def keptAtRoot (e : Entry) : Bool :=
  e.isLeafType ||
    (e.isFolder && (reservedCollection e.Title).isNone && e.ShouldOmitFromUI != some true)

/-- The reserved folders among the children of Root, in source order, each as its
children list with its collection tag. -/
def subCollections : List Entry → List (List Entry × Int)
  | [] => []
  | e :: rest =>
    match classifyRoot e with
    | .collection cs c => (cs, c) :: subCollections rest
    | _ => subCollections rest

/-- Migrating collections one after the other, each with `_migrateCollection`. -/
def migrateCollections (env : Env) :
    List (List Entry × Int) → Store → Except Thrown Store
  | [], st => .ok st
  | (cs, c) :: rest, st =>
    match _migrateCollection env cs c st with
    | .error ex => .error ex
    | .ok s1 => migrateCollections env rest s1

/-- The filtered tree of a Root children list: the entries that stay after the
top-level filter, a reserved folder being replaced by its children (which belong to
its collection). -/
def filteredTree : List Entry → List Entry
  | [] => []
  | e :: rest =>
    match classifyRoot e with
    | .collection cs _ => cs ++ filteredTree rest
    | .keep => e :: filteredTree rest
    | .drop => filteredTree rest

mutual
/-- The number of Leaf entries with a URL that parses in the subtree of a
`BookmarkEntry` of the specification: a Folder (`WebBookmarkTypeList` with
`Children`) or a Leaf (`WebBookmarkTypeLeaf`). -/
def leafCount (env : Env) : Entry → Nat
  | .mk type _ _ urlString _ children =>
    if type = some "WebBookmarkTypeList" then
      match children with
      | some cs => leafCountList env cs
      | none => 0
    else if type = some "WebBookmarkTypeLeaf" then
      match urlString with
      | some u => if (env.newURI u).isSome then 1 else 0
      | none => 0
    else 0
/-- The number of Leaf entries with a URL that parses in a list of entries. -/
def leafCountList (env : Env) : List Entry → Nat
  | [] => 0
  | e :: rest => leafCount env e + leafCountList env rest
end

/-- The number of `insertBookmark` calls in a log. -/
def inserts (st : Store) : Nat :=
  st.countP (fun w => match w with
    | .insertBookmark _ _ _ _ => true
    | _ => false)

/-- The number of `createImportedBookmarksFolder` calls in a log. -/
def importedFolders (st : Store) : Nat :=
  st.countP (fun w => match w with
    | .createImportedBookmarksFolder _ _ => true
    | _ => false)

/-- The number of `createFolder` calls in a log. -/
def createdFolders (st : Store) : Nat :=
  st.countP (fun w => match w with
    | .createFolder _ _ _ => true
    | _ => false)

/-- An example environment: startup migration, root folders 5 (unfiled), 2 (menu) and
3 (toolbar), `DEFAULT_INDEX = -1`, a URL parses unless it contains a space, and the
store numbers new folders from 100 on. -/
def startupEnv : Env :=
  { isStartupMigration := true
    unfiledBookmarksFolderId := 5
    bookmarksMenuFolderId := 2
    toolbarFolderId := 3
    DEFAULT_INDEX := -1
    getLocalizedString := fun key => key
    newURI := fun u => if u.data.contains ' ' then none else some u
    newFolderId := fun log => 100 + log.length }

/-- The example environment for an import that is not the startup migration. -/
def importEnv : Env := { startupEnv with isStartupMigration := false }

/-- An example leaf: `http://example.com`, titled "Example". -/
def exampleLeaf : Entry :=
  .mk (some "WebBookmarkTypeLeaf") none none (some "http://example.com")
    (some { title := some "Example" }) none

/-- An example leaf whose URL does not parse. -/
def badLeaf : Entry :=
  .mk (some "WebBookmarkTypeLeaf") none none (some "not a url") none none

/-- An example folder-type entry without a `Children` array. -/
def folderWithoutChildren : Entry :=
  .mk (some "WebBookmarkTypeList") (some "Empty") none none none none

mutual
/-- The writes of the depth-first, pre-order copy of one entry under the folder
`parent` (spec §4.3 step 5), when the log of the store before the copy is `log`: a
Folder gives `createFolder(parent, title, DEFAULT_INDEX)` followed by the copy of its
children under the id the store returned; a Leaf with a URL that parses gives
`insertBookmark(parent, uri, DEFAULT_INDEX, title)`, the title being the one of its
`URIDictionary` or none; anything else gives nothing. -/
def entryWrites (env : Env) : Entry → FolderId → Store → List Write
  | .mk type title _ urlString uriDictionary children, parent, log =>
    if type = some "WebBookmarkTypeList" then
      match children with
      | some cs =>
        Write.createFolder parent title env.DEFAULT_INDEX ::
          entriesWrites env cs (env.newFolderId log)
            (log ++ [Write.createFolder parent title env.DEFAULT_INDEX])
      | none => []
    else if type = some "WebBookmarkTypeLeaf" then
      match urlString with
      | some u =>
        match env.newURI u with
        | some uri =>
          [Write.insertBookmark parent uri env.DEFAULT_INDEX
            (uriDictionary.bind (fun d => d.title))]
        | none => []
      | none => []
    else []
/-- The writes of the copy of a list of entries under `parent`, in the order of the
list. -/
def entriesWrites (env : Env) : List Entry → FolderId → Store → List Write
  | [], _, _ => []
  | e :: rest, parent, log =>
    entryWrites env e parent log ++
      entriesWrites env rest parent (log ++ entryWrites env e parent log)
end

/-! ## Preferences

The values of the preferences dictionary are JavaScript values. The embedding keeps
what the migrator can tell apart: the result of `typeof`, truthiness, and the payload
of strings, booleans and integer numbers. Numbers that are not integers are outside
the embedding, except NaN. -/

/-- A JavaScript value. `object id` stands for any value whose `typeof` is none of
"string", "number", "boolean", "undefined": a date, a data blob, an array, a
dictionary. -/
inductive JSValue where
  | undefined : JSValue
  | boolean (b : Bool) : JSValue
  | number (n : Int) : JSValue
  | nan : JSValue
  | string (s : String) : JSValue
  | object (id : Nat) : JSValue
  deriving DecidableEq

/-- The operator `typeof`. -/
def typeof : JSValue → String
  | .undefined => "undefined"
  | .boolean _ => "boolean"
  | .number _ => "number"
  | .nan => "number"
  | .string _ => "string"
  | .object _ => "object"

/-- The truthiness of a value (ToBoolean), as used by `!v` and `v ? a : b`. -/
def toBoolean : JSValue → Bool
  | .undefined => false
  | .boolean b => b
  | .number n => n != 0
  | .nan => false
  | .string s => s != ""
  | .object _ => true

/-- The preferences dictionary `this._dict`: `dict key` is `none` when
`this._dict.has(key)` is false and `some v` when `this._dict.get(key)` is `v`. -/
abbrev PrefDict := String → Option JSValue

/-- A write call received by the preference service `Services.prefs`, with its
arguments. -/
inductive PrefWrite where
  | setCharPref (aPrefName : String) (aValue : JSValue) : PrefWrite
  | setIntPref (aPrefName : String) (aValue : JSValue) : PrefWrite
  | setBoolPref (aPrefName : String) (aValue : JSValue) : PrefWrite
  | setComplexValue (aPrefName : String) (aFile : String) : PrefWrite
  deriving DecidableEq

/-- The name of the preference a write is made to. -/
def PrefWrite.name : PrefWrite → String
  | .setCharPref n _ => n
  | .setIntPref n _ => n
  | .setBoolPref n _ => n
  | .setComplexValue n _ => n

/-- The preference service, seen as the log of the write calls made so far, oldest
first. The setters are taken to return normally. -/
abbrev PrefLog := List PrefWrite

/-- A conversion function `aConvertFunction`: `.error ex` when it throws. -/
abbrev Converter := JSValue → Except String JSValue

/-- A method of `Preferences` as a function of the log: it gives the log it leaves and
either its return value or the exception that escapes it. -/
abbrev PrefM (α : Type) := PrefLog → PrefLog × Except String α

/-- Sequencing `first; next`: when `first` throws, `next` is not run. -/
def andThen {α β : Type} (first : PrefM α) (next : α → PrefM β) : PrefM β := fun log =>
  match first log with
  | (log1, .ok a) => next a log1
  | (log1, .error ex) => (log1, .error ex)

/-- The collaborators of `Preferences` that are not part of the file. -/
structure PrefEnv where
  /-- Whether the file is preprocessed with `XP_WIN` defined. -/
  XP_WIN : Bool
  /-- ToNumber on a string; `none` is NaN. -/
  stringToNumber : String → Option Int
  /-- ToNumber on an object; `none` is NaN. -/
  objectToNumber : Nat → Option Int
  /-- Whether `obj == str` holds for an object and a string. -/
  objectEqualsString : Nat → String → Bool
  /-- Whether `obj == n` holds for an object and a number. -/
  objectEqualsNumber : Nat → Int → Bool
  /-- The service call `getCharsetAlias(charset)`; `none` when it throws. -/
  getCharsetAlias : JSValue → Option String
  /-- The call `Services.prefs.getChildList(branch)`. -/
  getChildList : String → List String
  /-- The call `Services.prefs.getCharPref(name)`; `none` when it throws. -/
  getCharPref : String → Option String
  /-- The call `Services.locale.getLocaleComponentForUserAgent()`. -/
  locale : String
  /-- The call `bundle.GetStringFromName(name)` on `langGroups.properties`; `none`
  when it throws. -/
  GetStringFromName : String → Option String
  /-- The path of `FileUtils.File(value)`; `none` when the constructor throws. -/
  File : JSValue → Option String
  /-- The path of `FileUtils.getDir("Desk", [])`. -/
  desktopDir : String
  /-- The path of `dnldMgr.defaultDownloadsDirectory`. -/
  defaultDownloadsDirectory : String

/-- The builtin `Number(v)`. -/
def jsNumber (env : PrefEnv) : JSValue → JSValue
  | .undefined => .nan
  | .boolean b => .number (if b then 1 else 0)
  | .number n => .number n
  | .nan => .nan
  | .string s =>
    match env.stringToNumber s with
    | some n => .number n
    | none => .nan
  | .object o =>
    match env.objectToNumber o with
    | some n => .number n
    | none => .nan

/-- The comparison `v == str` with a string. -/
def looseEqualsString (env : PrefEnv) (v : JSValue) (str : String) : Bool :=
  match v with
  | .undefined => false
  | .boolean b => env.stringToNumber str == some (if b then 1 else 0)
  | .number n => env.stringToNumber str == some n
  | .nan => false
  | .string s => s == str
  | .object o => env.objectEqualsString o str

/-- The comparison `v == n` with a number. -/
def looseEqualsNumber (env : PrefEnv) (v : JSValue) (n : Int) : Bool :=
  match v with
  | .undefined => false
  | .boolean b => (if b then 1 else 0) == n
  | .number m => m == n
  | .nan => false
  | .string s => env.stringToNumber s == some n
  | .object o => env.objectEqualsNumber o n

/-- The converter `let invert = function(webkitVal) !webkitVal;`. -/
def invert : Converter := fun webkitVal => .ok (.boolean (!toBoolean webkitVal))

/-- The converter `Number`. -/
def numberConverter (env : PrefEnv) : Converter := fun v => .ok (jsNumber env v)

/-- The converter `function(webkitVal) webkitVal ? 1 : 2` of the rule for
`WebKitDisplayImagesKey`. -/
def imageConverter : Converter := fun webkitVal =>
  .ok (if toBoolean webkitVal then .number 1 else .number 2)

/-- The converter of the rule for `WebKitDefaultTextEncodingName`. When
`getCharsetAlias` throws, the error is reported and `undefined` is returned. -/
def charsetConverter (env : PrefEnv) : Converter := fun webkitCharset =>
  if looseEqualsString env webkitCharset "x-mac-korean" then .ok (.string "EUC-KR")
  else
    match env.getCharsetAlias webkitCharset with
    | some charset => .ok (.string charset)
    | none => .ok .undefined

/-- The converter
`function(webkitVal) webkitVal == 0 ? 0 : webkitVal == 1 ? 2 : 1` of the rule for
`WebKitCookieStorageAcceptPolicy` (under `XP_WIN`). -/
def cookieConverter (env : PrefEnv) : Converter := fun webkitVal =>
  .ok (if looseEqualsNumber env webkitVal 0 then .number 0
    else if looseEqualsNumber env webkitVal 1 then .number 2 else .number 1)

/-- The expression
`aConvertFunction !== undefined ? aConvertFunction(safariVal) : safariVal`. -/
def convert (aConvertFunction : Option Converter) (safariVal : JSValue) :
    Except String JSValue :=
  match aConvertFunction with
  | some f => f safariVal
  | none => .ok safariVal

/-- The method `Preferences.prototype._set`. -/
def _set (dict : PrefDict) (aSafariKey aMozPref : String)
    (aConvertFunction : Option Converter) : PrefM Bool := fun log =>
  -- if (this._dict.has(aSafariKey))
  match dict aSafariKey with
  | some safariVal =>
    match convert aConvertFunction safariVal with
    | .error ex => (log, .error ex)
    | .ok mozVal =>
      -- switch (typeof(mozVal))
      if typeof mozVal = "string" then
        (log ++ [PrefWrite.setCharPref aMozPref mozVal], .ok true)
      else if typeof mozVal = "number" then
        (log ++ [PrefWrite.setIntPref aMozPref mozVal], .ok true)
      else if typeof mozVal = "boolean" then
        (log ++ [PrefWrite.setBoolPref aMozPref mozVal], .ok true)
      else if typeof mozVal = "undefined" then
        (log, .ok false)
      else
        (log, .error ("Unexpected value type: " ++ typeof mozVal))
  -- return true;
  | none => (log, .ok true)

/-- The method `Preferences.prototype._getLocaleLangGroup`. The part of the locale
before the first hyphen is `locale.substr(0, locale.indexOf("-"))`. -/
def _getLocaleLangGroup (env : PrefEnv) : String :=
  let locale := env.locale
  match env.GetStringFromName locale with
  | some localeLangGroup => localeLangGroup
  | none =>
    -- let hyphenAt = locale.indexOf("-"); if (hyphenAt != -1)
    if locale.data.contains '-' then
      match env.GetStringFromName (String.mk (locale.data.takeWhile (fun ch => ch != '-'))) with
      | some localeLangGroup => localeLangGroup
      | none => "x-unicode"
    else "x-unicode"

/-- The first statement of `_migrateFontSettings`: the block
`if (this._dict.has("WebKitMinimumFontSize")) { ... }`. An invalid value is reported
with `Cu.reportError`, which writes nothing. -/
def migrateMinimumFontSize (env : PrefEnv) (dict : PrefDict) : PrefM Unit := fun log =>
  match dict "WebKitMinimumFontSize" with
  | some minimumSize =>
    if typeof minimumSize = "number" then
      -- for (let pref of prefs) Services.prefs.setIntPref(pref, minimumSize);
      (log ++ (env.getChildList "font.minimum-size").map
        (fun pref => PrefWrite.setIntPref pref minimumSize), .ok ())
    else (log, .ok ())
  | none => (log, .ok ())

/-- The rest of `_migrateFontSettings`, from `let lang = this._getLocaleLangGroup();`
to the end: the font settings of the language group of the locale. -/
def migrateLanguageFonts (env : PrefEnv) (dict : PrefDict) : PrefM Unit := fun log =>
  let lang := _getLocaleLangGroup env
  -- let anySet = false;
  let anySet := false
  -- let fontType = Services.prefs.getCharPref("font.default." + lang);
  match env.getCharPref ("font.default." ++ lang) with
  | none => (log, .error "NS_ERROR_UNEXPECTED")
  | some fontType =>
    (andThen (_set dict "WebKitFixedFont" ("font.name.monospace." ++ lang) none) fun r1 =>
    let anySet := anySet || r1
    andThen (_set dict "WebKitDefaultFixedFontSize" ("font.size.fixed." ++ lang) none) fun r2 =>
    let anySet := anySet || r2
    andThen (_set dict "WebKitStandardFont" ("font.name." ++ fontType ++ "." ++ lang) none)
      fun r3 =>
    let anySet := anySet || r3
    andThen (_set dict "WebKitDefaultFontSize" ("font.size.variable." ++ lang) none) fun r4 =>
    let anySet := anySet || r4
    -- if (anySet) Services.prefs.setCharPref("font.language.group", lang);
    fun log4 =>
    if anySet then
      (log4 ++ [PrefWrite.setCharPref "font.language.group" (.string lang)], .ok ())
    else (log4, .ok ())) log

/-- The method `Preferences.prototype._migrateFontSettings`: the minimum font size,
then the font settings of the language group of the locale. -/
def _migrateFontSettings (env : PrefEnv) (dict : PrefDict) : PrefM Unit :=
  andThen (migrateMinimumFontSize env dict) fun _ => migrateLanguageFonts env dict

/-- The method `Preferences.prototype._migrateDownloadsFolder`. `equals` on files is
the equality of their paths. -/
def _migrateDownloadsFolder (env : PrefEnv) (dict : PrefDict) : PrefM Unit := fun log =>
  let key : Option String :=
    if (dict "DownloadsPath").isSome then some "DownloadsPath"
    else if (dict "DownloadPath").isSome then some "DownloadPath"
    else none
  match key with
  | none => (log, .ok ())
  | some key =>
    -- let downloadsFolder = FileUtils.File(this._dict.get(key));
    match env.File ((dict key).getD .undefined) with
    | none => (log, .error "NS_ERROR_FILE_UNRECOGNIZED_PATH")
    | some downloadsFolder =>
      let folderListVal : Int :=
        if downloadsFolder == env.desktopDir then 0
        else if downloadsFolder == env.defaultDownloadsDirectory then 1
        else 2
      (log ++ [PrefWrite.setIntPref "browser.download.folderList" (.number folderListVal),
        PrefWrite.setComplexValue "browser.download.dir" downloadsFolder], .ok ())

/-- The function `migratePrefs(aDict)` that `Preferences.prototype.migrate` hands to
`this._mainPreferencesPropertyList.read`; `aDict = none` is the failure value. -/
def migratePrefs (env : PrefEnv) (aDict : Option PrefDict) : PrefM Unit :=
  match aDict with
  | none => fun log => (log, .error "Could not read preferences file")
  | some dict =>
    andThen (_set dict "AutoFillPasswords" "signon.rememberSignons" none) fun _ =>
    andThen (_set dict "OpenNewTabsInFront" "browser.tabs.loadInBackground" (some invert))
      fun _ =>
    andThen (_set dict "WebKitJavaScriptCanOpenWindowsAutomatically"
      "dom.disable_open_during_load" (some invert)) fun _ =>
    andThen (_set dict "WebContinuousSpellCheckingEnabled" "layout.spellcheckDefault"
      (some (numberConverter env))) fun _ =>
    andThen (_set dict "WebKitDisplayImagesKey" "permissions.default.image"
      (some imageConverter)) fun _ =>
    andThen (_set dict "WebKitDefaultTextEncodingName" "intl.charset.default"
      (some (charsetConverter env))) fun _ =>
    andThen (if env.XP_WIN then
        _set dict "WebKitCookieStorageAcceptPolicy" "network.cookie.cookieBehavior"
          (some (cookieConverter env))
      else fun log => (log, .ok true)) fun _ =>
    andThen (_migrateFontSettings env dict) fun _ =>
    _migrateDownloadsFolder env dict

/-- An example environment: the locale `en-US` has the language group `x-western`,
whose default font type is `serif`; two minimum-size preferences exist. -/
def examplePrefEnv : PrefEnv :=
  { XP_WIN := false
    stringToNumber := fun _ => none
    objectToNumber := fun _ => none
    objectEqualsString := fun _ _ => false
    objectEqualsNumber := fun _ _ => false
    getCharsetAlias := fun _ => none
    getChildList := fun branch =>
      if branch = "font.minimum-size" then
        ["font.minimum-size.x-western", "font.minimum-size.ja"]
      else []
    getCharPref := fun name => if name = "font.default.x-western" then some "serif" else none
    locale := "en-US"
    GetStringFromName := fun name => if name = "en" then some "x-western" else none
    File := fun v =>
      match v with
      | .string path => some path
      | _ => none
    desktopDir := "/Users/me/Desktop"
    defaultDownloadsDirectory := "/Users/me/Downloads" }

/-- The empty preferences dictionary. -/
def emptyPrefDict : PrefDict := fun _ => none

/-- An example dictionary: `AutoFillPasswords` is a date (an object) and
`WebKitDisplayImagesKey` is `true`. -/
def datedPrefDict : PrefDict := fun key =>
  if key = "AutoFillPasswords" then some (.object 0)
  else if key = "WebKitDisplayImagesKey" then some (.boolean true)
  else none

/-- An example dictionary: `WebKitDisplayImagesKey` is `true` and
`WebKitMinimumFontSize` is 0. -/
def imagesPrefDict : PrefDict := fun key =>
  if key = "WebKitDisplayImagesKey" then some (.boolean true)
  else if key = "WebKitMinimumFontSize" then some (.number 0)
  else none

/-- Whether a preference name lies in the branch `font.minimum-size`, the one listed
by `getChildList("font.minimum-size")`. -/
def isMinimumSizePref (name : String) : Bool :=
  name.data.take 17 == "font.minimum-size".data

/-- A method only appends to the log, and every write it appends satisfies `Q`. -/
def Appends {α : Type} (Q : PrefWrite → Prop) (m : PrefM α) : Prop :=
  ∀ log, ∃ ws, (m log).1 = log ++ ws ∧ ∀ w ∈ ws, Q w

/-- A write that does not put a raw boolean into `permissions.default.image`: it is
made to another preference, or through the integer setter with a number. -/
def imageSafe (w : PrefWrite) : Prop :=
  w.name = "permissions.default.image" →
    ∃ v, w = PrefWrite.setIntPref "permissions.default.image" v ∧ typeof v = "number"

/-- The names `migrateLanguageFonts` writes to: in `font.name.`, in `font.size.`, or
`font.language.group`. -/
def fontRuleName (n : String) : Prop :=
  (∃ x, n = "font.name." ++ x) ∨ (∃ x, n = "font.size." ++ x) ∨ n = "font.language.group"

/-! ## Numbers

A number is a finite value, taken as the rational it stands for, NaN or an infinity. -/

/-- A JavaScript number (the result of `ToNumber`). -/
inductive JSNumber where
  | finite (q : ℚ) : JSNumber
  | nan : JSNumber
  | posInf : JSNumber
  | negInf : JSNumber
  deriving DecidableEq

/-- The result of `ToInteger`: an integer or an infinity. -/
inductive JSInteger where
  | finite (n : Int) : JSInteger
  | posInf : JSInteger
  | negInf : JSInteger
  deriving DecidableEq

/-- The abstract operation `ToInteger`: NaN gives 0, a finite value is truncated
towards zero, an infinity is kept. -/
def ToInteger : JSNumber → JSInteger
  | .finite q => .finite (Int.tdiv q.num q.den)
  | .nan => .finite 0
  | .posInf => .posInf
  | .negInf => .negInf

/-- An integer or infinity seen as a number again. -/
def JSInteger.toNumber : JSInteger → JSNumber
  | .finite n => .finite n
  | .posInf => .posInf
  | .negInf => .negInf

/-! ## History -/

/-- An entry of `WebHistoryDates`: the values under the keys `""` (the URL) and
`"title"` (`undefined` when the key is absent) and under `"lastVisitedDate"` (`none`
when `entry.has("lastVisitedDate")` is false). -/
structure HistoryEntry where
  url : JSValue
  title : JSValue
  lastVisitedDate : Option JSValue
  deriving DecidableEq

/-- The history dictionary: `WebHistoryDates` is `none` when the key is absent. -/
structure HistoryDict where
  WebHistoryDates : Option (List HistoryEntry)
  deriving DecidableEq

/-- A visit `{ transitionType, visitDate }`; `visitDate` is the number that
`_parseCocoaDate` returned. -/
structure Visit where
  transitionType : Int
  visitDate : JSNumber
  deriving DecidableEq

/-- A record `{ uri, title, visits }` handed to the history store. -/
structure PlaceInfo where
  uri : URI
  title : JSValue
  visits : List Visit
  deriving DecidableEq

/-- The collaborators of `History` that are not part of the file: the constant
`PlacesUtils.history.TRANSITION_LINK`, the URL parser (`none` when `NetUtil.newURI`
throws), the builtin `parseFloat`, the rounding of the host's double arithmetic (the
double that a product has when its exact value is `q`, an infinity on overflow), and
the local time zone of the host: `LocalTZA` is its offset from UTC and
`DaylightSavingTA t` the daylight saving adjustment at the time value `t`, both in
milliseconds. -/
structure HistoryEnv where
  TRANSITION_LINK : Int
  newURI : JSValue → Option URI
  parseFloat : JSValue → JSNumber
  roundDouble : ℚ → JSNumber
  LocalTZA : Int
  DaylightSavingTA : Int → Int

/-- The constant `msPerDay` of the date algorithms. -/
def msPerDay : Int := 86400000

/-- The constant `msPerHour` of the date algorithms. -/
def msPerHour : Int := 3600000

/-- The constant `msPerMinute` of the date algorithms. -/
def msPerMinute : Int := 60000

/-- The constant `msPerSecond` of the date algorithms. -/
def msPerSecond : Int := 1000

/-- The day number of a time value, `floor(t / msPerDay)`. -/
def Day (t : Int) : Int := t / msPerDay

/-- The hour of a time value, `floor(t / msPerHour) modulo 24`. -/
def HourFromTime (t : Int) : Int := (t / msPerHour) % 24

/-- The minute of a time value, `floor(t / msPerMinute) modulo 60`. -/
def MinFromTime (t : Int) : Int := (t / msPerMinute) % 60

/-- The second of a time value, `floor(t / msPerSecond) modulo 60`. -/
def SecFromTime (t : Int) : Int := (t / msPerSecond) % 60

/-- The local time of a UTC time value: `t + LocalTZA + DaylightSavingTA(t)`. -/
def LocalTime (env : HistoryEnv) (t : Int) : Int :=
  t + env.LocalTZA + env.DaylightSavingTA t

/-- The UTC time value of a local time:
`t - LocalTZA - DaylightSavingTA(t - LocalTZA)`. -/
def UTC (env : HistoryEnv) (t : Int) : Int :=
  t - env.LocalTZA - env.DaylightSavingTA (t - env.LocalTZA)

/-- The operation `MakeTime(hour, min, sec, ms)`: NaN (`none`) when `ms` is not
finite, and otherwise the milliseconds of the fields, with `ms` brought to an integer
by `ToInteger`. -/
def MakeTime (hour min sec : Int) (ms : JSNumber) : Option Int :=
  match ms with
  | .finite q =>
    some (hour * msPerHour + min * msPerMinute + sec * msPerSecond + Int.tdiv q.num q.den)
  | _ => none

/-- The operation `MakeDate(day, time)`. -/
def MakeDate (day time : Int) : Int := day * msPerDay + time

/-- The operation `TimeClip`: NaN (`none`) beyond 8.64e15 milliseconds. -/
def TimeClip (t : Int) : Option Int :=
  if t.natAbs > 8640000000000000 then none else some t

/-- The builtin `Date.prototype.setMilliseconds(ms)` on a date whose time value is
`t`; the result is the new time value, `none` for NaN. The date is taken apart in
local time, the milliseconds field is replaced, and the local time is brought back
to UTC. The sums are those of integers: below the bound of `TimeClip` a double holds
them exactly, and beyond it the result is NaN either way. -/
def Date_setMilliseconds (env : HistoryEnv) (t : Int) (ms : JSNumber) : Option Int :=
  let local_t := LocalTime env t
  match MakeTime (HourFromTime local_t) (MinFromTime local_t) (SecFromTime local_t) ms with
  | some time => TimeClip (UTC env (MakeDate (Day local_t) time))
  | none => none

/-- The product `x * 1000` of doubles. -/
def timesThousand (env : HistoryEnv) : JSNumber → JSNumber
  | .finite q => env.roundDouble (q * 1000)
  | .nan => .nan
  | .posInf => .posInf
  | .negInf => .negInf

/-- The time value of `new Date("1 January 2001, GMT")`, in milliseconds after the
UNIX epoch. -/
def referenceDate : Int := 978307200000

/-- The method `History.prototype._parseCocoaDate`. -/
def _parseCocoaDate (env : HistoryEnv) (aCocoaDateStr : JSValue) : JSNumber :=
  -- let asDouble = parseFloat(aCocoaDateStr);
  let asDouble := env.parseFloat aCocoaDateStr
  -- if (!isNaN(asDouble))
  if asDouble ≠ .nan then
    -- let date = new Date("1 January 2001, GMT"); date.setMilliseconds(asDouble * 1000);
    match Date_setMilliseconds env referenceDate (timesThousand env asDouble) with
    -- return date * 1000;
    | some t => env.roundDouble ((t : ℚ) * 1000)
    | none => .nan
  -- return 0;
  else .finite 0

/-- What `History.prototype.migrate` does that can be seen from outside. -/
inductive HistoryEvent where
  /-- The call `Cu.reportError(ex)`. -/
  | reportError (ex : String) : HistoryEvent
  /-- The call `PlacesUtils.asyncHistory.updatePlaces(places, handler)`. -/
  | updatePlaces (places : List PlaceInfo) : HistoryEvent
  /-- The call `aCallback(aSuccess)`. -/
  | callback (aSuccess : Bool) : HistoryEvent
  deriving DecidableEq

/-- The loop `for (let entry of entries)` of `migrateHistory`, on the array `places`
and the events so far. -/
def historyLoop (env : HistoryEnv) :
    List HistoryEntry → List PlaceInfo → List HistoryEvent →
      List PlaceInfo × List HistoryEvent
  | [], places, t => (places, t)
  | entry :: rest, places, t =>
    -- if (entry.has("lastVisitedDate"))
    match entry.lastVisitedDate with
    | some d =>
      let visitDate := _parseCocoaDate env d
      -- try { places.push({ uri: NetUtil.newURI(entry.get("")), ... }) }
      match env.newURI entry.url with
      | some uri =>
        historyLoop env rest
          (places ++ [{
            uri := uri
            title := entry.title
            visits := [{ transitionType := env.TRANSITION_LINK, visitDate := visitDate }] }])
          t
      -- catch(ex) { Cu.reportError(ex) }
      | none => historyLoop env rest places (t ++ [HistoryEvent.reportError "NS_ERROR_MALFORMED_URI"])
    | none => historyLoop env rest places t

/-- What a piece of code leaves behind: the events in order and the exception that
left it, if any. -/
structure HistoryOutcome where
  trace : List HistoryEvent
  thrown : Option String
  deriving DecidableEq

/-- The statement `aCallback(aSuccess)`. The completion callback belongs to the
caller: it returns normally (`.ok`) or throws (`.error ex`), and the exception leaves
the statement. -/
def callCallback (aCallback : Bool → Except String Unit) (aSuccess : Bool) :
    HistoryOutcome :=
  { trace := [HistoryEvent.callback aSuccess]
    thrown :=
      match aCallback aSuccess with
      | .ok _ => none
      | .error ex => some ex }

/-- The `try` block of `migrateHistory`: the events it made and the exception that
left it. The call `aCallback(false)` of the empty batch stands inside the block. -/
def migrateHistoryTry (env : HistoryEnv) (aCallback : Bool → Except String Unit)
    (aDict : Option HistoryDict) : HistoryOutcome :=
  match aDict with
  | none => { trace := [], thrown := some "Could not read history property list" }
  | some dict =>
    match dict.WebHistoryDates with
    | none => { trace := [], thrown := some "Unexpected history-property list format" }
    | some entries =>
      let r := historyLoop env entries [] []
      -- if (places.length > 0) PlacesUtils.asyncHistory.updatePlaces(places, {...})
      if r.1.length > 0 then
        { trace := r.2 ++ [HistoryEvent.updatePlaces r.1], thrown := none }
      -- else aCallback(false)
      else
        let c := callCallback aCallback false
        { trace := r.2 ++ c.trace, thrown := c.thrown }

/-- The function `migrateHistory(aDict)` handed to `PropertyListUtils.read`:
`try { ... } catch(ex) { Cu.reportError(ex); aCallback(false); }`. An exception of
the `try` block, also one thrown by `aCallback(false)` inside it, reaches the `catch`
block, which calls `aCallback(false)`; what that call throws leaves the function. -/
def migrateHistory (env : HistoryEnv) (aCallback : Bool → Except String Unit)
    (aDict : Option HistoryDict) : HistoryOutcome :=
  let o := migrateHistoryTry env aCallback aDict
  match o.thrown with
  | none => o
  | some ex =>
    let c := callCallback aCallback false
    { trace := o.trace ++ [HistoryEvent.reportError ex] ++ c.trace, thrown := c.thrown }

/-- A notification of the history store to the handler passed to `updatePlaces`, before
the final `handleCompletion`. -/
inductive StoreNotification where
  | handleResult : StoreNotification
  | handleError : StoreNotification
  deriving DecidableEq

/-- The field `_success` of the handler after the given notifications:
`handleResult` sets it to `true`, `handleError` leaves it. -/
def handleNotifications : List StoreNotification → Bool → Bool
  | [], success => success
  | .handleResult :: rest, _ => handleNotifications rest true
  | .handleError :: rest, success => handleNotifications rest success

/-- The calls of `updatePlaces` in a trace, each with its batch. -/
def storeCalls : List HistoryEvent → List (List PlaceInfo)
  | [] => []
  | .updatePlaces places :: t => places :: storeCalls t
  | _ :: t => storeCalls t

/-- The values handed to the completion callback in a trace, in order. -/
def callbackValues : List HistoryEvent → List Bool
  | [] => []
  | .callback b :: t => b :: callbackValues t
  | _ :: t => callbackValues t

/-- The method `History.prototype.migrate`, from the decoded dictionary handed by
`PropertyListUtils.read` to the end of the response of the store: when `updatePlaces`
was called, the store sends the notifications `response` and then one
`handleCompletion`, which calls `aCallback(this._success)`; `_success` starts as
`false`. An exception of that call leaves `handleCompletion`. -/
def History.migrate (env : HistoryEnv) (aCallback : Bool → Except String Unit)
    (aDict : Option HistoryDict) (response : List StoreNotification) : HistoryOutcome :=
  let o := migrateHistory env aCallback aDict
  match storeCalls o.trace with
  | [] => o
  | _ :: _ =>
    let c := callCallback aCallback (handleNotifications response false)
    { trace := o.trace ++ c.trace, thrown := c.thrown }

/-- The record for one history entry, for a given conversion of the timestamp: none
when the entry has no last-visited timestamp or its URL does not parse, and otherwise
the URL, the title and one visit, a link transition at the converted timestamp. -/
def historyRecord (env : HistoryEnv) (convert : JSValue → JSNumber)
    (entry : HistoryEntry) : Option PlaceInfo :=
  match entry.lastVisitedDate with
  | some d =>
    (env.newURI entry.url).map fun uri =>
      { uri := uri
        title := entry.title
        visits := [{ transitionType := env.TRANSITION_LINK, visitDate := convert d }] }
  | none => none

/-- The records of the entries, in order. -/
def expectedBatch (env : HistoryEnv) (convert : JSValue → JSNumber)
    (entries : List HistoryEntry) : List PlaceInfo :=
  entries.filterMap (historyRecord env convert)

/-- The batch of a decode result, with the timestamps that `_parseCocoaDate` gives:
empty when the decode failed or `WebHistoryDates` is absent. -/
def batchOf (env : HistoryEnv) (aDict : Option HistoryDict) : List PlaceInfo :=
  match aDict with
  | some { WebHistoryDates := some entries } =>
    expectedBatch env (_parseCocoaDate env) entries
  | _ => []

/-- The double nearest to 1.001, the value of `parseFloat("1.001")`. -/
def double_1_001 : ℚ := 2254051613498933 / 2251799813685248

/-- A rounding for the examples. The exact product of `double_1_001` by 1000 lies
between the doubles `1001 - 2^-43` and 1001 and is nearer to the first; every other
value used in the examples is an integer below 2^53, hence a double already. -/
def exampleRoundDouble (q : ℚ) : JSNumber :=
  if q = double_1_001 * 1000 then .finite (8804889115230207 / 8796093022208)
  else .finite q

/-- The builtin `parseFloat` on the strings of the examples; NaN for the others. -/
def exampleParseFloat (v : JSValue) : JSNumber :=
  if v = .string "400000000" then .finite 400000000
  else if v = .string "400000001" then .finite 400000001
  else if v = .string "1.001" then .finite double_1_001
  else if v = .string "9000000000000" then .finite 9000000000000
  else .nan

/-- An example environment: `TRANSITION_LINK = 1`, a string parses as a URL unless it
contains a space, and the host is at UTC, without daylight saving time. -/
def exampleHistoryEnv : HistoryEnv :=
  { TRANSITION_LINK := 1
    newURI := fun v =>
      match v with
      | .string u => if u.data.contains ' ' then none else some u
      | _ => none
    parseFloat := exampleParseFloat
    roundDouble := exampleRoundDouble
    LocalTZA := 0
    DaylightSavingTA := fun _ => 0 }

/-- The example environment on a host in the zone America/New_York: five hours
behind UTC, and one hour of daylight saving time from 10 March 2013, 07:00 UTC, to
3 November 2013, 06:00 UTC (the other years are left out). -/
def newYorkHistoryEnv : HistoryEnv :=
  { exampleHistoryEnv with
    LocalTZA := -18000000
    DaylightSavingTA := fun t =>
      if 1362898800000 ≤ t ∧ t < 1383458400000 then 3600000 else 0 }

/-- A completion callback that returns normally. -/
def returningCallback : Bool → Except String Unit := fun _ => .ok ()

/-- A completion callback that throws. -/
def throwingCallback : Bool → Except String Unit := fun _ => .error "callback failed"

/-- The first entry of the scenario of the specification. -/
def historyEntryA : HistoryEntry :=
  { url := .string "http://a.test"
    title := .string "A"
    lastVisitedDate := some (.string "400000000") }

/-- The second entry of the scenario of the specification; its URL does not parse. -/
def historyEntryB : HistoryEntry :=
  { url := .string "not a url"
    title := .string "B"
    lastVisitedDate := some (.string "400000001") }

/-- The history dictionary of the scenario of the specification. -/
def scenarioHistory : HistoryDict :=
  { WebHistoryDates := some [historyEntryA, historyEntryB] }

/-! ## WebFoundationCookieBehavior (under `XP_MACOSX`) -/

/-- The function `migrateCookieBehavior(aDict)` that
`WebFoundationCookieBehavior.prototype.migrate` hands to `PropertyListUtils.read`;
`aDict = none` is the failure value. -/
def migrateCookieBehavior (env : PrefEnv) (aDict : Option PrefDict) : PrefM Unit :=
  fun log =>
  match aDict with
  | none => (log, .error "Could not read com.apple.WebFoundation.plist")
  | some dict =>
    -- if (aDict.has("NSHTTPAcceptCookies"))
    match dict "NSHTTPAcceptCookies" with
    | some acceptCookies =>
      let cookieValue : Int :=
        if looseEqualsString env acceptCookies "never" then 2
        else if looseEqualsString env acceptCookies "current page" then 1
        else 0
      (log ++ [PrefWrite.setIntPref "network.cookie.cookieBehavior" (.number cookieValue)],
        .ok ())
    | none => (log, .ok ())

/-- An example dictionary of `com.apple.WebFoundation.plist`: cookies are accepted from
the current page. -/
def currentPageCookieDict : PrefDict := fun key =>
  if key = "NSHTTPAcceptCookies" then some (.string "current page") else none

/-- An example preferences dictionary: the downloads folder is the desktop of the
example environment, under the key of Windows Safari. -/
def desktopDownloadDict : PrefDict := fun key =>
  if key = "DownloadPath" then some (.string "/Users/me/Desktop") else none

/-! ## String.js

A string is the list of its UTF-16 code units. -/

/-- A JavaScript string: its UTF-16 code units, each below 0x10000. -/
abbrev JSString := List Nat

/-- A string whose code units are all below 0x10000. -/
def JSString.WellFormed (S : JSString) : Prop := ∀ u ∈ S, u < 0x10000

/-- The function `String_codePointAt(pos)` on `this = S`; `pos` is given as the number
`ToNumber(pos)` and `none` is `undefined`. `charCodeAt` is the code unit at the
index. -/
def String_codePointAt (S : JSString) (pos : JSNumber) : Option Nat :=
  -- var position = ToInteger(pos); var size = S.length;
  match ToInteger pos with
  | .negInf => none
  | .posInf => none
  | .finite position =>
    let size : Int := S.length
    -- if (position < 0 || position >= size) return undefined;
    if position < 0 ∨ position ≥ size then none
    else
      let first := S.getD position.toNat 0
      if first < 0xD800 ∨ first > 0xDBFF ∨ position + 1 = size then some first
      else
        let second := S.getD (position + 1).toNat 0
        if second < 0xDC00 ∨ second > 0xDFFF then some first
        else some ((first - 0xD800) * 0x400 + (second - 0xDC00) + 0x10000)

/-- The statement `i++` of the second loop of `String_repeat`. The counter is a
double: below 2^53 the sum `i + 1` is exact; at 2^53, and at every larger power of
two, `i + 1` is not a double and rounds back to `i`. The counter holds no other
value: it leaves the first loop as a power of two and goes up from there in steps of
one. -/
def increment (i : Nat) : Nat := if i < 2 ^ 53 then i + 1 else i

/-- The statement `result += x`, that is `result + x` on strings: the engine throws
when the result would be longer than its maximum string length. -/
def concatStrings (maxLength : Nat) (a b : JSString) : Except String JSString :=
  if a.length + b.length ≤ maxLength then .ok (a ++ b) else .error "JSMSG_ALLOC_OVERFLOW"

/-- The first loop of `String_repeat`,
`for (var i = 1; i <= n / 2; i *= 2) result += result;`, from the state `i`, `result`,
for at most `fuel` tests of the condition: `none` when they do not suffice, and
otherwise the exception thrown or the final `i` and `result`. The quotient `n / 2`
and the product `i * 2` are exact in doubles, so `i <= n / 2` is `2 * i ≤ n`. -/
def repeatDoubling (maxLength n : Nat) :
    Nat → Nat → JSString → Option (Except String (Nat × JSString))
  | 0, _, _ => none
  | fuel + 1, i, result =>
    if 2 * i ≤ n then
      match concatStrings maxLength result result with
      | .ok r => repeatDoubling maxLength n fuel (2 * i) r
      | .error e => some (.error e)
    else some (.ok (i, result))

/-- The second loop of `String_repeat`, `for (; i < n; i++) result += S;`, for at
most `fuel` tests of the condition: `none` when they do not suffice. -/
def repeatAppending (maxLength : Nat) (S : JSString) (n : Nat) :
    Nat → Nat → JSString → Option (Except String JSString)
  | 0, _, _ => none
  | fuel + 1, i, result =>
    if i < n then
      match concatStrings maxLength result S with
      | .ok r => repeatAppending maxLength S n fuel (increment i) r
      | .error e => some (.error e)
    else some (.ok result)

/-- The function `String_repeat(count)` on `this = S`; `count` is given as the number
`ToNumber(count)`, `maxLength` is the maximum string length of the engine, and each
loop may test its condition `fuel` times. The result is `none` when a loop has not
ended by then, `some (.error msg)` when `msg` is thrown and `some (.ok r)` when `r`
is returned. -/
def String_repeat (maxLength fuel : Nat) (S : JSString) (count : JSNumber) :
    Option (Except String JSString) :=
  -- var n = ToInteger(count);
  match ToInteger count with
  -- if (n < 0 || n === std_Number_POSITIVE_INFINITY) ThrowError(JSMSG_REPEAT_RANGE);
  | .negInf => some (.error "JSMSG_REPEAT_RANGE")
  | .posInf => some (.error "JSMSG_REPEAT_RANGE")
  | .finite n =>
    if n < 0 then some (.error "JSMSG_REPEAT_RANGE")
    -- if (n === 0) return "";
    else if n = 0 then some (.ok [])
    else
      -- var result = S;
      match repeatDoubling maxLength n.toNat fuel 1 S with
      | none => none
      | some (.error e) => some (.error e)
      | some (.ok r) => repeatAppending maxLength S n.toNat fuel r.1 r.2

/-- The loop of `String_static_fromCodePoint` over the arguments, each given as the
number `ToNumber(next)`, on the list `elements`. -/
def fromCodePointLoop : List JSNumber → List Nat → Except String (List Nat)
  | [], elements => .ok elements
  | nextCP :: rest, elements =>
    -- if (nextCP !== ToInteger(nextCP) || std_isNaN(nextCP)) ThrowError(...)
    if nextCP ≠ (ToInteger nextCP).toNumber ∨ nextCP = .nan then
      .error "JSMSG_NOT_A_CODEPOINT"
    else
      match nextCP with
      | .nan => .error "JSMSG_NOT_A_CODEPOINT"
      | .negInf => .error "JSMSG_NOT_A_CODEPOINT"
      | .posInf => .error "JSMSG_NOT_A_CODEPOINT"
      | .finite q =>
        -- if (nextCP < 0 || nextCP > 0x10FFFF) ThrowError(...)
        if q < 0 ∨ q > 0x10FFFF then .error "JSMSG_NOT_A_CODEPOINT"
        else
          let cp := q.num.toNat
          if cp ≤ 0xFFFF then fromCodePointLoop rest (elements ++ [cp])
          else
            fromCodePointLoop rest
              (elements ++ [(cp - 0x10000) / 0x400 + 0xD800,
                (cp - 0x10000) % 0x400 + 0xDC00])

/-- The call `std_String_fromCharCode` applied to the list of elements: each element
is brought to 16 bits (ToUint16). -/
def fromCharCode (elements : List Nat) : JSString :=
  elements.map (fun e => e % 0x10000)

/-- The function `String_static_fromCodePoint`, on its arguments given as numbers. -/
def String_static_fromCodePoint (arguments : List JSNumber) : Except String JSString :=
  match fromCodePointLoop arguments [] with
  | .ok elements => .ok (fromCharCode elements)
  | .error msg => .error msg

/-- The concatenation of `n` copies of `S`. -/
def copies (n : Nat) (S : JSString) : JSString := (List.replicate n S).flatten

/-! ## Theorems: MainPreferencesPropertyList -/

theorem calls_append {D : Type} (t u : List (CacheEvent D)) :
    calls (t ++ u) = calls t ++ calls u := by
  induction t with
  | nil => rfl
  | cons e t ih => cases e <;> simp [calls, ih]

theorem startedReads_append {D : Type} (t u : List (CacheEvent D)) :
    startedReads (t ++ u) = startedReads t + startedReads u := by
  induction t with
  | nil => simp [startedReads]
  | cons e t ih =>
    cases e <;> simp [startedReads, ih]
    omega

theorem reported_append {D : Type} (t u : List (CacheEvent D)) :
    reported (t ++ u) = reported t ++ reported u := by
  induction t with
  | nil => rfl
  | cons e t ih => cases e <;> simp [reported, ih]

theorem tryInvoke_thrown {D : Type} (run : Callbacks D) (cb : Nat) (d : Option D) :
    (tryInvoke run cb d).2 = none := by
  unfold tryInvoke invoke
  cases run cb d <;> rfl

theorem calls_tryInvoke {D : Type} (run : Callbacks D) (cb : Nat) (d : Option D) :
    calls (tryInvoke run cb d).1 = [(cb, d)] := by
  unfold tryInvoke invoke
  cases run cb d <;> simp [calls]

theorem startedReads_tryInvoke {D : Type} (run : Callbacks D) (cb : Nat) (d : Option D) :
    startedReads (tryInvoke run cb d).1 = 0 := by
  unfold tryInvoke invoke
  cases run cb d <;> simp [startedReads]

theorem reported_tryInvoke {D : Type} (run : Callbacks D) (cb : Nat) (d : Option D) :
    reported (tryInvoke run cb d).1 = (errorOf run d cb).toList := by
  unfold tryInvoke invoke errorOf
  cases run cb d <;> simp [reported]

theorem forCallbacks_cons {D : Type} (run : Callbacks D) (d : Option D) (cb : Nat)
    (rest : List Nat) :
    forCallbacks run d (cb :: rest) =
      ((tryInvoke run cb d).1 ++ (forCallbacks run d rest).1,
        (forCallbacks run d rest).2) := by
  have h := tryInvoke_thrown run cb d
  rw [forCallbacks]
  generalize tryInvoke run cb d = r at h
  obtain ⟨t, x⟩ := r
  simp only at h
  subst h
  rfl

theorem forCallbacks_thrown {D : Type} (run : Callbacks D) (d : Option D)
    (cbs : List Nat) : (forCallbacks run d cbs).2 = none := by
  induction cbs with
  | nil => rfl
  | cons cb rest ih => rw [forCallbacks_cons]; exact ih

theorem calls_forCallbacks {D : Type} (run : Callbacks D) (d : Option D)
    (cbs : List Nat) :
    calls (forCallbacks run d cbs).1 = cbs.map (fun cb => (cb, d)) := by
  induction cbs with
  | nil => rfl
  | cons cb rest ih =>
    rw [forCallbacks_cons]
    simp [calls_append, calls_tryInvoke, ih]

theorem startedReads_forCallbacks {D : Type} (run : Callbacks D) (d : Option D)
    (cbs : List Nat) : startedReads (forCallbacks run d cbs).1 = 0 := by
  induction cbs with
  | nil => rfl
  | cons cb rest ih =>
    rw [forCallbacks_cons]
    simp [startedReads_append, startedReads_tryInvoke, ih]

theorem reported_forCallbacks {D : Type} (run : Callbacks D) (d : Option D)
    (cbs : List Nat) :
    reported (forCallbacks run d cbs).1 = cbs.filterMap (errorOf run d) := by
  induction cbs with
  | nil => rfl
  | cons cb rest ih =>
    rw [forCallbacks_cons]
    simp only [reported_append, reported_tryInvoke, ih, List.filterMap_cons]
    cases errorOf run d cb <;> simp

theorem readPrefs_eq {D : Type} (run : Callbacks D) (s : MainPreferencesPropertyList D)
    (d : Option D) :
    readPrefs run s d =
      { state := { _dict := some d, _callbacks := [] },
        trace := (forCallbacks run d s._callbacks).1,
        thrown := none } := by
  have h := forCallbacks_thrown run d s._callbacks
  unfold readPrefs
  simp only
  generalize forCallbacks run d s._callbacks = r at h
  obtain ⟨t, x⟩ := r
  simp only at h
  subst h
  rfl

theorem read_pending {D : Type} (run : Callbacks D) (s : MainPreferencesPropertyList D)
    (cb : Nat) (h : s._dict = none) :
    read run s cb =
      { state := { _dict := none, _callbacks := s._callbacks ++ [cb] },
        trace := if s._callbacks = [] then [CacheEvent.startRead] else [],
        thrown := none } := by
  obtain ⟨dict, cbs⟩ := s
  simp only at h
  subst h
  cases cbs <;> simp [read]

theorem read_done {D : Type} (run : Callbacks D) (s : MainPreferencesPropertyList D)
    (cb : Nat) (d : Option D) (h : s._dict = some d) :
    read run s cb =
      { state := s, trace := [CacheEvent.call cb d], thrown := errorOf run d cb } := by
  obtain ⟨dict, cbs⟩ := s
  simp only at h
  subst h
  simp only [read, invoke, errorOf]

theorem readAll_pending {D : Type} (run : Callbacks D) (cbs : List Nat) :
    ∀ s : MainPreferencesPropertyList D, s._dict = none →
      (readAll run s cbs).1 = { _dict := none, _callbacks := s._callbacks ++ cbs } ∧
      calls (readAll run s cbs).2 = [] ∧
      startedReads (readAll run s cbs).2 =
        (if s._callbacks = [] ∧ cbs ≠ [] then 1 else 0) := by
  induction cbs with
  | nil =>
    intro s h
    obtain ⟨dict, q⟩ := s
    simp only at h
    subst h
    simp [readAll, calls, startedReads]
  | cons cb rest ih =>
    intro s h
    have ih1 := ih { _dict := none, _callbacks := s._callbacks ++ [cb] } rfl
    simp only [readAll, read_pending run s cb h, calls_append, startedReads_append]
    obtain ⟨h1, h2, h3⟩ := ih1
    refine ⟨?_, ?_, ?_⟩
    · rw [h1]; simp
    · rw [h2]; split <;> simp [calls]
    · rw [h3]; by_cases hq : s._callbacks = [] <;> simp [hq, startedReads]

theorem readAll_done {D : Type} (run : Callbacks D) (d : Option D) (cbs : List Nat) :
    ∀ s : MainPreferencesPropertyList D, s._dict = some d →
      (readAll run s cbs).1 = s ∧
      calls (readAll run s cbs).2 = cbs.map (fun cb => (cb, d)) ∧
      startedReads (readAll run s cbs).2 = 0 := by
  induction cbs with
  | nil => intro s _; simp [readAll, calls, startedReads]
  | cons cb rest ih =>
    intro s h
    obtain ⟨h1, h2, h3⟩ := ih s h
    simp only [readAll, read_done run s cb d h, calls_append, startedReads_append]
    exact ⟨h1, by simp [calls, h2], by simp [startedReads, h3]⟩

/-- C1: `read` is single-flight. When `read` is called N >= 1 times on a fresh cache
before the underlying `PropertyListUtils.read` completes, the underlying read is
started exactly once and no callback runs yet; when it then completes with result `d`,
each of the N callbacks is invoked with `d`, N invocations are made in all, none with
another argument, and no further read is started. -/
theorem C1_read_single_flight {D : Type} (run : Callbacks D) (cbs : List Nat)
    (d : Option D) (hN : 1 ≤ cbs.length) :
    startedReads (readAll run (MainPreferencesPropertyList.new D) cbs).2 = 1 ∧
    calls (readAll run (MainPreferencesPropertyList.new D) cbs).2 = [] ∧
    (∀ cb ∈ cbs, (cb, d) ∈
      calls (readPrefs run (readAll run (MainPreferencesPropertyList.new D) cbs).1 d).trace) ∧
    (calls (readPrefs run (readAll run (MainPreferencesPropertyList.new D) cbs).1 d).trace).length
      = cbs.length ∧
    (∀ c ∈ calls (readPrefs run (readAll run (MainPreferencesPropertyList.new D) cbs).1 d).trace,
      c.2 = d) ∧
    startedReads (readPrefs run (readAll run (MainPreferencesPropertyList.new D) cbs).1 d).trace
      = 0 := by
  have hne : cbs ≠ [] := by
    intro h
    rw [h] at hN
    simp at hN
  obtain ⟨h1, h2, h3⟩ := readAll_pending run cbs (MainPreferencesPropertyList.new D) rfl
  have hq : (readAll run (MainPreferencesPropertyList.new D) cbs).1._callbacks = cbs := by
    rw [h1]; simp [MainPreferencesPropertyList.new]
  refine ⟨?_, h2, ?_, ?_, ?_, ?_⟩
  · rw [h3]; simp [MainPreferencesPropertyList.new, hne]
  · intro cb hcb
    rw [readPrefs_eq, calls_forCallbacks, hq]
    exact List.mem_map.mpr ⟨cb, hcb, rfl⟩
  · rw [readPrefs_eq, calls_forCallbacks, hq, List.length_map]
  · intro c hc
    rw [readPrefs_eq, calls_forCallbacks, hq] at hc
    obtain ⟨cb, _, rfl⟩ := List.mem_map.mp hc
    rfl
  · rw [readPrefs_eq, startedReads_forCallbacks]

/-- Witness of C1: three reads (callbacks 1, 2, 3) on a fresh cache, completion with
dictionary 5. -/
theorem C1_read_single_flight_witness :
    1 ≤ [1, 2, 3].length ∧
    startedReads (readAll oddThrow (MainPreferencesPropertyList.new Nat) [1, 2, 3]).2 = 1 ∧
    (∀ cb ∈ [1, 2, 3], (cb, some 5) ∈
      calls (readPrefs oddThrow
        (readAll oddThrow (MainPreferencesPropertyList.new Nat) [1, 2, 3]).1 (some 5)).trace) :=
  ⟨by decide,
    (C1_read_single_flight oddThrow [1, 2, 3] (some 5) (by decide)).1,
    (C1_read_single_flight oddThrow [1, 2, 3] (some 5) (by decide)).2.2.1⟩

/-- C2: when the in-flight decode completes with `d`, the callbacks queued by `read` are
invoked once each in the order in which they were registered (the invocations are
exactly the pending list, in order, each with `d`), the pending list is empty
afterwards, and the pending list built by successive reads on a fresh cache is the
list of their callbacks in call order. -/
theorem C2_fanout_in_registration_order {D : Type} (run : Callbacks D)
    (s : MainPreferencesPropertyList D) (d : Option D) (cbs : List Nat) :
    calls (readPrefs run s d).trace = s._callbacks.map (fun cb => (cb, d)) ∧
    (readPrefs run s d).state._callbacks = [] ∧
    (readAll run (MainPreferencesPropertyList.new D) cbs).1._callbacks = cbs ∧
    calls (readPrefs run (readAll run (MainPreferencesPropertyList.new D) cbs).1 d).trace
      = cbs.map (fun cb => (cb, d)) := by
  have hq : (readAll run (MainPreferencesPropertyList.new D) cbs).1._callbacks = cbs := by
    rw [(readAll_pending run cbs (MainPreferencesPropertyList.new D) rfl).1]
    simp [MainPreferencesPropertyList.new]
  refine ⟨?_, ?_, hq, ?_⟩
  · rw [readPrefs_eq, calls_forCallbacks]
  · rw [readPrefs_eq]
  · rw [readPrefs_eq, calls_forCallbacks, hq]

/-- C3: once a decode has completed with result `d` (a dictionary or the failure value
`none`), a later `read(cb)` invokes `cb` with `d` and does nothing else (no decode is
started), and leaves the object as it was, with `_dict = d` and an empty pending list;
hence the same holds for every sequence of later reads. -/
theorem C3_read_after_completion {D : Type} (run : Callbacks D)
    (s : MainPreferencesPropertyList D) (d : Option D) (cb : Nat) (later : List Nat) :
    (read run (readPrefs run s d).state cb).trace = [CacheEvent.call cb d] ∧
    (read run (readPrefs run s d).state cb).state = (readPrefs run s d).state ∧
    (readPrefs run s d).state = { _dict := some d, _callbacks := [] } ∧
    (readAll run (readPrefs run s d).state later).1 = (readPrefs run s d).state ∧
    calls (readAll run (readPrefs run s d).state later).2 = later.map (fun c => (c, d)) ∧
    startedReads (readAll run (readPrefs run s d).state later).2 = 0 := by
  have hs : (readPrefs run s d).state = { _dict := some d, _callbacks := [] } := by
    rw [readPrefs_eq]
  have hd : (readPrefs run s d).state._dict = some d := by rw [hs]
  obtain ⟨h1, h2, h3⟩ := readAll_done run d later (readPrefs run s d).state hd
  refine ⟨?_, ?_, hs, h1, h2, h3⟩
  · rw [read_done run _ cb d hd]
  · rw [read_done run _ cb d hd]

/-- C4: in the fan-out on decode completion no exception escapes the completion
handler, whichever callbacks throw; every queued callback (throwing or not) is invoked
with the decoded result, so each non-throwing one is; and the errors reported to the
diagnostic sink are exactly the exceptions thrown, in order. -/
theorem C4_fanout_survives_throwing_callbacks {D : Type} (run : Callbacks D)
    (s : MainPreferencesPropertyList D) (d : Option D) :
    (readPrefs run s d).thrown = none ∧
    (∀ cb ∈ s._callbacks, run cb d = .ok () →
      (cb, d) ∈ calls (readPrefs run s d).trace) ∧
    (∀ cb ∈ s._callbacks, ∀ ex, run cb d = .error ex →
      (cb, d) ∈ calls (readPrefs run s d).trace ∧ ex ∈ reported (readPrefs run s d).trace) ∧
    reported (readPrefs run s d).trace = s._callbacks.filterMap (errorOf run d) ∧
    (calls (readPrefs run s d).trace).length = s._callbacks.length := by
  have hc : calls (readPrefs run s d).trace = s._callbacks.map (fun cb => (cb, d)) := by
    rw [readPrefs_eq, calls_forCallbacks]
  have hr : reported (readPrefs run s d).trace = s._callbacks.filterMap (errorOf run d) := by
    rw [readPrefs_eq, reported_forCallbacks]
  refine ⟨?_, ?_, ?_, hr, ?_⟩
  · rw [readPrefs_eq]
  · intro cb hcb _
    rw [hc]
    exact List.mem_map.mpr ⟨cb, hcb, rfl⟩
  · intro cb hcb ex hex
    refine ⟨?_, ?_⟩
    · rw [hc]
      exact List.mem_map.mpr ⟨cb, hcb, rfl⟩
    · rw [hr]
      exact List.mem_filterMap.mpr ⟨cb, hcb, by simp [errorOf, hex]⟩
  · rw [hc, List.length_map]

/-- Witness of C4: the pending list 1, 2, 3 where callbacks 1 and 3 throw; callback 2
is still invoked and the exception of callback 1 is reported. -/
theorem C4_fanout_survives_throwing_callbacks_witness :
    (2, some 5) ∈ calls (readPrefs oddThrow { _dict := none, _callbacks := [1, 2, 3] }
      (some 5)).trace ∧
    "odd callback failed" ∈ reported (readPrefs oddThrow
      { _dict := none, _callbacks := [1, 2, 3] } (some 5)).trace :=
  ⟨(C4_fanout_survives_throwing_callbacks oddThrow
      { _dict := none, _callbacks := [1, 2, 3] } (some 5)).2.1 2 (by decide) rfl,
    ((C4_fanout_survives_throwing_callbacks oddThrow
      { _dict := none, _callbacks := [1, 2, 3] } (some 5)).2.2.1 1 (by decide)
      "odd callback failed" rfl).2⟩

/-! ## Theorems: Bookmarks -/

theorem migrateCollection_root (env : Env) (es : List Entry) (st : Store) :
    _migrateCollection env es ROOT_COLLECTION st =
      match es.foldl (rootStep env) (.ok (st, [])) with
      | .error ex => .error ex
      | .ok (st1, entriesFiltered) =>
        if entriesFiltered.length == 0 then .ok st1
        else .ok (_migrateEntries env entriesFiltered env.unfiledBookmarksFolderId st1) := by
  rw [_migrateCollection]
  simp only [↓reduceDIte, ↓reduceIte]
  rfl

theorem migrateCollection_nonroot (env : Env) (es : List Entry) (c : Int) (st : Store)
    (hc : c ≠ ROOT_COLLECTION) :
    _migrateCollection env es c st =
      if es.length == 0 then .ok st
      else if c = MENU_COLLECTION then
        if !env.isStartupMigration then
          .ok (_migrateEntries env es (env.newFolderId st)
            (st ++ [Write.createImportedBookmarksFolder "Safari" env.bookmarksMenuFolderId]))
        else .ok (_migrateEntries env es env.bookmarksMenuFolderId st)
      else if c = TOOLBAR_COLLECTION then
        if !env.isStartupMigration then
          .ok (_migrateEntries env es (env.newFolderId st)
            (st ++ [Write.createImportedBookmarksFolder "Safari" env.toolbarFolderId]))
        else .ok (_migrateEntries env es env.toolbarFolderId st)
      else if c = READING_LIST_COLLECTION then
        .ok (_migrateEntries env es (env.newFolderId st)
          (st ++ [Write.createFolder env.bookmarksMenuFolderId
            (some (env.getLocalizedString "importedSafariReadingList")) env.DEFAULT_INDEX]))
      else .error { message := "Unexpected value for aCollection!", store := st } := by
  rw [_migrateCollection]
  simp only [hc, ↓reduceDIte, ↓reduceIte]

theorem reservedCollection_cases (title : Option String) (c : Int)
    (h : reservedCollection title = some c) :
    (title = some "BookmarksBar" ∧ c = TOOLBAR_COLLECTION) ∨
    (title ≠ some "BookmarksBar" ∧ title = some "BookmarksMenu" ∧ c = MENU_COLLECTION) ∨
    (title ≠ some "BookmarksBar" ∧ title ≠ some "BookmarksMenu" ∧
      title = some "com.apple.ReadingList" ∧ c = READING_LIST_COLLECTION) := by
  unfold reservedCollection at h
  split at h
  · left; exact ⟨by assumption, by simpa using h.symm⟩
  · split at h
    · right; left; exact ⟨by assumption, by assumption, by simpa using h.symm⟩
    · split at h
      · right; right
        exact ⟨by assumption, by assumption, by assumption, by simpa using h.symm⟩
      · simp at h

theorem reservedCollection_none (title : Option String)
    (h : reservedCollection title = none) :
    title ≠ some "BookmarksBar" ∧ title ≠ some "BookmarksMenu" ∧
      title ≠ some "com.apple.ReadingList" := by
  unfold reservedCollection at h
  split at h
  · simp at h
  · split at h
    · simp at h
    · split at h
      · simp at h
      · exact ⟨by assumption, by assumption, by assumption⟩

theorem rootStep_classify (env : Env) (s : Store) (acc : List Entry) (e : Entry) :
    rootStep env (.ok (s, acc)) e =
      match classifyRoot e with
      | .collection cs c => (_migrateCollection env cs c s).map (fun s1 => (s1, acc))
      | .keep => .ok (s, acc ++ [e])
      | .drop => .ok (s, acc) := by
  unfold classifyRoot
  by_cases hf : e.isFolder = true
  · have hf2 : (e.WebBookmarkType == some "WebBookmarkTypeList" && e.Children.isSome) = true := hf
    simp only [rootStep, hf2, hf, ↓reduceIte]
    cases hr : reservedCollection e.Title with
    | some c =>
      rcases reservedCollection_cases _ _ hr with ⟨h1, h2⟩ | ⟨h0, h1, h2⟩ | ⟨h0, h0b, h1, h2⟩
      · simp [h1, h2]
      · simp [h1, h2]
      · simp [h1, h2]
    | none =>
      obtain ⟨h1, h2, h3⟩ := reservedCollection_none _ hr
      by_cases ho : e.ShouldOmitFromUI = some true
      · simp [h1, h2, h3, ho]
      · simp [h1, h2, h3, ho]
  · have hf2 : (e.WebBookmarkType == some "WebBookmarkTypeList" && e.Children.isSome) = false := by
      simpa [Entry.isFolder] using hf
    have hf3 : e.isFolder = false := by simpa using hf
    simp only [rootStep, hf2, hf3]
    by_cases hl : e.isLeafType = true
    · have hl2 : (e.WebBookmarkType == some "WebBookmarkTypeLeaf") = true := hl
      simp [hl2, hl]
    · have hl2 : (e.WebBookmarkType == some "WebBookmarkTypeLeaf") = false := by
        simpa [Entry.isLeafType] using hl
      simp [hl2, hl]

theorem foldl_rootStep_error (env : Env) (ex : Thrown) (es : List Entry) :
    es.foldl (rootStep env) (.error ex) = .error ex := by
  induction es with
  | nil => rfl
  | cons e rest ih => simpa [List.foldl_cons, rootStep] using ih

theorem keptAtRoot_iff (e : Entry) : keptAtRoot e = true ↔ classifyRoot e = .keep := by
  unfold keptAtRoot classifyRoot
  by_cases hf : e.isFolder = true
  · have hl : e.isLeafType = false := by
      simp only [Entry.isFolder, Bool.and_eq_true, beq_iff_eq] at hf
      simp [Entry.isLeafType, hf.1]
    simp only [hf, hl, ↓reduceIte]
    cases hr : reservedCollection e.Title with
    | some c => simp
    | none => by_cases ho : e.ShouldOmitFromUI = some true <;> simp [ho]
  · have hf3 : e.isFolder = false := by simpa using hf
    simp only [hf3]
    by_cases hl : e.isLeafType = true <;> simp [hl]

theorem subCollections_cons (e : Entry) (rest : List Entry) :
    subCollections (e :: rest) =
      match classifyRoot e with
      | .collection cs c => (cs, c) :: subCollections rest
      | _ => subCollections rest := by
  rw [subCollections]

theorem root_fold (env : Env) (es : List Entry) :
    ∀ (s : Store) (acc : List Entry),
      es.foldl (rootStep env) (.ok (s, acc)) =
        match migrateCollections env (subCollections es) s with
        | .error ex => .error ex
        | .ok s1 => .ok (s1, acc ++ es.filter keptAtRoot) := by
  induction es with
  | nil => intro s acc; simp [subCollections, migrateCollections]
  | cons e rest ih =>
    intro s acc
    rw [List.foldl_cons, rootStep_classify, subCollections_cons, List.filter_cons]
    cases hc : classifyRoot e with
    | collection cs c =>
      have hk : keptAtRoot e = false := by
        cases hk : keptAtRoot e with
        | false => rfl
        | true => rw [(keptAtRoot_iff e).mp hk] at hc; cases hc
      simp only [hk, migrateCollections]
      cases hm : _migrateCollection env cs c s with
      | error ex => simp [Except.map, foldl_rootStep_error]
      | ok s1 => simp [Except.map, ih]
    | keep =>
      have hk : keptAtRoot e = true := (keptAtRoot_iff e).mpr hc
      simp only [hk, ↓reduceIte, ih]
      cases migrateCollections env (subCollections rest) s <;> simp
    | drop =>
      have hk : keptAtRoot e = false := by
        cases hk : keptAtRoot e with
        | false => rfl
        | true => rw [(keptAtRoot_iff e).mp hk] at hc; cases hc
      simp only [hk, ih]
      cases migrateCollections env (subCollections rest) s <;> simp

theorem migrateCollection_root_eq (env : Env) (es : List Entry) (st : Store) :
    _migrateCollection env es ROOT_COLLECTION st =
      match migrateCollections env (subCollections es) st with
      | .error ex => .error ex
      | .ok s1 =>
        if (es.filter keptAtRoot).isEmpty then .ok s1
        else .ok (_migrateEntries env (es.filter keptAtRoot) env.unfiledBookmarksFolderId s1) := by
  rw [migrateCollection_root, root_fold]
  cases migrateCollections env (subCollections es) st with
  | error ex => rfl
  | ok s1 =>
    simp only [List.nil_append]
    cases hk : es.filter keptAtRoot with
    | nil => rfl
    | cons a l => rfl

theorem classifyRoot_tag (e : Entry) (cs : List Entry) (c : Int)
    (h : classifyRoot e = .collection cs c) :
    e.isFolder = true ∧ reservedCollection e.Title = some c ∧ cs = e.Children.getD [] ∧
    (c = MENU_COLLECTION ∨ c = TOOLBAR_COLLECTION ∨ c = READING_LIST_COLLECTION) := by
  unfold classifyRoot at h
  by_cases hf : e.isFolder = true
  · simp only [hf, ↓reduceIte] at h
    cases hr : reservedCollection e.Title with
    | none =>
      rw [hr] at h
      simp only at h
      split at h <;> cases h
    | some c2 =>
      rw [hr] at h
      simp only [RootClass.collection.injEq] at h
      obtain ⟨h1, h2⟩ := h
      subst h2
      refine ⟨hf, rfl, h1.symm, ?_⟩
      rcases reservedCollection_cases _ _ hr with ⟨_, h2⟩ | ⟨_, _, h2⟩ | ⟨_, _, _, h2⟩
      · exact Or.inr (Or.inl h2)
      · exact Or.inl h2
      · exact Or.inr (Or.inr h2)
  · have hf3 : e.isFolder = false := by simpa using hf
    simp only [hf3, Bool.false_eq_true, ↓reduceIte] at h
    split at h <;> cases h

theorem inserts_append (a b : Store) : inserts (a ++ b) = inserts a + inserts b := by
  simp [inserts, List.countP_append]

theorem importedFolders_append (a b : Store) :
    importedFolders (a ++ b) = importedFolders a + importedFolders b := by
  simp [importedFolders, List.countP_append]

mutual
theorem inserts_migrateEntries (env : Env) :
    ∀ (es : List Entry) (f : FolderId) (st : Store),
      inserts (_migrateEntries env es f st) = inserts st + leafCountList env es
  | [], f, st => by simp [_migrateEntries, leafCountList]
  | e :: rest, f, st => by
    rw [_migrateEntries, inserts_migrateEntries env rest, inserts_migrateEntry env e,
      leafCountList]
    omega
theorem inserts_migrateEntry (env : Env) :
    ∀ (e : Entry) (f : FolderId) (st : Store),
      inserts (migrateEntry env e f st) = inserts st + leafCount env e
  | .mk ty title om url ud none, f, st => by
    by_cases h1 : ty = some "WebBookmarkTypeList"
    · simp [migrateEntry, leafCount, h1]
    · by_cases h2 : ty = some "WebBookmarkTypeLeaf"
      · cases url with
        | none => simp [migrateEntry, leafCount, h2]
        | some u =>
          cases hu : env.newURI u <;>
            simp [migrateEntry, leafCount, h2, hu, inserts_append, inserts]
      · simp [migrateEntry, leafCount, h1, h2]
  | .mk ty title om url ud (some cs), f, st => by
    by_cases h1 : ty = some "WebBookmarkTypeList"
    · simp only [migrateEntry, leafCount, h1, beq_self_eq_true, Option.isSome_some,
        Bool.and_self, ↓reduceIte]
      rw [inserts_migrateEntries env cs, inserts_append]
      simp [inserts]
    · by_cases h2 : ty = some "WebBookmarkTypeLeaf"
      · cases url with
        | none => simp [migrateEntry, leafCount, h2]
        | some u =>
          cases hu : env.newURI u <;>
            simp [migrateEntry, leafCount, h2, hu, inserts_append, inserts]
      · simp [migrateEntry, leafCount, h1, h2]
end

mutual
theorem importedFolders_migrateEntries (env : Env) :
    ∀ (es : List Entry) (f : FolderId) (st : Store),
      importedFolders (_migrateEntries env es f st) = importedFolders st
  | [], f, st => by simp [_migrateEntries]
  | e :: rest, f, st => by
    rw [_migrateEntries, importedFolders_migrateEntries env rest,
      importedFolders_migrateEntry env e]
theorem importedFolders_migrateEntry (env : Env) :
    ∀ (e : Entry) (f : FolderId) (st : Store),
      importedFolders (migrateEntry env e f st) = importedFolders st
  | .mk ty title om url ud none, f, st => by
    by_cases h1 : ty = some "WebBookmarkTypeList"
    · simp [migrateEntry, h1]
    · by_cases h2 : ty = some "WebBookmarkTypeLeaf"
      · cases url with
        | none => simp [migrateEntry, h2]
        | some u =>
          cases hu : env.newURI u <;>
            simp [migrateEntry, h2, hu, importedFolders_append, importedFolders]
      · simp [migrateEntry, h1, h2]
  | .mk ty title om url ud (some cs), f, st => by
    by_cases h1 : ty = some "WebBookmarkTypeList"
    · simp only [migrateEntry, h1, beq_self_eq_true, Option.isSome_some,
        Bool.and_self, ↓reduceIte]
      rw [importedFolders_migrateEntries env cs, importedFolders_append]
      simp [importedFolders]
    · by_cases h2 : ty = some "WebBookmarkTypeLeaf"
      · cases url with
        | none => simp [migrateEntry, h2]
        | some u =>
          cases hu : env.newURI u <;>
            simp [migrateEntry, h2, hu, importedFolders_append, importedFolders]
      · simp [migrateEntry, h1, h2]
end

theorem leafCountList_append (env : Env) (a b : List Entry) :
    leafCountList env (a ++ b) = leafCountList env a + leafCountList env b := by
  induction a with
  | nil => simp [leafCountList]
  | cons e rest ih =>
    rw [List.cons_append, leafCountList, leafCountList, ih]
    omega

theorem keptAtRoot_of_classify_ne (e : Entry) (h : classifyRoot e ≠ .keep) :
    keptAtRoot e = false := by
  cases hk : keptAtRoot e with
  | false => rfl
  | true => exact absurd ((keptAtRoot_iff e).mp hk) h

theorem valid_tag_ne_root (c : Int)
    (h : c = MENU_COLLECTION ∨ c = TOOLBAR_COLLECTION ∨ c = READING_LIST_COLLECTION) :
    c ≠ ROOT_COLLECTION := by
  rcases h with h | h | h <;> subst h <;> decide

theorem inserts_singleton_imported (a : String) (b : FolderId) :
    inserts [Write.createImportedBookmarksFolder a b] = 0 := rfl

theorem inserts_singleton_folder (a : FolderId) (b : Option String) (c : Int) :
    inserts [Write.createFolder a b c] = 0 := rfl

theorem nonroot_ok (env : Env) (cs : List Entry) (c : Int) (st : Store)
    (h : c = MENU_COLLECTION ∨ c = TOOLBAR_COLLECTION ∨ c = READING_LIST_COLLECTION) :
    ∃ s1, _migrateCollection env cs c st = .ok s1 ∧
      inserts s1 = inserts st + leafCountList env cs := by
  rw [migrateCollection_nonroot env cs c st (valid_tag_ne_root c h)]
  cases cs with
  | nil => exact ⟨st, by simp, by simp [leafCountList]⟩
  | cons e rest =>
    simp only [List.length_cons, Nat.add_one_ne_zero, beq_iff_eq, ↓reduceIte]
    rcases h with h | h | h <;> subst h <;>
      cases env.isStartupMigration <;>
      simp [MENU_COLLECTION, TOOLBAR_COLLECTION, READING_LIST_COLLECTION,
        inserts_migrateEntries, inserts_append, inserts_singleton_imported,
        inserts_singleton_folder]

theorem migrateCollections_sub (env : Env) (es : List Entry) :
    ∀ st : Store, ∃ s1, migrateCollections env (subCollections es) st = .ok s1 ∧
      inserts s1 + leafCountList env (es.filter keptAtRoot) =
        inserts st + leafCountList env (filteredTree es) := by
  induction es with
  | nil => intro st; exact ⟨st, by simp [subCollections, migrateCollections, filteredTree]⟩
  | cons e rest ih =>
    intro st
    rw [subCollections_cons, List.filter_cons, filteredTree]
    cases hc : classifyRoot e with
    | collection cs c =>
      have hk : keptAtRoot e = false := keptAtRoot_of_classify_ne e (by rw [hc]; simp)
      obtain ⟨s0, h0, hi0⟩ := nonroot_ok env cs c st (classifyRoot_tag e cs c hc).2.2.2
      obtain ⟨s1, h1, hi1⟩ := ih s0
      refine ⟨s1, ?_, ?_⟩
      · simp only [migrateCollections, h0, h1]
      · simp only [hk, leafCountList_append]
        simp only [Bool.false_eq_true, ↓reduceIte]
        omega
    | keep =>
      have hk : keptAtRoot e = true := (keptAtRoot_iff e).mpr hc
      obtain ⟨s1, h1, hi1⟩ := ih st
      refine ⟨s1, h1, ?_⟩
      simp only [hk, ↓reduceIte, leafCountList]
      omega
    | drop =>
      have hk : keptAtRoot e = false := keptAtRoot_of_classify_ne e (by rw [hc]; simp)
      obtain ⟨s1, h1, hi1⟩ := ih st
      refine ⟨s1, h1, ?_⟩
      simp only [hk, Bool.false_eq_true, ↓reduceIte]
      exact hi1

theorem root_cons_collection (env : Env) (e : Entry) (rest cs : List Entry) (c : Int)
    (st : Store) (hc : classifyRoot e = .collection cs c) :
    _migrateCollection env (e :: rest) ROOT_COLLECTION st =
      match _migrateCollection env cs c st with
      | .error ex => .error ex
      | .ok s1 => _migrateCollection env rest ROOT_COLLECTION s1 := by
  have hk : keptAtRoot e = false := keptAtRoot_of_classify_ne e (by rw [hc]; simp)
  rw [migrateCollection_root_eq, subCollections_cons, List.filter_cons, hc]
  simp only [hk, Bool.false_eq_true, ↓reduceIte, migrateCollections]
  cases _migrateCollection env cs c st with
  | error ex => rfl
  | ok s1 => simp only [migrateCollection_root_eq]

theorem root_cons_drop (e : Entry) (rest : List Entry)
    (hc : classifyRoot e = .drop) :
    subCollections (e :: rest) = subCollections rest ∧
    (e :: rest).filter keptAtRoot = rest.filter keptAtRoot := by
  have hk : keptAtRoot e = false := keptAtRoot_of_classify_ne e (by rw [hc]; simp)
  rw [subCollections_cons, List.filter_cons, hc]
  simp [hk]

theorem migrateEntries_unparsable_leaf (env : Env) (title : Option String)
    (om : Option Bool) (u : String) (ud : Option URIDictionary)
    (ch : Option (List Entry)) (rest : List Entry) (f : FolderId) (st : Store)
    (hu : env.newURI u = none) :
    _migrateEntries env (.mk (some "WebBookmarkTypeLeaf") title om (some u) ud ch :: rest) f st
      = _migrateEntries env rest f st := by
  rw [_migrateEntries]
  congr 1
  simp [migrateEntry, hu]

theorem classifyRoot_reserved (e : Entry) (c : Int) (hf : e.isFolder = true)
    (hr : reservedCollection e.Title = some c) :
    classifyRoot e = .collection (e.Children.getD []) c := by
  simp [classifyRoot, hf, hr]

theorem classifyRoot_omitted (e : Entry) (hf : e.isFolder = true)
    (hr : reservedCollection e.Title = none) (ho : e.ShouldOmitFromUI = some true) :
    classifyRoot e = .drop := by
  simp [classifyRoot, hf, hr, ho]

theorem subCollections_append (a b : List Entry) :
    subCollections (a ++ b) = subCollections a ++ subCollections b := by
  induction a with
  | nil => simp [subCollections]
  | cons e rest ih =>
    rw [List.cons_append, subCollections_cons, subCollections_cons, ih]
    cases classifyRoot e <;> simp

theorem migrateCollection_root_ok (env : Env) (es : List Entry) (st : Store) :
    ∃ s1, migrateCollections env (subCollections es) st = .ok s1 ∧
      _migrateCollection env es ROOT_COLLECTION st =
        .ok (if (es.filter keptAtRoot).isEmpty then s1
          else _migrateEntries env (es.filter keptAtRoot) env.unfiledBookmarksFolderId s1) := by
  obtain ⟨s1, h1, _⟩ := migrateCollections_sub env es st
  refine ⟨s1, h1, ?_⟩
  rw [migrateCollection_root_eq, h1]
  cases (es.filter keptAtRoot).isEmpty <;> rfl

theorem root_remove_dropped (env : Env) (pre post : List Entry) (e : Entry) (st : Store)
    (hc : classifyRoot e = .drop) :
    _migrateCollection env (pre ++ e :: post) ROOT_COLLECTION st =
      _migrateCollection env (pre ++ post) ROOT_COLLECTION st := by
  obtain ⟨h1, h2⟩ := root_cons_drop e post hc
  rw [migrateCollection_root_eq, migrateCollection_root_eq, subCollections_append,
    subCollections_append, List.filter_append, List.filter_append, h1, h2]

theorem reservedCollection_eq_none_iff (t : Option String) :
    reservedCollection t = none ↔
      t ≠ some "BookmarksBar" ∧ t ≠ some "BookmarksMenu" ∧
        t ≠ some "com.apple.ReadingList" := by
  constructor
  · exact reservedCollection_none t
  · rintro ⟨h1, h2, h3⟩
    simp [reservedCollection, h1, h2, h3]

theorem migrateCollection_nil (env : Env) (c : Int) (st : Store) :
    _migrateCollection env [] c st = .ok st := by
  by_cases hc : c = ROOT_COLLECTION
  · subst hc
    rw [migrateCollection_root_eq]
    rfl
  · rw [migrateCollection_nonroot env [] c st hc]
    rfl

theorem root_only_empty_collections (env : Env) (es : List Entry) :
    ∀ st : Store, (∀ e ∈ es, ∃ c, classifyRoot e = .collection [] c) →
      _migrateCollection env es ROOT_COLLECTION st = .ok st := by
  induction es with
  | nil => intro st _; exact migrateCollection_nil env _ st
  | cons e rest ih =>
    intro st h
    obtain ⟨c, hc⟩ := h e (List.mem_cons_self e rest)
    rw [root_cons_collection env e rest [] c st hc, migrateCollection_nil]
    exact ih st (fun x hx => h x (List.mem_cons_of_mem e hx))

theorem length_beq_zero_of_ne (es : List Entry) (h : es ≠ []) :
    (es.length == 0) = false := by
  cases es with
  | nil => exact absurd rfl h
  | cons e rest => rfl

theorem migrateCollection_menu (env : Env) (es : List Entry) (st : Store) (h : es ≠ []) :
    _migrateCollection env es MENU_COLLECTION st =
      if !env.isStartupMigration then
        .ok (_migrateEntries env es (env.newFolderId st)
          (st ++ [Write.createImportedBookmarksFolder "Safari" env.bookmarksMenuFolderId]))
      else .ok (_migrateEntries env es env.bookmarksMenuFolderId st) := by
  rw [migrateCollection_nonroot env es _ st (by decide), length_beq_zero_of_ne es h]
  simp

theorem migrateCollection_toolbar (env : Env) (es : List Entry) (st : Store)
    (h : es ≠ []) :
    _migrateCollection env es TOOLBAR_COLLECTION st =
      if !env.isStartupMigration then
        .ok (_migrateEntries env es (env.newFolderId st)
          (st ++ [Write.createImportedBookmarksFolder "Safari" env.toolbarFolderId]))
      else .ok (_migrateEntries env es env.toolbarFolderId st) := by
  rw [migrateCollection_nonroot env es _ st (by decide), length_beq_zero_of_ne es h]
  simp [TOOLBAR_COLLECTION, MENU_COLLECTION]

theorem migrateCollection_readingList (env : Env) (es : List Entry) (st : Store)
    (h : es ≠ []) :
    _migrateCollection env es READING_LIST_COLLECTION st =
      .ok (_migrateEntries env es (env.newFolderId st)
        (st ++ [Write.createFolder env.bookmarksMenuFolderId
          (some (env.getLocalizedString "importedSafariReadingList"))
          env.DEFAULT_INDEX])) := by
  rw [migrateCollection_nonroot env es _ st (by decide), length_beq_zero_of_ne es h]
  simp [TOOLBAR_COLLECTION, MENU_COLLECTION, READING_LIST_COLLECTION]

theorem importedFolders_singleton (a : String) (b : FolderId) :
    importedFolders [Write.createImportedBookmarksFolder a b] = 1 := rfl

/-- C5: for every bookmark tree (the `Children` of the root dictionary), migrating it
as the Root collection returns normally and makes as many `insertBookmark` calls as the
filtered tree has Leaf entries whose URL parses; a Leaf whose URL does not parse makes
no call and the entries after it are processed as if it were not there. -/
theorem C5_insertBookmark_count (env : Env) (es : List Entry) (st : Store) :
    (∃ s1, _migrateCollection env es ROOT_COLLECTION st = .ok s1 ∧
      inserts s1 = inserts st + leafCountList env (filteredTree es)) ∧
    (∀ (title : Option String) (om : Option Bool) (u : String) (ud : Option URIDictionary)
      (ch : Option (List Entry)) (rest : List Entry) (f : FolderId) (s : Store),
      env.newURI u = none →
      _migrateEntries env
          (.mk (some "WebBookmarkTypeLeaf") title om (some u) ud ch :: rest) f s
        = _migrateEntries env rest f s) := by
  refine ⟨?_, ?_⟩
  · obtain ⟨s1, h1, hi⟩ := migrateCollections_sub env es st
    rw [migrateCollection_root_eq, h1]
    cases hk : es.filter keptAtRoot with
    | nil =>
      refine ⟨s1, rfl, ?_⟩
      rw [hk] at hi
      simpa [leafCountList] using hi
    | cons a l =>
      refine ⟨_, rfl, ?_⟩
      rw [inserts_migrateEntries, ← hk]
      exact hi
  · intro title om u ud ch rest f s hu
    exact migrateEntries_unparsable_leaf env title om u ud ch rest f s hu

/-- Witness of C5: in the example environment the URL "not a url" does not parse, and
a leaf with that URL in front of the example leaf changes nothing. -/
theorem C5_insertBookmark_count_witness :
    startupEnv.newURI "not a url" = none ∧
    _migrateEntries startupEnv [badLeaf, exampleLeaf] 5 [] =
      _migrateEntries startupEnv [exampleLeaf] 5 [] :=
  ⟨by decide,
    (C5_insertBookmark_count startupEnv [] []).2 none none "not a url" none none
      [exampleLeaf] 5 [] (by decide)⟩

/-- C6: at the Root collection a child folder (type `WebBookmarkTypeList` with
`Children`) titled "BookmarksBar", "BookmarksMenu" or "com.apple.ReadingList" has its
children migrated as the Toolbar, Menu or ReadingList collection and is not itself
among the entries materialised (no native folder is made for it): the migration of a
list starting with such a folder is the migration of its children as that collection
followed by the migration of the rest, and in any position the folder is classified
as that collection and is not kept. Under startup migration, a root whose only child
is a BookmarksBar folder with one leaf with parsable URL `u` and URIDictionary title
`t` makes exactly one write, `insertBookmark(toolbar folder, u, DEFAULT_INDEX, t)`. -/
theorem C6_reserved_folders_at_root (env : Env) (e : Entry) (rest : List Entry)
    (st : Store) :
    (e.isFolder = true → e.Title = some "BookmarksBar" →
      classifyRoot e = .collection (e.Children.getD []) TOOLBAR_COLLECTION ∧
      keptAtRoot e = false ∧
      _migrateCollection env (e :: rest) ROOT_COLLECTION st =
        match _migrateCollection env (e.Children.getD []) TOOLBAR_COLLECTION st with
        | .error ex => .error ex
        | .ok s1 => _migrateCollection env rest ROOT_COLLECTION s1) ∧
    (e.isFolder = true → e.Title = some "BookmarksMenu" →
      classifyRoot e = .collection (e.Children.getD []) MENU_COLLECTION ∧
      keptAtRoot e = false ∧
      _migrateCollection env (e :: rest) ROOT_COLLECTION st =
        match _migrateCollection env (e.Children.getD []) MENU_COLLECTION st with
        | .error ex => .error ex
        | .ok s1 => _migrateCollection env rest ROOT_COLLECTION s1) ∧
    (e.isFolder = true → e.Title = some "com.apple.ReadingList" →
      classifyRoot e = .collection (e.Children.getD []) READING_LIST_COLLECTION ∧
      keptAtRoot e = false ∧
      _migrateCollection env (e :: rest) ROOT_COLLECTION st =
        match _migrateCollection env (e.Children.getD []) READING_LIST_COLLECTION st with
        | .error ex => .error ex
        | .ok s1 => _migrateCollection env rest ROOT_COLLECTION s1) ∧
    (∀ es : List Entry, _migrateCollection env es ROOT_COLLECTION st =
      match migrateCollections env (subCollections es) st with
      | .error ex => .error ex
      | .ok s1 =>
        if (es.filter keptAtRoot).isEmpty then .ok s1
        else .ok (_migrateEntries env (es.filter keptAtRoot)
          env.unfiledBookmarksFolderId s1)) ∧
    (∀ (fo : Option Bool) (fu : Option String) (fd : Option URIDictionary)
      (lt : Option String) (lo : Option Bool) (lc : Option (List Entry))
      (u : String) (uri : URI) (t : String),
      env.isStartupMigration = true → env.newURI u = some uri →
      _migrateCollection env
          [.mk (some "WebBookmarkTypeList") (some "BookmarksBar") fo fu fd
            (some [.mk (some "WebBookmarkTypeLeaf") lt lo (some u)
              (some { title := some t }) lc])]
          ROOT_COLLECTION st
        = .ok (st ++ [Write.insertBookmark env.toolbarFolderId uri env.DEFAULT_INDEX
            (some t)])) := by
  refine ⟨?_, ?_, ?_, ?_, ?_⟩
  · intro hf ht
    have hc := classifyRoot_reserved e TOOLBAR_COLLECTION hf (by simp [reservedCollection, ht])
    exact ⟨hc, keptAtRoot_of_classify_ne e (by rw [hc]; simp),
      root_cons_collection env e rest _ _ st hc⟩
  · intro hf ht
    have hc := classifyRoot_reserved e MENU_COLLECTION hf (by simp [reservedCollection, ht])
    exact ⟨hc, keptAtRoot_of_classify_ne e (by rw [hc]; simp),
      root_cons_collection env e rest _ _ st hc⟩
  · intro hf ht
    have hc := classifyRoot_reserved e READING_LIST_COLLECTION hf
      (by simp [reservedCollection, ht])
    exact ⟨hc, keptAtRoot_of_classify_ne e (by rw [hc]; simp),
      root_cons_collection env e rest _ _ st hc⟩
  · intro es
    exact migrateCollection_root_eq env es st
  · intro fo fu fd lt lo lc u uri t hs hu
    have hc : classifyRoot (.mk (some "WebBookmarkTypeList") (some "BookmarksBar") fo fu fd
        (some [.mk (some "WebBookmarkTypeLeaf") lt lo (some u) (some { title := some t }) lc]))
        = .collection [.mk (some "WebBookmarkTypeLeaf") lt lo (some u)
            (some { title := some t }) lc] TOOLBAR_COLLECTION := by
      simp [classifyRoot, Entry.isFolder, Entry.WebBookmarkType, Entry.Children,
        Entry.Title, reservedCollection]
    rw [root_cons_collection env _ [] _ _ st hc]
    rw [migrateCollection_nonroot _ _ _ _ (by decide)]
    simp [Entry.Children, TOOLBAR_COLLECTION, MENU_COLLECTION, hs, _migrateEntries,
      migrateEntry, hu, migrateCollection_root_eq, subCollections, migrateCollections]

/-- Witness of C6: the scenario of the specification in the example startup
environment (toolbar folder 3, `DEFAULT_INDEX = -1`). -/
theorem C6_reserved_folders_at_root_witness :
    startupEnv.isStartupMigration = true ∧
    startupEnv.newURI "http://example.com" = some "http://example.com" ∧
    _migrateCollection startupEnv
        [.mk (some "WebBookmarkTypeList") (some "BookmarksBar") none none none
          (some [.mk (some "WebBookmarkTypeLeaf") none none (some "http://example.com")
            (some { title := some "Example" }) none])]
        ROOT_COLLECTION []
      = .ok [Write.insertBookmark 3 "http://example.com" (-1) (some "Example")] :=
  ⟨rfl, by decide,
    (C6_reserved_folders_at_root startupEnv exampleLeaf [] []).2.2.2.2 none none none
      none none none "http://example.com" "http://example.com" "Example" rfl (by decide)⟩

/-- C7: at the Root collection the migration returns normally and the entries
materialised under the unfiled-bookmarks folder are, in source order, exactly the
children that are leaf-type (whatever their `ShouldOmitFromUI` flag) or folders with
`Children` whose title is none of the three reserved names and whose flag is not
`true`; a folder with a non-reserved title and the flag `true` is dropped with its
whole subtree: the migration is the one of the list without it. -/
theorem C7_root_kept_entries (env : Env) (es : List Entry) (st : Store) :
    (∃ s1, migrateCollections env (subCollections es) st = .ok s1 ∧
      _migrateCollection env es ROOT_COLLECTION st =
        .ok (if (es.filter keptAtRoot).isEmpty then s1
          else _migrateEntries env (es.filter keptAtRoot)
            env.unfiledBookmarksFolderId s1)) ∧
    (∀ e : Entry, keptAtRoot e = true ↔
      (e.WebBookmarkType = some "WebBookmarkTypeLeaf" ∨
        (e.WebBookmarkType = some "WebBookmarkTypeList" ∧ e.Children.isSome = true ∧
          e.Title ≠ some "BookmarksBar" ∧ e.Title ≠ some "BookmarksMenu" ∧
          e.Title ≠ some "com.apple.ReadingList" ∧ e.ShouldOmitFromUI ≠ some true))) ∧
    (∀ (pre post : List Entry) (e : Entry),
      e.isFolder = true → reservedCollection e.Title = none →
      e.ShouldOmitFromUI = some true →
      _migrateCollection env (pre ++ e :: post) ROOT_COLLECTION st =
        _migrateCollection env (pre ++ post) ROOT_COLLECTION st) := by
  refine ⟨migrateCollection_root_ok env es st, ?_, ?_⟩
  · intro e
    simp only [keptAtRoot, Entry.isLeafType, Entry.isFolder, Bool.or_eq_true,
      Bool.and_eq_true, beq_iff_eq, Option.isNone_iff_eq_none, bne_iff_ne, ne_eq,
      reservedCollection_eq_none_iff]
    tauto
  · intro pre post e hf hr ho
    exact root_remove_dropped env pre post e st (classifyRoot_omitted e hf hr ho)

/-- Witness of C7: a folder titled "Hidden" with `ShouldOmitFromUI = true` that holds
the example leaf, between two leaves at Root, is dropped with its subtree. -/
theorem C7_root_kept_entries_witness :
    (Entry.mk (some "WebBookmarkTypeList") (some "Hidden") (some true) none none
      (some [exampleLeaf])).isFolder = true ∧
    _migrateCollection startupEnv
        ([exampleLeaf] ++ Entry.mk (some "WebBookmarkTypeList") (some "Hidden") (some true)
          none none (some [exampleLeaf]) :: [badLeaf]) ROOT_COLLECTION []
      = _migrateCollection startupEnv ([exampleLeaf] ++ [badLeaf]) ROOT_COLLECTION [] :=
  ⟨by decide,
    (C7_root_kept_entries startupEnv [] []).2.2 [exampleLeaf] [badLeaf]
      (Entry.mk (some "WebBookmarkTypeList") (some "Hidden") (some true) none none
        (some [exampleLeaf])) (by decide) (by decide) rfl⟩

/-- C8: a collection whose entry list is empty after filtering makes no native-store
write. For Menu, Toolbar and ReadingList (and Root) an empty list leaves the store
as it was; at Root, when no child is kept, the store is the one left by the
migrations of the reserved folders alone, and when moreover every reserved folder has
an empty `Children` list the store is left as it was (no reading-list folder, no
"Imported" folder). -/
theorem C8_empty_collection_writes_nothing (env : Env) (es : List Entry) (st : Store) :
    _migrateCollection env [] ROOT_COLLECTION st = .ok st ∧
    _migrateCollection env [] MENU_COLLECTION st = .ok st ∧
    _migrateCollection env [] TOOLBAR_COLLECTION st = .ok st ∧
    _migrateCollection env [] READING_LIST_COLLECTION st = .ok st ∧
    ((es.filter keptAtRoot).isEmpty = true →
      _migrateCollection env es ROOT_COLLECTION st =
        migrateCollections env (subCollections es) st) ∧
    ((∀ e ∈ es, ∃ c, classifyRoot e = .collection [] c) →
      _migrateCollection env es ROOT_COLLECTION st = .ok st) := by
  refine ⟨migrateCollection_nil env _ st, migrateCollection_nil env _ st,
    migrateCollection_nil env _ st, migrateCollection_nil env _ st, ?_, ?_⟩
  · intro hk
    rw [migrateCollection_root_eq, hk]
    cases migrateCollections env (subCollections es) st <;> rfl
  · exact root_only_empty_collections env es st

/-- Witness of C8: a root holding only the three reserved folders, each with an empty
`Children` list, in an import that is not the startup migration. -/
theorem C8_empty_collection_writes_nothing_witness :
    _migrateCollection importEnv
        [Entry.mk (some "WebBookmarkTypeList") (some "BookmarksBar") none none none (some []),
          Entry.mk (some "WebBookmarkTypeList") (some "BookmarksMenu") none none none (some []),
          Entry.mk (some "WebBookmarkTypeList") (some "com.apple.ReadingList") none none none
            (some [])]
        ROOT_COLLECTION [] = .ok [] :=
  (C8_empty_collection_writes_nothing importEnv _ []).2.2.2.2.2 (by
    intro e he
    simp only [List.mem_cons, List.mem_singleton, List.not_mem_nil, or_false] at he
    rcases he with rfl | rfl | rfl
    · exact ⟨TOOLBAR_COLLECTION, classifyRoot_reserved _ _ (by decide) (by decide)⟩
    · exact ⟨MENU_COLLECTION, classifyRoot_reserved _ _ (by decide) (by decide)⟩
    · exact ⟨READING_LIST_COLLECTION, classifyRoot_reserved _ _ (by decide) (by decide)⟩)

/-- C9: for a non-empty filtered entry list `es`, `_migrateCollection` materialises
the entries under: Root, the unfiled-bookmarks folder; Menu (resp. Toolbar), the
bookmarks-menu (resp. toolbar) folder itself under startup migration and otherwise the
folder returned by one call `createImportedBookmarksFolder("Safari", that folder)`;
ReadingList, a folder newly created under the bookmarks-menu folder, whatever the
startup flag. Hence, outside startup migration, each run on a non-empty Menu or Toolbar
collection makes exactly one `createImportedBookmarksFolder` call, and two runs on the
same entries make two. -/
theorem C9_collection_targets (env : Env) (es : List Entry) (st : Store)
    (hne : es ≠ []) :
    (∀ root : List Entry, root.filter keptAtRoot = es →
      ∃ s1, migrateCollections env (subCollections root) st = .ok s1 ∧
        _migrateCollection env root ROOT_COLLECTION st =
          .ok (_migrateEntries env es env.unfiledBookmarksFolderId s1)) ∧
    (env.isStartupMigration = true →
      _migrateCollection env es MENU_COLLECTION st =
        .ok (_migrateEntries env es env.bookmarksMenuFolderId st) ∧
      _migrateCollection env es TOOLBAR_COLLECTION st =
        .ok (_migrateEntries env es env.toolbarFolderId st)) ∧
    (env.isStartupMigration = false →
      _migrateCollection env es MENU_COLLECTION st =
        .ok (_migrateEntries env es (env.newFolderId st)
          (st ++ [Write.createImportedBookmarksFolder "Safari"
            env.bookmarksMenuFolderId])) ∧
      _migrateCollection env es TOOLBAR_COLLECTION st =
        .ok (_migrateEntries env es (env.newFolderId st)
          (st ++ [Write.createImportedBookmarksFolder "Safari" env.toolbarFolderId]))) ∧
    _migrateCollection env es READING_LIST_COLLECTION st =
      .ok (_migrateEntries env es (env.newFolderId st)
        (st ++ [Write.createFolder env.bookmarksMenuFolderId
          (some (env.getLocalizedString "importedSafariReadingList"))
          env.DEFAULT_INDEX])) ∧
    (env.isStartupMigration = false →
      ∀ c : Int, c = MENU_COLLECTION ∨ c = TOOLBAR_COLLECTION →
        ∃ s1 s2, _migrateCollection env es c st = .ok s1 ∧
          importedFolders s1 = importedFolders st + 1 ∧
          _migrateCollection env es c s1 = .ok s2 ∧
          importedFolders s2 = importedFolders st + 2) := by
  refine ⟨?_, ?_, ?_, migrateCollection_readingList env es st hne, ?_⟩
  · intro root hr
    obtain ⟨s1, h1, h2⟩ := migrateCollection_root_ok env root st
    refine ⟨s1, h1, ?_⟩
    rw [h2, hr]
    cases es with
    | nil => exact absurd rfl hne
    | cons e rest => rfl
  · intro hs
    rw [migrateCollection_menu env es st hne, migrateCollection_toolbar env es st hne]
    simp [hs]
  · intro hs
    rw [migrateCollection_menu env es st hne, migrateCollection_toolbar env es st hne]
    simp [hs]
  · intro hs c hc
    have hm : ∀ s : Store, _migrateCollection env es MENU_COLLECTION s =
        .ok (_migrateEntries env es (env.newFolderId s)
          (s ++ [Write.createImportedBookmarksFolder "Safari"
            env.bookmarksMenuFolderId])) := by
      intro s
      rw [migrateCollection_menu env es s hne]
      simp [hs]
    have ht : ∀ s : Store, _migrateCollection env es TOOLBAR_COLLECTION s =
        .ok (_migrateEntries env es (env.newFolderId s)
          (s ++ [Write.createImportedBookmarksFolder "Safari" env.toolbarFolderId])) := by
      intro s
      rw [migrateCollection_toolbar env es s hne]
      simp [hs]
    rcases hc with hc | hc
    · subst hc
      refine ⟨_, _, hm st, ?_, hm _, ?_⟩
      · simp [importedFolders_migrateEntries, importedFolders_append,
          importedFolders_singleton]
      · simp [importedFolders_migrateEntries, importedFolders_append,
          importedFolders_singleton]
    · subst hc
      refine ⟨_, _, ht st, ?_, ht _, ?_⟩
      · simp [importedFolders_migrateEntries, importedFolders_append,
          importedFolders_singleton]
      · simp [importedFolders_migrateEntries, importedFolders_append,
          importedFolders_singleton]

/-- Witness of C9: the Menu collection holding the example leaf, in an import that is
not the startup migration, on an empty log. -/
theorem C9_collection_targets_witness :
    [exampleLeaf] ≠ [] ∧ importEnv.isStartupMigration = false ∧
    ∃ s1 s2, _migrateCollection importEnv [exampleLeaf] MENU_COLLECTION [] = .ok s1 ∧
      importedFolders s1 = importedFolders [] + 1 ∧
      _migrateCollection importEnv [exampleLeaf] MENU_COLLECTION s1 = .ok s2 ∧
      importedFolders s2 = importedFolders [] + 2 :=
  ⟨List.cons_ne_nil _ _, rfl,
    (C9_collection_targets importEnv [exampleLeaf] [] (List.cons_ne_nil _ _)).2.2.2.2 rfl
      MENU_COLLECTION (Or.inl rfl)⟩

/-- C10 (the code departs from the claim): a folder-type entry
(`WebBookmarkType = "WebBookmarkTypeList"`) without a `Children` array handed to
`_migrateEntries` makes no write at all, so no native folder is created for it, at any
position of the list and also at Root; with an empty `Children` array the folder is
created, with the entry's title under the target folder. -/
theorem C10_folder_without_children_is_skipped (env : Env) (title : Option String)
    (om : Option Bool) (url : Option String) (ud : Option URIDictionary)
    (rest : List Entry) (f : FolderId) (st : Store) :
    _migrateEntries env (.mk (some "WebBookmarkTypeList") title om url ud none :: rest) f st
      = _migrateEntries env rest f st ∧
    _migrateEntries env [folderWithoutChildren] f st = st ∧
    createdFolders (_migrateEntries env [folderWithoutChildren] f st) = createdFolders st ∧
    _migrateCollection env [folderWithoutChildren] ROOT_COLLECTION st = .ok st ∧
    _migrateEntries env (.mk (some "WebBookmarkTypeList") title om url ud (some []) :: rest)
        f st
      = _migrateEntries env rest f (st ++ [Write.createFolder f title env.DEFAULT_INDEX]) := by
  have h1 : _migrateEntries env [folderWithoutChildren] f st = st := by
    simp [folderWithoutChildren, _migrateEntries, migrateEntry]
  refine ⟨?_, h1, by rw [h1], ?_, ?_⟩
  · simp [_migrateEntries, migrateEntry]
  · rw [migrateCollection_root_eq]
    simp [folderWithoutChildren, subCollections, classifyRoot, Entry.isFolder,
      Entry.isLeafType, Entry.Children, Entry.WebBookmarkType, migrateCollections,
      keptAtRoot]
  · simp [_migrateEntries, migrateEntry]

mutual
theorem migrateEntries_eq_writes (env : Env) :
    ∀ (es : List Entry) (f : FolderId) (st : Store),
      _migrateEntries env es f st = st ++ entriesWrites env es f st
  | [], f, st => by simp [_migrateEntries, entriesWrites]
  | e :: rest, f, st => by
    rw [_migrateEntries, migrateEntry_eq_writes env e, migrateEntries_eq_writes env rest,
      entriesWrites, List.append_assoc]
theorem migrateEntry_eq_writes (env : Env) :
    ∀ (e : Entry) (f : FolderId) (st : Store),
      migrateEntry env e f st = st ++ entryWrites env e f st
  | .mk ty title om url ud none, f, st => by
    by_cases h1 : ty = some "WebBookmarkTypeList"
    · simp [migrateEntry, entryWrites, h1]
    · by_cases h2 : ty = some "WebBookmarkTypeLeaf"
      · cases url with
        | none => simp [migrateEntry, entryWrites, h2]
        | some u =>
          cases hu : env.newURI u <;> cases ud <;>
            simp [migrateEntry, entryWrites, h2, hu]
      · simp [migrateEntry, entryWrites, h1, h2]
  | .mk ty title om url ud (some cs), f, st => by
    by_cases h1 : ty = some "WebBookmarkTypeList"
    · simp only [migrateEntry, entryWrites, h1, beq_self_eq_true, Option.isSome_some,
        Bool.and_self, ↓reduceIte]
      rw [migrateEntries_eq_writes env cs]
      simp
    · by_cases h2 : ty = some "WebBookmarkTypeLeaf"
      · cases url with
        | none => simp [migrateEntry, entryWrites, h2]
        | some u =>
          cases hu : env.newURI u <;> cases ud <;>
            simp [migrateEntry, entryWrites, h2, hu]
      · simp [migrateEntry, entryWrites, h1, h2]
end

/-- C11: `_migrateEntries(entries, f)` is an order-preserving depth-first copy: it
appends to the log exactly the pre-order writes of the entries. A folder (with
`Children`) gives `createFolder(parent, title, DEFAULT_INDEX)` with its title verbatim
(the empty string included), then the writes of its children under the new folder,
then the writes of the entries after it; a leaf with a URL that parses gives
`insertBookmark(parent, uri, DEFAULT_INDEX, title)` with the title of its
`URIDictionary`, or no title when there is none. No filter applies: this holds for
every title and every `ShouldOmitFromUI` flag, so in particular for the reserved
titles and for the flag `true`. -/
theorem C11_migrateEntries_preorder_copy (env : Env) (es : List Entry) (f : FolderId)
    (st : Store) :
    _migrateEntries env es f st = st ++ entriesWrites env es f st ∧
    (∀ (title : Option String) (om : Option Bool) (url : Option String)
      (ud : Option URIDictionary) (cs rest : List Entry),
      _migrateEntries env
          (.mk (some "WebBookmarkTypeList") title om url ud (some cs) :: rest) f st
        = _migrateEntries env rest f
            (_migrateEntries env cs (env.newFolderId st)
              (st ++ [Write.createFolder f title env.DEFAULT_INDEX]))) ∧
    (∀ (cs : List Entry),
      _migrateEntries env
          [.mk (some "WebBookmarkTypeList") (some "") none none none (some cs)] f st
        = _migrateEntries env cs (env.newFolderId st)
            (st ++ [Write.createFolder f (some "") env.DEFAULT_INDEX]) ∧
      _migrateEntries env
          [.mk (some "WebBookmarkTypeList") (some "BookmarksBar") (some true) none none
            (some cs)] f st
        = _migrateEntries env cs (env.newFolderId st)
            (st ++ [Write.createFolder f (some "BookmarksBar") env.DEFAULT_INDEX])) ∧
    (∀ (title : Option String) (om : Option Bool) (u : String) (uri : URI)
      (ch : Option (List Entry)) (rest : List Entry),
      env.newURI u = some uri →
      (∀ t : Option String,
        _migrateEntries env
            (.mk (some "WebBookmarkTypeLeaf") title om (some u) (some { title := t }) ch
              :: rest) f st
          = _migrateEntries env rest f
              (st ++ [Write.insertBookmark f uri env.DEFAULT_INDEX t])) ∧
      _migrateEntries env
          (.mk (some "WebBookmarkTypeLeaf") title om (some u) none ch :: rest) f st
        = _migrateEntries env rest f
            (st ++ [Write.insertBookmark f uri env.DEFAULT_INDEX none])) := by
  refine ⟨migrateEntries_eq_writes env es f st, ?_, ?_, ?_⟩
  · intro title om url ud cs rest
    simp [_migrateEntries, migrateEntry]
  · intro cs
    constructor <;> simp [_migrateEntries, migrateEntry]
  · intro title om u uri ch rest hu
    refine ⟨?_, ?_⟩
    · intro t
      simp [_migrateEntries, migrateEntry, hu]
    · simp [_migrateEntries, migrateEntry, hu]

/-- Witness of C11: in the example environment the URL of the example leaf parses, so
the leaf in front of a list gives its `insertBookmark` and the rest follows. -/
theorem C11_migrateEntries_preorder_copy_witness :
    startupEnv.newURI "http://example.com" = some "http://example.com" ∧
    _migrateEntries startupEnv
        (.mk (some "WebBookmarkTypeLeaf") none none (some "http://example.com") none none
          :: [exampleLeaf]) 5 []
      = _migrateEntries startupEnv [exampleLeaf] 5
          ([] ++ [Write.insertBookmark 5 "http://example.com" startupEnv.DEFAULT_INDEX none]) :=
  ⟨by decide,
    ((C11_migrateEntries_preorder_copy startupEnv [] 5 []).2.2.2 none none
      "http://example.com" "http://example.com" none [exampleLeaf] (by decide)).2⟩

/-- C12, counterexample to the claim as stated: with the collection tag 7, which is
none of the four values, and an empty entry list, `_migrateCollection` returns
normally (the test `entriesFiltered.length == 0` comes before the `switch`); it does
not throw. -/
theorem C12_empty_list_invalid_tag_returns :
    (7 : Int) ≠ ROOT_COLLECTION ∧ (7 : Int) ≠ MENU_COLLECTION ∧
    (7 : Int) ≠ TOOLBAR_COLLECTION ∧ (7 : Int) ≠ READING_LIST_COLLECTION ∧
    _migrateCollection startupEnv [] 7 [] = .ok [] ∧
    ¬ ∃ ex, _migrateCollection startupEnv [] 7 [] = .error ex := by
  have h : _migrateCollection startupEnv [] 7 [] = .ok [] := migrateCollection_nil _ _ _
  refine ⟨by decide, by decide, by decide, by decide, h, ?_⟩
  rintro ⟨ex, hex⟩
  rw [h] at hex
  cases hex

/-- C12, amended: for every collection tag that is none of the four values and every
non-empty entry list, `_migrateCollection` throws "Unexpected value for aCollection!"
and the store is, at the throw, as it was before the call (no write); for the empty
entry list it returns normally, also without a write. -/
theorem C12_invalid_tag_throws_on_nonempty (env : Env) (es : List Entry) (c : Int)
    (st : Store) (h0 : c ≠ ROOT_COLLECTION) (h1 : c ≠ MENU_COLLECTION)
    (h2 : c ≠ TOOLBAR_COLLECTION) (h3 : c ≠ READING_LIST_COLLECTION) (hne : es ≠ []) :
    _migrateCollection env es c st =
      .error { message := "Unexpected value for aCollection!", store := st } ∧
    _migrateCollection env [] c st = .ok st := by
  refine ⟨?_, migrateCollection_nil env c st⟩
  rw [migrateCollection_nonroot env es c st h0, length_beq_zero_of_ne es hne]
  simp [h1, h2, h3]

/-- Witness of C12 (amended): the tag 7 with the example leaf, on an empty log. -/
theorem C12_invalid_tag_throws_on_nonempty_witness :
    (7 : Int) ≠ ROOT_COLLECTION ∧ [exampleLeaf] ≠ [] ∧
    _migrateCollection startupEnv [exampleLeaf] 7 [] =
      .error { message := "Unexpected value for aCollection!", store := [] } :=
  ⟨by decide, List.cons_ne_nil _ _,
    (C12_invalid_tag_throws_on_nonempty startupEnv [exampleLeaf] 7 [] (by decide)
      (by decide) (by decide) (by decide) (List.cons_ne_nil _ _)).1⟩

/-! ## Theorems: Preferences -/

theorem set_absent (dict : PrefDict) (K P : String) (c : Option Converter) (log : PrefLog)
    (h : dict K = none) : _set dict K P c log = (log, .ok true) := by
  simp [_set, h]

theorem set_present (dict : PrefDict) (K P : String) (c : Option Converter)
    (log : PrefLog) (v m : JSValue) (hv : dict K = some v) (hm : convert c v = .ok m) :
    _set dict K P c log =
      if typeof m = "string" then (log ++ [PrefWrite.setCharPref P m], .ok true)
      else if typeof m = "number" then (log ++ [PrefWrite.setIntPref P m], .ok true)
      else if typeof m = "boolean" then (log ++ [PrefWrite.setBoolPref P m], .ok true)
      else if typeof m = "undefined" then (log, .ok false)
      else (log, .error ("Unexpected value type: " ++ typeof m)) := by
  simp [_set, hv, hm]

theorem set_throws (dict : PrefDict) (K P : String) (c : Option Converter)
    (log : PrefLog) (v : JSValue) (ex : String) (hv : dict K = some v)
    (hm : convert c v = .error ex) :
    _set dict K P c log = (log, .error ex) := by
  simp [_set, hv, hm]

theorem typeof_cases (m : JSValue) :
    typeof m = "string" ∨ typeof m = "number" ∨ typeof m = "boolean" ∨
      typeof m = "undefined" ∨ typeof m = "object" := by
  cases m <;> simp [typeof]

/-- C13: when the dictionary does not contain the key, `_set` makes no write (the log
is left as it was), does not throw, and this for every converter, also one that
throws on every argument: the converter is not called. -/
theorem C13_set_absent_key_is_noop (dict : PrefDict) (K P : String)
    (c : Option Converter) (log : PrefLog) (h : dict K = none) :
    (_set dict K P c log).1 = log ∧
    (∃ r, (_set dict K P c log).2 = .ok r) ∧
    _set dict K P (some (fun _ => .error "converter called")) log = _set dict K P none log := by
  rw [set_absent dict K P c log h, set_absent dict K P _ log h, set_absent dict K P _ log h]
  exact ⟨rfl, ⟨true, rfl⟩, rfl⟩

/-- Witness of C13: the empty dictionary and the rule for `WebKitDisplayImagesKey`. -/
theorem C13_set_absent_key_is_noop_witness :
    emptyPrefDict "WebKitDisplayImagesKey" = none ∧
    (_set emptyPrefDict "WebKitDisplayImagesKey" "permissions.default.image"
      (some imageConverter) []).1 = [] :=
  ⟨rfl, (C13_set_absent_key_is_noop emptyPrefDict "WebKitDisplayImagesKey"
    "permissions.default.image" (some imageConverter) [] rfl).1⟩

/-- C14: when the dictionary has the key with value `v` and the conversion gives `m`
(`m = v` without a converter), `_set` makes exactly one write,
`setCharPref`/`setIntPref`/`setBoolPref(aMozPref, m)`, when `m` is a string, a number or
a boolean; no write when `m` is `undefined`; and it throws without a write for a value
of another type. -/
theorem C14_set_dispatches_on_type (dict : PrefDict) (K P : String)
    (c : Option Converter) (log : PrefLog) (v m : JSValue) (hv : dict K = some v)
    (hm : convert c v = .ok m) :
    convert none v = .ok v ∧
    (typeof m = "string" →
      _set dict K P c log = (log ++ [PrefWrite.setCharPref P m], .ok true)) ∧
    (typeof m = "number" →
      _set dict K P c log = (log ++ [PrefWrite.setIntPref P m], .ok true)) ∧
    (typeof m = "boolean" →
      _set dict K P c log = (log ++ [PrefWrite.setBoolPref P m], .ok true)) ∧
    (m = .undefined → _set dict K P c log = (log, .ok false)) ∧
    (typeof m = "object" →
      _set dict K P c log = (log, .error "Unexpected value type: object")) := by
  rw [set_present dict K P c log v m hv hm]
  refine ⟨rfl, ?_, ?_, ?_, ?_, ?_⟩
  · intro h; simp [h]
  · intro h; simp [h]
  · intro h; simp [h]
  · intro h; subst h; simp [typeof]
  · intro h; simp [h]

/-- Witness of C14: the rule for `WebKitDisplayImagesKey` on a dictionary where the
key is `true`: the converter gives the number 1, written with `setIntPref`. -/
theorem C14_set_dispatches_on_type_witness :
    imagesPrefDict "WebKitDisplayImagesKey" = some (.boolean true) ∧
    convert (some imageConverter) (.boolean true) = .ok (.number 1) ∧
    _set imagesPrefDict "WebKitDisplayImagesKey" "permissions.default.image"
        (some imageConverter) []
      = ([] ++ [PrefWrite.setIntPref "permissions.default.image" (.number 1)], .ok true) :=
  ⟨rfl, rfl,
    (C14_set_dispatches_on_type imagesPrefDict "WebKitDisplayImagesKey"
      "permissions.default.image" (some imageConverter) [] (.boolean true) (.number 1)
      rfl rfl).2.2.1 rfl⟩

/-- C15 (the code departs from the claim): on a dictionary without the key, `_set`
returns `true` although it made no write, for every native setting, converter and
log. -/
theorem C15_set_returns_true_without_write (P : String) (c : Option Converter)
    (log : PrefLog) :
    _set emptyPrefDict "WebKitFixedFont" P c log = (log, .ok true) :=
  set_absent emptyPrefDict "WebKitFixedFont" P c log rfl

theorem appends_pure {α : Type} (Q : PrefWrite → Prop) (r : Except String α) :
    Appends Q (fun log => (log, r)) := by
  intro log
  exact ⟨[], by simp, by simp⟩

theorem appends_mono {α : Type} (Q R : PrefWrite → Prop) (m : PrefM α)
    (h : ∀ w, Q w → R w) (hm : Appends Q m) : Appends R m := by
  intro log
  obtain ⟨ws, h1, h2⟩ := hm log
  exact ⟨ws, h1, fun w hw => h w (h2 w hw)⟩

theorem appends_andThen {α β : Type} (Q : PrefWrite → Prop) (first : PrefM α)
    (next : α → PrefM β) (h1 : Appends Q first) (h2 : ∀ a, Appends Q (next a)) :
    Appends Q (andThen first next) := by
  intro log
  obtain ⟨ws, hw, hq⟩ := h1 log
  unfold andThen
  cases hf : first log with
  | mk log1 r =>
    rw [hf] at hw
    simp only at hw
    cases r with
    | error ex => exact ⟨ws, hw, hq⟩
    | ok a =>
      obtain ⟨ws2, hw2, hq2⟩ := h2 a log1
      refine ⟨ws ++ ws2, ?_, ?_⟩
      · simp only
        rw [hw2, hw, List.append_assoc]
      · intro w hmem
        rcases List.mem_append.mp hmem with h | h
        · exact hq w h
        · exact hq2 w h

theorem appends_set (Q : PrefWrite → Prop) (dict : PrefDict) (K P : String)
    (c : Option Converter)
    (hQ : ∀ v m, dict K = some v → convert c v = .ok m →
      (typeof m = "string" → Q (PrefWrite.setCharPref P m)) ∧
      (typeof m = "number" → Q (PrefWrite.setIntPref P m)) ∧
      (typeof m = "boolean" → Q (PrefWrite.setBoolPref P m))) :
    Appends Q (_set dict K P c) := by
  intro log
  cases hv : dict K with
  | none => exact ⟨[], by simp [set_absent dict K P c log hv], by simp⟩
  | some v =>
    cases hm : convert c v with
    | error ex => exact ⟨[], by simp [set_throws dict K P c log v ex hv hm], by simp⟩
    | ok m =>
      obtain ⟨q1, q2, q3⟩ := hQ v m hv hm
      rw [set_present dict K P c log v m hv hm]
      by_cases h1 : typeof m = "string"
      · exact ⟨[PrefWrite.setCharPref P m], by simp [h1], by simpa using q1 h1⟩
      · by_cases h2 : typeof m = "number"
        · exact ⟨[PrefWrite.setIntPref P m], by simp [h2], by simpa using q2 h2⟩
        · by_cases h3 : typeof m = "boolean"
          · exact ⟨[PrefWrite.setBoolPref P m], by simp [h3], by simpa using q3 h3⟩
          · refine ⟨[], ?_, by simp⟩
            simp only [h1, h2, h3, ↓reduceIte, List.append_nil]
            split <;> rfl

theorem appends_set_name (dict : PrefDict) (K P : String) (c : Option Converter) :
    Appends (fun w => w.name = P) (_set dict K P c) :=
  appends_set _ dict K P c (fun _ _ _ _ => ⟨fun _ => rfl, fun _ => rfl, fun _ => rfl⟩)

theorem appends_languageFonts (env : PrefEnv) (dict : PrefDict) :
    Appends (fun w => fontRuleName w.name) (migrateLanguageFonts env dict) := by
  intro log
  unfold migrateLanguageFonts
  simp only
  cases env.getCharPref ("font.default." ++ _getLocaleLangGroup env) with
  | none => exact ⟨[], by simp, by simp⟩
  | some fontType =>
    simp only
    refine appends_andThen _ _ _ (appends_mono _ _ _ ?_ (appends_set_name _ _ _ _))
      (fun r1 => appends_andThen _ _ _ (appends_mono _ _ _ ?_ (appends_set_name _ _ _ _))
      (fun r2 => appends_andThen _ _ _ (appends_mono _ _ _ ?_ (appends_set_name _ _ _ _))
      (fun r3 => appends_andThen _ _ _ (appends_mono _ _ _ ?_ (appends_set_name _ _ _ _))
      (fun r4 => ?_)))) log
    · intro w hw
      exact Or.inl ⟨"monospace." ++ _getLocaleLangGroup env, by
        rw [hw, ← String.append_assoc]; rfl⟩
    · intro w hw
      exact Or.inr (Or.inl ⟨"fixed." ++ _getLocaleLangGroup env, by
        rw [hw, ← String.append_assoc]; rfl⟩)
    · intro w hw
      exact Or.inl ⟨fontType ++ "." ++ _getLocaleLangGroup env, by
        rw [hw, String.append_assoc, String.append_assoc, String.append_assoc]⟩
    · intro w hw
      exact Or.inr (Or.inl ⟨"variable." ++ _getLocaleLangGroup env, by
        rw [hw, ← String.append_assoc]; rfl⟩)
    · intro log4
      split
      · refine ⟨[PrefWrite.setCharPref "font.language.group"
          (.string (_getLocaleLangGroup env))], rfl, ?_⟩
        intro w hw
        rw [List.mem_singleton.mp hw]
        exact Or.inr (Or.inr rfl)
      · exact ⟨[], by simp, by simp⟩

theorem fontRuleName_ne_image (n : String) (h : fontRuleName n) :
    n ≠ "permissions.default.image" := by
  intro hn
  rcases h with ⟨x, hx⟩ | ⟨x, hx⟩ | hx
  · have h2 := congrArg String.data (hx.symm.trans hn)
    simp [String.data_append] at h2
  · have h2 := congrArg String.data (hx.symm.trans hn)
    simp [String.data_append] at h2
  · rw [hx] at hn
    exact absurd hn (by decide)

theorem fontRuleName_not_minimumSize (n : String) (h : fontRuleName n) :
    isMinimumSizePref n = false := by
  rcases h with ⟨x, hx⟩ | ⟨x, hx⟩ | hx
  · subst hx
    simp [isMinimumSizePref, String.data_append, List.take_append_eq_append_take]
  · subst hx
    simp [isMinimumSizePref, String.data_append, List.take_append_eq_append_take]
  · subst hx
    decide

theorem imageSafe_of_name_ne (w : PrefWrite) (h : w.name ≠ "permissions.default.image") :
    imageSafe w :=
  fun hn => absurd hn h

theorem appends_set_imageSafe (dict : PrefDict) (K P : String) (c : Option Converter)
    (hP : P ≠ "permissions.default.image") : Appends imageSafe (_set dict K P c) :=
  appends_mono _ _ _ (fun w hw => imageSafe_of_name_ne w (by rw [hw]; exact hP))
    (appends_set_name dict K P c)

theorem appends_image_rule (dict : PrefDict) :
    Appends imageSafe
      (_set dict "WebKitDisplayImagesKey" "permissions.default.image" (some imageConverter)) := by
  refine appends_set _ _ _ _ _ (fun v m _ hm => ?_)
  have hm2 : m = .number 1 ∨ m = .number 2 := by
    simp only [convert, imageConverter] at hm
    cases ht : toBoolean v <;> simp [ht] at hm
    · exact Or.inr hm.symm
    · exact Or.inl hm.symm
  refine ⟨?_, ?_, ?_⟩
  · intro h
    rcases hm2 with rfl | rfl <;> simp [typeof] at h
  · intro h _
    exact ⟨m, rfl, h⟩
  · intro h
    rcases hm2 with rfl | rfl <;> simp [typeof] at h

theorem appends_minimumFontSize (env : PrefEnv) (dict : PrefDict) :
    Appends imageSafe (migrateMinimumFontSize env dict) := by
  intro log
  unfold migrateMinimumFontSize
  cases dict "WebKitMinimumFontSize" with
  | none => exact ⟨[], by simp, by simp⟩
  | some v =>
    by_cases hn : typeof v = "number"
    · refine ⟨(env.getChildList "font.minimum-size").map
        (fun pref => PrefWrite.setIntPref pref v), by simp [hn], ?_⟩
      intro w hw
      obtain ⟨pref, _, rfl⟩ := List.mem_map.mp hw
      intro hname
      simp only [PrefWrite.name] at hname
      exact ⟨v, by rw [hname], hn⟩
    · exact ⟨[], by simp [hn], by simp⟩

theorem appends_fontSettings (env : PrefEnv) (dict : PrefDict) :
    Appends imageSafe (_migrateFontSettings env dict) :=
  appends_andThen _ _ _ (appends_minimumFontSize env dict) (fun _ =>
    appends_mono _ _ _
      (fun w hw => imageSafe_of_name_ne w (fontRuleName_ne_image _ hw))
      (appends_languageFonts env dict))

theorem appends_downloadsFolder (env : PrefEnv) (dict : PrefDict) :
    Appends imageSafe (_migrateDownloadsFolder env dict) := by
  intro log
  unfold _migrateDownloadsFolder
  simp only
  split
  · exact ⟨[], by simp, by simp⟩
  · split
    · exact ⟨[], by simp, by simp⟩
    · refine ⟨[_, _], rfl, ?_⟩
      intro w hw
      simp only [List.mem_cons, List.mem_singleton, List.not_mem_nil, or_false] at hw
      rcases hw with rfl | rfl <;>
        exact imageSafe_of_name_ne _ (by simp only [PrefWrite.name]; decide)

theorem appends_after_image_rule (env : PrefEnv) (dict : PrefDict) :
    Appends imageSafe
      (andThen (_set dict "WebKitDefaultTextEncodingName" "intl.charset.default"
        (some (charsetConverter env))) fun _ =>
      andThen (if env.XP_WIN then
          _set dict "WebKitCookieStorageAcceptPolicy" "network.cookie.cookieBehavior"
            (some (cookieConverter env))
        else fun log => (log, .ok true)) fun _ =>
      andThen (_migrateFontSettings env dict) fun _ =>
      _migrateDownloadsFolder env dict) := by
  refine appends_andThen _ _ _
    (appends_set_imageSafe dict _ "intl.charset.default" _ (by decide)) (fun _ =>
    appends_andThen _ _ _ ?_ (fun _ =>
    appends_andThen _ _ _ (appends_fontSettings env dict) (fun _ =>
    appends_downloadsFolder env dict)))
  split
  · exact appends_set_imageSafe dict _ "network.cookie.cookieBehavior" _ (by decide)
  · exact appends_pure _ _

theorem appends_migratePrefs (env : PrefEnv) (aDict : Option PrefDict) :
    Appends imageSafe (migratePrefs env aDict) := by
  cases aDict with
  | none => exact appends_pure _ _
  | some dict =>
    exact appends_andThen _ _ _
      (appends_set_imageSafe dict _ "signon.rememberSignons" _ (by decide)) (fun _ =>
      appends_andThen _ _ _
      (appends_set_imageSafe dict _ "browser.tabs.loadInBackground" _ (by decide)) (fun _ =>
      appends_andThen _ _ _
      (appends_set_imageSafe dict _ "dom.disable_open_during_load" _ (by decide)) (fun _ =>
      appends_andThen _ _ _
      (appends_set_imageSafe dict _ "layout.spellcheckDefault" _ (by decide)) (fun _ =>
      appends_andThen _ _ _ (appends_image_rule dict) (fun _ =>
      appends_after_image_rule env dict)))))

theorem andThen_ok {α β : Type} (first : PrefM α) (next : α → PrefM β)
    (log log1 : PrefLog) (a : α) (h : first log = (log1, .ok a)) :
    andThen first next log = next a log1 := by
  simp [andThen, h]

theorem set_returns (dict : PrefDict) (K P : String) (c : Option Converter)
    (log : PrefLog)
    (h : ∀ v, dict K = some v → ∃ m, convert c v = .ok m ∧ typeof m ≠ "object") :
    ∃ ws r, _set dict K P c log = (log ++ ws, .ok r) := by
  cases hv : dict K with
  | none => exact ⟨[], true, by simp [set_absent dict K P c log hv]⟩
  | some v =>
    obtain ⟨m, hm, ht⟩ := h v hv
    rw [set_present dict K P c log v m hv hm]
    rcases typeof_cases m with h1 | h1 | h1 | h1 | h1
    · exact ⟨[PrefWrite.setCharPref P m], true, by simp [h1]⟩
    · exact ⟨[PrefWrite.setIntPref P m], true, by simp [h1]⟩
    · exact ⟨[PrefWrite.setBoolPref P m], true, by simp [h1]⟩
    · exact ⟨[], false, by simp [h1]⟩
    · exact absurd h1 ht

theorem typeof_jsNumber (env : PrefEnv) (v : JSValue) : typeof (jsNumber env v) = "number" := by
  cases v with
  | undefined => rfl
  | boolean b => rfl
  | number n => rfl
  | nan => rfl
  | string s => simp only [jsNumber]; cases env.stringToNumber s <;> rfl
  | object o => simp only [jsNumber]; cases env.objectToNumber o <;> rfl

theorem languageFonts_without_keys (env : PrefEnv) (dict : PrefDict) (log : PrefLog)
    (fontType : String)
    (hft : env.getCharPref ("font.default." ++ _getLocaleLangGroup env) = some fontType)
    (h1 : dict "WebKitFixedFont" = none) (h2 : dict "WebKitDefaultFixedFontSize" = none)
    (h3 : dict "WebKitStandardFont" = none) (h4 : dict "WebKitDefaultFontSize" = none) :
    migrateLanguageFonts env dict log =
      (log ++ [PrefWrite.setCharPref "font.language.group"
        (.string (_getLocaleLangGroup env))], .ok ()) := by
  unfold migrateLanguageFonts
  simp only [hft]
  rw [andThen_ok _ _ _ _ _ (set_absent dict _ _ none log h1),
    andThen_ok _ _ _ _ _ (set_absent dict _ _ none log h2),
    andThen_ok _ _ _ _ _ (set_absent dict _ _ none log h3),
    andThen_ok _ _ _ _ _ (set_absent dict _ _ none log h4)]
  rfl

theorem minimumFontSize_ok (env : PrefEnv) (dict : PrefDict) (log : PrefLog) :
    migrateMinimumFontSize env dict log = ((migrateMinimumFontSize env dict log).1, .ok ()) := by
  unfold migrateMinimumFontSize
  cases dict "WebKitMinimumFontSize" with
  | none => rfl
  | some v => by_cases hn : typeof v = "number" <;> simp [hn]

theorem fontSettings_eq (env : PrefEnv) (dict : PrefDict) (log : PrefLog) :
    _migrateFontSettings env dict log =
      migrateLanguageFonts env dict (migrateMinimumFontSize env dict log).1 := by
  unfold _migrateFontSettings
  rw [andThen_ok _ _ _ _ _ (minimumFontSize_ok env dict log)]

/-- C16 (the code departs from the claim): on the empty dictionary, which contains
none of `WebKitFixedFont`, `WebKitDefaultFixedFontSize`, `WebKitStandardFont` and
`WebKitDefaultFontSize`, `_migrateFontSettings` writes none of the four per-language
font settings and still writes `font.language.group`: its only write is
`setCharPref("font.language.group", "x-western")` in the example environment. -/
theorem C16_language_group_written_without_font_write (log : PrefLog) :
    _migrateFontSettings examplePrefEnv emptyPrefDict log =
      (log ++ [PrefWrite.setCharPref "font.language.group" (.string "x-western")],
        .ok ()) := by
  rw [fontSettings_eq, languageFonts_without_keys examplePrefEnv emptyPrefDict _ "serif"
    (by decide) rfl rfl rfl rfl]
  rfl

theorem image_rule_on_boolean (dict : PrefDict) (b : Bool) (log : PrefLog)
    (hb : dict "WebKitDisplayImagesKey" = some (.boolean b)) :
    _set dict "WebKitDisplayImagesKey" "permissions.default.image" (some imageConverter) log
      = (log ++ [PrefWrite.setIntPref "permissions.default.image"
          (.number (if b then 1 else 2))], .ok true) := by
  rw [set_present dict _ _ _ log (.boolean b) (.number (if b then 1 else 2)) hb
    (by cases b <;> rfl)]
  simp [typeof]

theorem setBoolPref_not_imageSafe (v : JSValue) :
    ¬ imageSafe (PrefWrite.setBoolPref "permissions.default.image" v) := by
  intro h
  obtain ⟨x, hx, _⟩ := h rfl
  cases hx

/-- C17, counterexample to the claim as stated: in a dictionary where
`WebKitDisplayImagesKey` is `true` and `AutoFillPasswords` is a date (an object), the
first rule of the migration throws "Unexpected value type: object", so the migration
ends before the rule for `WebKitDisplayImagesKey` and writes nothing. -/
theorem C17_migration_aborts_before_image_rule :
    datedPrefDict "WebKitDisplayImagesKey" = some (.boolean true) ∧
    migratePrefs examplePrefEnv (some datedPrefDict) [] =
      ([], .error "Unexpected value type: object") ∧
    PrefWrite.setIntPref "permissions.default.image" (.number 1) ∉
      (migratePrefs examplePrefEnv (some datedPrefDict) []).1 := by
  have h : migratePrefs examplePrefEnv (some datedPrefDict) [] =
      ([], .error "Unexpected value type: object") := by
    simp [migratePrefs, andThen, _set, datedPrefDict, convert, typeof]
  refine ⟨rfl, h, ?_⟩
  rw [h]
  simp

/-- C17, amended: for every preferences dictionary that contains
`WebKitDisplayImagesKey` with a boolean value `b`, the rule for that key writes
`permissions.default.image` through the integer setter, with 1 when `b` is true and 2
when it is false; the preference migration makes this write whenever its first rule
does not throw, that is when `AutoFillPasswords` is absent or is not an object; and
in every case no write of the migration puts a raw boolean into that setting: each
write to it goes through the integer setter with a number. -/
theorem C17_image_permission_rule (env : PrefEnv) (dict : PrefDict) (log : PrefLog)
    (b : Bool) (hb : dict "WebKitDisplayImagesKey" = some (.boolean b)) :
    _set dict "WebKitDisplayImagesKey" "permissions.default.image" (some imageConverter) log
      = (log ++ [PrefWrite.setIntPref "permissions.default.image"
          (.number (if b then 1 else 2))], .ok true) ∧
    ((∀ v, dict "AutoFillPasswords" = some v → typeof v ≠ "object") →
      PrefWrite.setIntPref "permissions.default.image" (.number (if b then 1 else 2)) ∈
        (migratePrefs env (some dict) log).1) ∧
    (∃ ws, (migratePrefs env (some dict) log).1 = log ++ ws ∧
      (∀ w ∈ ws, imageSafe w) ∧
      (∀ v, PrefWrite.setBoolPref "permissions.default.image" v ∉ ws)) := by
  refine ⟨image_rule_on_boolean dict b log hb, ?_, ?_⟩
  · intro hauto
    obtain ⟨ws1, r1, e1⟩ := set_returns dict "AutoFillPasswords" "signon.rememberSignons"
      none log (fun v hv => ⟨v, rfl, hauto v hv⟩)
    obtain ⟨ws2, r2, e2⟩ := set_returns dict "OpenNewTabsInFront"
      "browser.tabs.loadInBackground" (some invert) (log ++ ws1)
      (fun v _ => ⟨_, rfl, by simp [typeof]⟩)
    obtain ⟨ws3, r3, e3⟩ := set_returns dict "WebKitJavaScriptCanOpenWindowsAutomatically"
      "dom.disable_open_during_load" (some invert) (log ++ ws1 ++ ws2)
      (fun v _ => ⟨_, rfl, by simp [typeof]⟩)
    obtain ⟨ws4, r4, e4⟩ := set_returns dict "WebContinuousSpellCheckingEnabled"
      "layout.spellcheckDefault" (some (numberConverter env)) (log ++ ws1 ++ ws2 ++ ws3)
      (fun v _ => ⟨_, rfl, by rw [typeof_jsNumber]; decide⟩)
    have e5 := image_rule_on_boolean dict b (log ++ ws1 ++ ws2 ++ ws3 ++ ws4) hb
    obtain ⟨ws, h1, _⟩ := appends_after_image_rule env dict
      (log ++ ws1 ++ ws2 ++ ws3 ++ ws4 ++
        [PrefWrite.setIntPref "permissions.default.image" (.number (if b then 1 else 2))])
    unfold migratePrefs
    simp only
    rw [andThen_ok _ _ _ _ _ e1, andThen_ok _ _ _ _ _ e2, andThen_ok _ _ _ _ _ e3,
      andThen_ok _ _ _ _ _ e4, andThen_ok _ _ _ _ _ e5, h1]
    simp
  · obtain ⟨ws, h1, h2⟩ := appends_migratePrefs env (some dict) log
    refine ⟨ws, h1, h2, ?_⟩
    intro v hv
    exact setBoolPref_not_imageSafe v (h2 _ hv)

/-- Witness of C17 (amended): the example dictionary where `WebKitDisplayImagesKey` is
`true` and `AutoFillPasswords` is absent, migrated on an empty log. -/
theorem C17_image_permission_rule_witness :
    imagesPrefDict "WebKitDisplayImagesKey" = some (.boolean true) ∧
    PrefWrite.setIntPref "permissions.default.image" (.number (if true then 1 else 2)) ∈
      (migratePrefs examplePrefEnv (some imagesPrefDict) []).1 :=
  ⟨rfl,
    (C17_image_permission_rule examplePrefEnv imagesPrefDict [] true rfl).2.1
      (fun v hv => by simp [imagesPrefDict] at hv)⟩

/-- C18: when the dictionary contains `WebKitMinimumFontSize` with a numeric value `v`
(the number 0 included), `_migrateFontSettings` first writes `setIntPref(pref, v)` for
every preference of the child list of `font.minimum-size`, in the order of the list;
when the key is absent or its value is not a number, it writes to no preference of
the branch `font.minimum-size`. -/
theorem C18_minimum_font_size (env : PrefEnv) (dict : PrefDict) (log : PrefLog) :
    (∀ v, dict "WebKitMinimumFontSize" = some v → typeof v = "number" →
      ∃ rest, (_migrateFontSettings env dict log).1 =
        log ++ (env.getChildList "font.minimum-size").map
          (fun pref => PrefWrite.setIntPref pref v) ++ rest) ∧
    (dict "WebKitMinimumFontSize" = some (.number 0) →
      ∀ pref ∈ env.getChildList "font.minimum-size",
        PrefWrite.setIntPref pref (.number 0) ∈ (_migrateFontSettings env dict log).1) ∧
    ((∀ v, dict "WebKitMinimumFontSize" = some v → typeof v ≠ "number") →
      ∃ ws, (_migrateFontSettings env dict log).1 = log ++ ws ∧
        ∀ w ∈ ws, isMinimumSizePref w.name = false) := by
  have hnum : ∀ v, dict "WebKitMinimumFontSize" = some v → typeof v = "number" →
      ∃ rest, (_migrateFontSettings env dict log).1 =
        log ++ (env.getChildList "font.minimum-size").map
          (fun pref => PrefWrite.setIntPref pref v) ++ rest := by
    intro v hv hn
    have hmin : (migrateMinimumFontSize env dict log).1 =
        log ++ (env.getChildList "font.minimum-size").map
          (fun pref => PrefWrite.setIntPref pref v) := by
      simp [migrateMinimumFontSize, hv, hn]
    obtain ⟨ws, h1, _⟩ := appends_languageFonts env dict (migrateMinimumFontSize env dict log).1
    exact ⟨ws, by rw [fontSettings_eq, h1, hmin]⟩
  refine ⟨hnum, ?_, ?_⟩
  · intro hv pref hp
    obtain ⟨rest, hr⟩ := hnum (.number 0) hv rfl
    rw [hr]
    exact List.mem_append_left _ (List.mem_append_right _
      (List.mem_map.mpr ⟨pref, hp, rfl⟩))
  · intro hv
    have hmin : (migrateMinimumFontSize env dict log).1 = log := by
      unfold migrateMinimumFontSize
      cases hd : dict "WebKitMinimumFontSize" with
      | none => rfl
      | some v => simp [hv v hd]
    obtain ⟨ws, h1, h2⟩ := appends_languageFonts env dict (migrateMinimumFontSize env dict log).1
    refine ⟨ws, by rw [fontSettings_eq, h1, hmin], ?_⟩
    intro w hw
    exact fontRuleName_not_minimumSize _ (h2 w hw)

/-- Witness of C18: the example dictionary where `WebKitMinimumFontSize` is 0; both
minimum-size preferences of the example environment are set to 0. -/
theorem C18_minimum_font_size_witness :
    imagesPrefDict "WebKitMinimumFontSize" = some (.number 0) ∧
    PrefWrite.setIntPref "font.minimum-size.ja" (.number 0) ∈
      (_migrateFontSettings examplePrefEnv imagesPrefDict []).1 :=
  ⟨rfl,
    (C18_minimum_font_size examplePrefEnv imagesPrefDict []).2.1 rfl
      "font.minimum-size.ja" (by decide)⟩

/-! ## Theorems: History -/

theorem storeCalls_append (t u : List HistoryEvent) :
    storeCalls (t ++ u) = storeCalls t ++ storeCalls u := by
  induction t with
  | nil => rfl
  | cons e t ih => cases e <;> simp [storeCalls, ih]

theorem callbackValues_append (t u : List HistoryEvent) :
    callbackValues (t ++ u) = callbackValues t ++ callbackValues u := by
  induction t with
  | nil => rfl
  | cons e t ih => cases e <;> simp [callbackValues, ih]

theorem historyLoop_spec (env : HistoryEnv) (entries : List HistoryEntry) :
    ∀ (places : List PlaceInfo) (t : List HistoryEvent),
      (historyLoop env entries places t).1 =
        places ++ expectedBatch env (_parseCocoaDate env) entries ∧
      storeCalls (historyLoop env entries places t).2 = storeCalls t ∧
      callbackValues (historyLoop env entries places t).2 = callbackValues t := by
  induction entries with
  | nil => intro places t; simp [historyLoop, expectedBatch]
  | cons e rest ih =>
    intro places t
    cases hd : e.lastVisitedDate with
    | none =>
      have hr : historyRecord env (_parseCocoaDate env) e = none := by
        simp [historyRecord, hd]
      simp only [historyLoop, hd, expectedBatch, List.filterMap_cons, hr]
      exact ih places t
    | some d =>
      cases hu : env.newURI e.url with
      | none =>
        have hr : historyRecord env (_parseCocoaDate env) e = none := by
          simp [historyRecord, hd, hu]
        simp only [historyLoop, hd, hu, expectedBatch, List.filterMap_cons, hr]
        obtain ⟨h1, h2, h3⟩ := ih places (t ++ [HistoryEvent.reportError "NS_ERROR_MALFORMED_URI"])
        refine ⟨h1, ?_, ?_⟩
        · rw [h2, storeCalls_append]; simp [storeCalls]
        · rw [h3, callbackValues_append]; simp [callbackValues]
      | some uri =>
        have hr : historyRecord env (_parseCocoaDate env) e = some
            { uri := uri
              title := e.title
              visits := [{ transitionType := env.TRANSITION_LINK,
                           visitDate := _parseCocoaDate env d }] } := by
          simp [historyRecord, hd, hu]
        simp only [historyLoop, hd, hu, expectedBatch, List.filterMap_cons, hr]
        obtain ⟨h1, h2, h3⟩ := ih (places ++ [{
            uri := uri
            title := e.title
            visits := [{ transitionType := env.TRANSITION_LINK,
                         visitDate := _parseCocoaDate env d }] }]) t
        refine ⟨?_, h2, h3⟩
        rw [h1]
        simp [expectedBatch]

theorem handleNotifications_eq (response : List StoreNotification) :
    ∀ success : Bool, handleNotifications response success =
      (success || decide (StoreNotification.handleResult ∈ response)) := by
  induction response with
  | nil => intro success; simp [handleNotifications]
  | cons n rest ih =>
    intro success
    cases n with
    | handleResult => simp [handleNotifications, ih]
    | handleError => simp [handleNotifications, ih]

theorem callCallback_returns (aCallback : Bool → Except String Unit) (b : Bool)
    (h : aCallback b = .ok ()) :
    callCallback aCallback b = { trace := [HistoryEvent.callback b], thrown := none } := by
  simp [callCallback, h]

theorem callCallback_throws (aCallback : Bool → Except String Unit) (b : Bool) (ex : String)
    (h : aCallback b = .error ex) :
    callCallback aCallback b = { trace := [HistoryEvent.callback b], thrown := some ex } := by
  simp [callCallback, h]

theorem storeCalls_migrateHistory (env : HistoryEnv) (aCallback : Bool → Except String Unit)
    (aDict : Option HistoryDict) :
    storeCalls (migrateHistory env aCallback aDict).trace =
      storeCalls (migrateHistoryTry env aCallback aDict).trace := by
  unfold migrateHistory
  cases h : (migrateHistoryTry env aCallback aDict).thrown with
  | none => simp [h]
  | some ex => simp [h, storeCalls_append, storeCalls, callCallback]

theorem storeCalls_migrate_try (env : HistoryEnv) (aCallback : Bool → Except String Unit)
    (aDict : Option HistoryDict) (response : List StoreNotification) :
    storeCalls (History.migrate env aCallback aDict response).trace =
      storeCalls (migrateHistoryTry env aCallback aDict).trace := by
  rw [← storeCalls_migrateHistory]
  unfold History.migrate
  cases h : storeCalls (migrateHistory env aCallback aDict).trace with
  | nil => simp [h]
  | cons b l => simp [h, storeCalls_append, storeCalls, callCallback]

theorem storeCalls_try_with_dates (env : HistoryEnv)
    (aCallback : Bool → Except String Unit) (entries : List HistoryEntry) :
    storeCalls (migrateHistoryTry env aCallback
        (some { WebHistoryDates := some entries })).trace =
      if expectedBatch env (_parseCocoaDate env) entries = [] then []
      else [expectedBatch env (_parseCocoaDate env) entries] := by
  obtain ⟨h1, h2, _⟩ := historyLoop_spec env entries [] []
  rw [List.nil_append] at h1
  unfold migrateHistoryTry
  simp only [h1]
  by_cases hb : expectedBatch env (_parseCocoaDate env) entries = []
  · simp [hb, storeCalls_append, h2, storeCalls, callCallback]
  · have hl : 0 < (expectedBatch env (_parseCocoaDate env) entries).length :=
      List.length_pos.mpr hb
    simp [hb, hl, storeCalls_append, h2, storeCalls]

theorem storeCalls_migrate (env : HistoryEnv) (aCallback : Bool → Except String Unit)
    (entries : List HistoryEntry) (response : List StoreNotification) :
    storeCalls (History.migrate env aCallback
        (some { WebHistoryDates := some entries }) response).trace
      = if expectedBatch env (_parseCocoaDate env) entries = [] then []
        else [expectedBatch env (_parseCocoaDate env) entries] := by
  rw [storeCalls_migrate_try, storeCalls_try_with_dates]

theorem migrateHistory_with_dates (env : HistoryEnv)
    (aCallback : Bool → Except String Unit) (h : ∀ b, aCallback b = .ok ())
    (entries : List HistoryEntry) :
    migrateHistory env aCallback (some { WebHistoryDates := some entries }) =
      if expectedBatch env (_parseCocoaDate env) entries = [] then
        { trace := (historyLoop env entries [] []).2 ++ [HistoryEvent.callback false],
          thrown := none }
      else
        { trace := (historyLoop env entries [] []).2 ++
            [HistoryEvent.updatePlaces (expectedBatch env (_parseCocoaDate env) entries)],
          thrown := none } := by
  obtain ⟨h1, _, _⟩ := historyLoop_spec env entries [] []
  rw [List.nil_append] at h1
  unfold migrateHistory migrateHistoryTry
  simp only [h1, callCallback_returns aCallback false (h false)]
  by_cases hb : expectedBatch env (_parseCocoaDate env) entries = []
  · simp [hb]
  · have hl : 0 < (expectedBatch env (_parseCocoaDate env) entries).length :=
      List.length_pos.mpr hb
    simp [hb, hl]

theorem migrate_with_dates (env : HistoryEnv) (aCallback : Bool → Except String Unit)
    (h : ∀ b, aCallback b = .ok ()) (entries : List HistoryEntry)
    (response : List StoreNotification) :
    History.migrate env aCallback (some { WebHistoryDates := some entries }) response =
      if expectedBatch env (_parseCocoaDate env) entries = [] then
        { trace := (historyLoop env entries [] []).2 ++ [HistoryEvent.callback false],
          thrown := none }
      else
        { trace := (historyLoop env entries [] []).2 ++
            [HistoryEvent.updatePlaces (expectedBatch env (_parseCocoaDate env) entries),
              HistoryEvent.callback (handleNotifications response false)],
          thrown := none } := by
  obtain ⟨_, h2, _⟩ := historyLoop_spec env entries [] []
  unfold History.migrate
  rw [migrateHistory_with_dates env aCallback h]
  by_cases hb : expectedBatch env (_parseCocoaDate env) entries = []
  · simp [hb, storeCalls_append, h2, storeCalls]
  · simp [hb, storeCalls_append, h2, storeCalls, callCallback_returns aCallback _ (h _)]

theorem migrate_without_dates (env : HistoryEnv) (aCallback : Bool → Except String Unit)
    (h : ∀ b, aCallback b = .ok ()) (aDict : Option HistoryDict)
    (response : List StoreNotification)
    (hd : aDict = none ∨ aDict = some { WebHistoryDates := none }) :
    ∃ ex, History.migrate env aCallback aDict response =
      { trace := [HistoryEvent.reportError ex, HistoryEvent.callback false],
        thrown := none } := by
  rcases hd with rfl | rfl
  · refine ⟨"Could not read history property list", ?_⟩
    simp [History.migrate, migrateHistory, migrateHistoryTry,
      callCallback_returns aCallback false (h false), storeCalls]
  · refine ⟨"Unexpected history-property list format", ?_⟩
    simp [History.migrate, migrateHistory, migrateHistoryTry,
      callCallback_returns aCallback false (h false), storeCalls]

theorem callbackValues_migrate (env : HistoryEnv) (aCallback : Bool → Except String Unit)
    (h : ∀ b, aCallback b = .ok ()) (entries : List HistoryEntry)
    (response : List StoreNotification) :
    callbackValues
        (History.migrate env aCallback
          (some { WebHistoryDates := some entries }) response).trace
      = if expectedBatch env (_parseCocoaDate env) entries = [] then [false]
        else [handleNotifications response false] := by
  obtain ⟨_, _, h3⟩ := historyLoop_spec env entries [] []
  rw [migrate_with_dates env aCallback h]
  by_cases hb : expectedBatch env (_parseCocoaDate env) entries = []
  · simp [hb, callbackValues_append, h3, callbackValues]
  · simp [hb, callbackValues_append, h3, callbackValues]

theorem expectedBatch_drop (env : HistoryEnv) (convert : JSValue → JSNumber)
    (pre post : List HistoryEntry) (e : HistoryEntry) (h : env.newURI e.url = none) :
    expectedBatch env convert (pre ++ e :: post) = expectedBatch env convert (pre ++ post) := by
  have hr : historyRecord env convert e = none := by
    unfold historyRecord
    cases e.lastVisitedDate <;> simp [h]
  simp [expectedBatch, List.filterMap_append, List.filterMap_cons, hr]

theorem expectedBatch_length (env : HistoryEnv) (convert : JSValue → JSNumber)
    (entries : List HistoryEntry) :
    (expectedBatch env convert entries).length =
      (entries.filter (fun e =>
        e.lastVisitedDate.isSome && (env.newURI e.url).isSome)).length := by
  induction entries with
  | nil => rfl
  | cons e rest ih =>
    simp only [expectedBatch, List.filterMap_cons, List.filter_cons] at ih ⊢
    cases hd : e.lastVisitedDate with
    | none => simpa [historyRecord, hd] using ih
    | some d =>
      cases hu : env.newURI e.url with
      | none => simpa [historyRecord, hd, hu] using ih
      | some uri => simpa [historyRecord, hd, hu] using ih

theorem parseCocoaDate_of_finite (env : HistoryEnv) (v : JSValue) (q : ℚ)
    (h : env.parseFloat v = .finite q) :
    _parseCocoaDate env v =
      match Date_setMilliseconds env referenceDate (env.roundDouble (q * 1000)) with
      | some t => env.roundDouble ((t : ℚ) * 1000)
      | none => .nan := by
  simp [_parseCocoaDate, h, timesThousand]

theorem parseCocoaDate_of_nan (env : HistoryEnv) (v : JSValue)
    (h : env.parseFloat v = .nan) : _parseCocoaDate env v = .finite 0 := by
  simp [_parseCocoaDate, h]

theorem exampleParseFloat_400000000 :
    exampleParseFloat (.string "400000000") = .finite 400000000 := by
  simp [exampleParseFloat]

theorem exampleParseFloat_1_001 :
    exampleParseFloat (.string "1.001") = .finite double_1_001 := by
  simp [exampleParseFloat]

theorem parseCocoaDate_utc_400000000 :
    _parseCocoaDate exampleHistoryEnv (.string "400000000") = .finite 1378307200000000 := by
  rw [parseCocoaDate_of_finite _ _ _ exampleParseFloat_400000000]
  norm_num [exampleHistoryEnv, exampleRoundDouble, Date_setMilliseconds, MakeTime, MakeDate,
    TimeClip, UTC, LocalTime, Day, HourFromTime, MinFromTime, SecFromTime, referenceDate,
    msPerDay, msPerHour, msPerMinute, msPerSecond, double_1_001]

theorem parseCocoaDate_newYork_400000000 :
    _parseCocoaDate newYorkHistoryEnv (.string "400000000") = .finite 1378303600000000 := by
  rw [parseCocoaDate_of_finite _ _ _ exampleParseFloat_400000000]
  norm_num [newYorkHistoryEnv, exampleHistoryEnv, exampleRoundDouble, Date_setMilliseconds,
    MakeTime, MakeDate, TimeClip, UTC, LocalTime, Day, HourFromTime, MinFromTime,
    SecFromTime, referenceDate, msPerDay, msPerHour, msPerMinute, msPerSecond, double_1_001]

theorem parseCocoaDate_utc_1_001 :
    _parseCocoaDate exampleHistoryEnv (.string "1.001") = .finite 978307201000000 := by
  rw [parseCocoaDate_of_finite _ _ _ exampleParseFloat_1_001]
  have h : Int.tdiv 8804889115230207 8796093022208 = 1000 := by decide
  norm_num [h, exampleHistoryEnv, exampleRoundDouble, Date_setMilliseconds, MakeTime,
    MakeDate, TimeClip, UTC, LocalTime, Day, HourFromTime, MinFromTime, SecFromTime,
    referenceDate, msPerDay, msPerHour, msPerMinute, msPerSecond, double_1_001]

theorem exampleParseFloat_9000000000000 :
    exampleParseFloat (.string "9000000000000") = .finite 9000000000000 := by
  simp [exampleParseFloat]

theorem parseCocoaDate_utc_out_of_range :
    _parseCocoaDate exampleHistoryEnv (.string "9000000000000") = .nan := by
  rw [parseCocoaDate_of_finite _ _ _ exampleParseFloat_9000000000000]
  norm_num [exampleHistoryEnv, exampleRoundDouble, Date_setMilliseconds, MakeTime, MakeDate,
    TimeClip, UTC, LocalTime, Day, HourFromTime, MinFromTime, SecFromTime, referenceDate,
    msPerDay, msPerHour, msPerMinute, msPerSecond, double_1_001]

/-- C19: for a history dictionary with a `WebHistoryDates` list, the array `places`
built by `History.migrate` is the list of the records of the entries that carry
`lastVisitedDate` and whose URL (key `""`) parses, in the order of the entries, each
with that URL, the title of the entry and one visit, a link transition whose date is
what `_parseCocoaDate` returns for the `lastVisitedDate` of the entry; there are as
many records as such entries; when the list is not empty it is the batch of the one
`updatePlaces` call, and when it is empty the store is not called. An entry whose URL
does not parse changes nothing in the batch, wherever it stands. In the scenario of
the specification, on every host where "http://a.test" parses as a URL and
"not a url" does not, the batch holds exactly the record for "A". All of this holds
for every completion callback, throwing or not. -/
theorem C19_history_batch (env : HistoryEnv) (aCallback : Bool → Except String Unit)
    (entries : List HistoryEntry) (response : List StoreNotification) :
    (historyLoop env entries [] []).1 =
      entries.filterMap (historyRecord env (_parseCocoaDate env)) ∧
    (∀ e : HistoryEntry, historyRecord env (_parseCocoaDate env) e =
      match e.lastVisitedDate, env.newURI e.url with
      | some d, some uri =>
        some { uri := uri
               title := e.title
               visits := [{ transitionType := env.TRANSITION_LINK,
                            visitDate := _parseCocoaDate env d }] }
      | _, _ => none) ∧
    (entries.filterMap (historyRecord env (_parseCocoaDate env))).length =
      (entries.filter (fun e =>
        e.lastVisitedDate.isSome && (env.newURI e.url).isSome)).length ∧
    storeCalls (History.migrate env aCallback
        (some { WebHistoryDates := some entries }) response).trace
      = (if entries.filterMap (historyRecord env (_parseCocoaDate env)) = [] then []
         else [entries.filterMap (historyRecord env (_parseCocoaDate env))]) ∧
    (∀ (pre post : List HistoryEntry) (e : HistoryEntry), env.newURI e.url = none →
      storeCalls (History.migrate env aCallback
          (some { WebHistoryDates := some (pre ++ e :: post) }) response).trace
        = storeCalls (History.migrate env aCallback
          (some { WebHistoryDates := some (pre ++ post) }) response).trace) ∧
    (∀ uri : URI, env.newURI (.string "http://a.test") = some uri →
      env.newURI (.string "not a url") = none →
      storeCalls (History.migrate env aCallback (some scenarioHistory) response).trace
        = [[{ uri := uri
              title := .string "A"
              visits := [{ transitionType := env.TRANSITION_LINK,
                           visitDate := _parseCocoaDate env (.string "400000000") }] }]]) := by
  refine ⟨?_, ?_, expectedBatch_length env _ entries, storeCalls_migrate env aCallback entries response,
    ?_, ?_⟩
  · have h := (historyLoop_spec env entries [] []).1
    rwa [List.nil_append] at h
  · intro e
    unfold historyRecord
    cases e.lastVisitedDate with
    | none => rfl
    | some d => cases env.newURI e.url <;> rfl
  · intro pre post e hu
    rw [storeCalls_migrate, storeCalls_migrate, expectedBatch_drop env _ pre post e hu]
  · intro uri hA hB
    unfold scenarioHistory
    rw [storeCalls_migrate]
    simp [expectedBatch, historyRecord, historyEntryA, historyEntryB, hA, hB]

/-- Witness of C19: in the example environment, a host at UTC, "http://a.test" parses
and "not a url" does not; the batch of the scenario is the record for "A", whose
visit is 400000000 seconds after the reference date; and the second entry of the
scenario put between two copies of the first changes nothing in the batch. -/
theorem C19_history_batch_witness :
    exampleHistoryEnv.newURI (.string "http://a.test") = some "http://a.test" ∧
    exampleHistoryEnv.newURI (.string "not a url") = none ∧
    storeCalls (History.migrate exampleHistoryEnv returningCallback
        (some scenarioHistory) [StoreNotification.handleResult]).trace
      = [[{ uri := "http://a.test"
            title := .string "A"
            visits := [{ transitionType := 1, visitDate := .finite 1378307200000000 }] }]] ∧
    exampleHistoryEnv.newURI historyEntryB.url = none ∧
    storeCalls (History.migrate exampleHistoryEnv returningCallback
        (some { WebHistoryDates := some ([historyEntryA] ++ historyEntryB :: [historyEntryA]) })
        []).trace
      = storeCalls (History.migrate exampleHistoryEnv returningCallback
        (some { WebHistoryDates := some ([historyEntryA] ++ [historyEntryA]) }) []).trace :=
  ⟨by decide, by decide,
    parseCocoaDate_utc_400000000 ▸
      (C19_history_batch exampleHistoryEnv returningCallback []
        [StoreNotification.handleResult]).2.2.2.2.2 "http://a.test" (by decide) (by decide),
    by decide,
    (C19_history_batch exampleHistoryEnv returningCallback [] []).2.2.2.2.1
      [historyEntryA] [historyEntryA] historyEntryB (by decide)⟩

/-- C20, counterexample to the claim as stated: with a completion callback that
throws and a dictionary whose `WebHistoryDates` list is empty, `aCallback(false)` is
called inside the `try` block, its exception reaches the `catch` block, which calls
`aCallback(false)` a second time, and the exception of that call escapes; when the
decode failed the callback is called once, from the `catch` block, and its exception
escapes as well. -/
theorem C20_throwing_callback_is_called_twice :
    callbackValues (History.migrate exampleHistoryEnv throwingCallback
      (some { WebHistoryDates := some [] }) []).trace = [false, false] ∧
    (History.migrate exampleHistoryEnv throwingCallback
      (some { WebHistoryDates := some [] }) []).thrown = some "callback failed" ∧
    (History.migrate exampleHistoryEnv throwingCallback none []).thrown
      = some "callback failed" := by
  decide

/-- C20, amended: when the completion callback returns normally, then for every
decode result and every response of the store (notifications followed by one
completion), `History.migrate` calls its completion callback exactly once and lets no
exception escape. The value reported is true exactly when the batch is not empty and
the store notified at least one accepted record. When the decode failed,
`WebHistoryDates` is absent or the batch is empty, the value is false and the store
is not called; otherwise the store is called once, with the batch. -/
theorem C20_history_completion_returning_callback (env : HistoryEnv)
    (aCallback : Bool → Except String Unit) (aDict : Option HistoryDict)
    (response : List StoreNotification) (hcb : ∀ b, aCallback b = .ok ()) :
    (History.migrate env aCallback aDict response).thrown = none ∧
    callbackValues (History.migrate env aCallback aDict response).trace =
      [!(batchOf env aDict).isEmpty &&
        decide (StoreNotification.handleResult ∈ response)] ∧
    (callbackValues (History.migrate env aCallback aDict response).trace = [true] ↔
      batchOf env aDict ≠ [] ∧ StoreNotification.handleResult ∈ response) ∧
    (batchOf env aDict = [] →
      storeCalls (History.migrate env aCallback aDict response).trace = [] ∧
      callbackValues (History.migrate env aCallback aDict response).trace = [false]) ∧
    (batchOf env aDict ≠ [] →
      storeCalls (History.migrate env aCallback aDict response).trace =
        [batchOf env aDict]) ∧
    batchOf env none = [] ∧ batchOf env (some { WebHistoryDates := none }) = [] := by
  have key : (History.migrate env aCallback aDict response).thrown = none ∧
      callbackValues (History.migrate env aCallback aDict response).trace =
        [!(batchOf env aDict).isEmpty &&
          decide (StoreNotification.handleResult ∈ response)] ∧
      storeCalls (History.migrate env aCallback aDict response).trace =
        (if batchOf env aDict = [] then [] else [batchOf env aDict]) := by
    cases aDict with
    | none =>
      obtain ⟨ex, he⟩ := migrate_without_dates env aCallback hcb none response (Or.inl rfl)
      rw [he]
      exact ⟨rfl, rfl, rfl⟩
    | some dict =>
      obtain ⟨dates⟩ := dict
      cases dates with
      | none =>
        obtain ⟨ex, he⟩ := migrate_without_dates env aCallback hcb
          (some { WebHistoryDates := none }) response (Or.inr rfl)
        rw [he]
        exact ⟨rfl, rfl, rfl⟩
      | some entries =>
        refine ⟨?_, ?_, ?_⟩
        · rw [migrate_with_dates env aCallback hcb]
          split <;> rfl
        · rw [callbackValues_migrate env aCallback hcb]
          by_cases hb : expectedBatch env (_parseCocoaDate env) entries = []
          · simp [hb, batchOf]
          · have he : (expectedBatch env (_parseCocoaDate env) entries).isEmpty = false := by
              cases h : expectedBatch env (_parseCocoaDate env) entries with
              | nil => exact absurd h hb
              | cons a l => rfl
            simp [hb, batchOf, he, handleNotifications_eq]
        · rw [storeCalls_migrate]
          rfl
  obtain ⟨k1, k2, k3⟩ := key
  refine ⟨k1, k2, ?_, ?_, ?_, rfl, rfl⟩
  · rw [k2]
    cases h : batchOf env aDict with
    | nil => simp
    | cons a l => simp
  · intro hb
    rw [k2, k3, hb]
    simp
  · intro hb
    rw [k3]
    simp [hb]

/-- Witness of C20: the scenario of the specification with a callback that returns
normally, when the store accepts the record: the batch is not empty, the store is
called once and the callback receives `true`, once, and nothing escapes. -/
theorem C20_history_completion_returning_callback_witness :
    (∀ b, returningCallback b = .ok ()) ∧
    batchOf exampleHistoryEnv (some scenarioHistory) ≠ [] ∧
    (History.migrate exampleHistoryEnv returningCallback (some scenarioHistory)
      [StoreNotification.handleResult]).thrown = none ∧
    storeCalls (History.migrate exampleHistoryEnv returningCallback (some scenarioHistory)
      [StoreNotification.handleResult]).trace =
      [batchOf exampleHistoryEnv (some scenarioHistory)] ∧
    callbackValues (History.migrate exampleHistoryEnv returningCallback
      (some scenarioHistory) [StoreNotification.handleResult]).trace = [true] :=
  ⟨fun _ => rfl, by decide,
    (C20_history_completion_returning_callback exampleHistoryEnv returningCallback
      (some scenarioHistory) [StoreNotification.handleResult] (fun _ => rfl)).1,
    (C20_history_completion_returning_callback exampleHistoryEnv returningCallback
      (some scenarioHistory) [StoreNotification.handleResult] (fun _ => rfl)).2.2.2.2.1
        (by decide),
    (C20_history_completion_returning_callback exampleHistoryEnv returningCallback
      (some scenarioHistory) [StoreNotification.handleResult] (fun _ => rfl)).2.2.1.mpr
        ⟨by decide, by decide⟩⟩

/-- C21 (the code departs from the claim): on a host in the zone America/New_York the
string "400000000" gives 1378303600000000, one hour less than
`(978307200000 + 1000 * 400000000) * 1000`, the instant 400000000 seconds after the
reference date, which a host at UTC returns. On the host at UTC, where the product of
`parseFloat("1.001")` by 1000 rounds to the double `1001 - 2^-43`, "1.001" gives 1000
milliseconds after the reference date, not 1001, and "9000000000000" leaves the range
of dates and gives NaN. A string that `parseFloat` turns into NaN gives 0. -/
theorem C21_parseCocoaDate_local_time :
    _parseCocoaDate newYorkHistoryEnv (.string "400000000") = .finite 1378303600000000 ∧
    _parseCocoaDate newYorkHistoryEnv (.string "400000000") ≠
      .finite ((978307200000 + 1000 * 400000000) * 1000) ∧
    _parseCocoaDate exampleHistoryEnv (.string "400000000") =
      .finite ((978307200000 + 1000 * 400000000) * 1000) ∧
    _parseCocoaDate exampleHistoryEnv (.string "1.001") =
      .finite ((978307200000 + 1000) * 1000) ∧
    _parseCocoaDate exampleHistoryEnv (.string "9000000000000") = .nan ∧
    _parseCocoaDate exampleHistoryEnv (.string "not a number") = .finite 0 := by
  refine ⟨parseCocoaDate_newYork_400000000, ?_, ?_, ?_, ?_, ?_⟩
  · rw [parseCocoaDate_newYork_400000000]
    intro h
    injection h with h
    norm_num at h
  · rw [parseCocoaDate_utc_400000000]
    norm_num
  · rw [parseCocoaDate_utc_1_001]
    norm_num
  · exact parseCocoaDate_utc_out_of_range
  · apply parseCocoaDate_of_nan
    simp [exampleHistoryEnv, exampleParseFloat]

/-! ## Theorems: downloads folder and cookie policy -/

theorem downloadsFolder_with_key (env : PrefEnv) (dict : PrefDict) (log : PrefLog)
    (key : String) (v : JSValue) (p : String)
    (hkey : (if (dict "DownloadsPath").isSome then some "DownloadsPath"
      else if (dict "DownloadPath").isSome then some "DownloadPath" else none) = some key)
    (hv : dict key = some v) (hp : env.File v = some p) :
    _migrateDownloadsFolder env dict log =
      (log ++ [PrefWrite.setIntPref "browser.download.folderList"
          (.number (if p = env.desktopDir then 0
            else if p = env.defaultDownloadsDirectory then 1 else 2)),
        PrefWrite.setComplexValue "browser.download.dir" p], .ok ()) := by
  unfold _migrateDownloadsFolder
  simp only [hkey, hv, Option.getD_some, hp, beq_iff_eq]

/-- C22: `_migrateDownloadsFolder` takes the value of `DownloadsPath` when the
dictionary has it, and else the one of `DownloadPath`; with `p` the path of the file
made from it, it writes `browser.download.folderList` as 0 when `p` is the desktop
directory, else 1 when `p` is the default downloads directory, else 2, and then
`browser.download.dir` as `p`, and nothing else; when neither key is present it
writes nothing. -/
theorem C22_downloads_folder (env : PrefEnv) (dict : PrefDict) (log : PrefLog) :
    (∀ v p, dict "DownloadsPath" = some v → env.File v = some p →
      _migrateDownloadsFolder env dict log =
        (log ++ [PrefWrite.setIntPref "browser.download.folderList"
            (.number (if p = env.desktopDir then 0
              else if p = env.defaultDownloadsDirectory then 1 else 2)),
          PrefWrite.setComplexValue "browser.download.dir" p], .ok ())) ∧
    (∀ v p, dict "DownloadsPath" = none → dict "DownloadPath" = some v →
      env.File v = some p →
      _migrateDownloadsFolder env dict log =
        (log ++ [PrefWrite.setIntPref "browser.download.folderList"
            (.number (if p = env.desktopDir then 0
              else if p = env.defaultDownloadsDirectory then 1 else 2)),
          PrefWrite.setComplexValue "browser.download.dir" p], .ok ())) ∧
    (dict "DownloadsPath" = none → dict "DownloadPath" = none →
      _migrateDownloadsFolder env dict log = (log, .ok ())) := by
  refine ⟨?_, ?_, ?_⟩
  · intro v p hv hp
    exact downloadsFolder_with_key env dict log "DownloadsPath" v p (by simp [hv]) hv hp
  · intro v p hn hv hp
    exact downloadsFolder_with_key env dict log "DownloadPath" v p (by simp [hn, hv]) hv hp
  · intro h1 h2
    simp [_migrateDownloadsFolder, h1, h2]

/-- Witness of C22: the downloads folder is the desktop, under the key `DownloadPath`;
the folder list value is 0. -/
theorem C22_downloads_folder_witness :
    desktopDownloadDict "DownloadsPath" = none ∧
    desktopDownloadDict "DownloadPath" = some (.string "/Users/me/Desktop") ∧
    examplePrefEnv.File (.string "/Users/me/Desktop") = some "/Users/me/Desktop" ∧
    _migrateDownloadsFolder examplePrefEnv desktopDownloadDict [] =
      ([] ++ [PrefWrite.setIntPref "browser.download.folderList"
          (.number (if "/Users/me/Desktop" = examplePrefEnv.desktopDir then 0
            else if "/Users/me/Desktop" = examplePrefEnv.defaultDownloadsDirectory then 1
            else 2)),
        PrefWrite.setComplexValue "browser.download.dir" "/Users/me/Desktop"], .ok ()) :=
  ⟨rfl, rfl, rfl,
    (C22_downloads_folder examplePrefEnv desktopDownloadDict []).2.1
      (.string "/Users/me/Desktop") "/Users/me/Desktop" rfl rfl rfl⟩

/-- C23: the two cookie-policy conversions follow the tables of their comments and
always give 0, 1 or 2. The converter of `WebKitCookieStorageAcceptPolicy` maps 0 to 0,
2 to 1 and 1 to 2. The conversion of `NSHTTPAcceptCookies` maps "always" to 0,
"current page" to 1 and "never" to 2; `migrateCookieBehavior` makes the one write
`setIntPref("network.cookie.cookieBehavior", value)` when the key is present and no
write when it is absent. -/
theorem C23_cookie_policy (env : PrefEnv) (dict : PrefDict) (log : PrefLog) :
    cookieConverter env (.number 0) = .ok (.number 0) ∧
    cookieConverter env (.number 2) = .ok (.number 1) ∧
    cookieConverter env (.number 1) = .ok (.number 2) ∧
    (∀ v, cookieConverter env v = .ok (.number 0) ∨
      cookieConverter env v = .ok (.number 1) ∨ cookieConverter env v = .ok (.number 2)) ∧
    (dict "NSHTTPAcceptCookies" = some (.string "always") →
      migrateCookieBehavior env (some dict) log =
        (log ++ [PrefWrite.setIntPref "network.cookie.cookieBehavior" (.number 0)],
          .ok ())) ∧
    (dict "NSHTTPAcceptCookies" = some (.string "current page") →
      migrateCookieBehavior env (some dict) log =
        (log ++ [PrefWrite.setIntPref "network.cookie.cookieBehavior" (.number 1)],
          .ok ())) ∧
    (dict "NSHTTPAcceptCookies" = some (.string "never") →
      migrateCookieBehavior env (some dict) log =
        (log ++ [PrefWrite.setIntPref "network.cookie.cookieBehavior" (.number 2)],
          .ok ())) ∧
    (∀ v, dict "NSHTTPAcceptCookies" = some v →
      ∃ n : Int, (n = 0 ∨ n = 1 ∨ n = 2) ∧
        migrateCookieBehavior env (some dict) log =
          (log ++ [PrefWrite.setIntPref "network.cookie.cookieBehavior" (.number n)],
            .ok ())) ∧
    (dict "NSHTTPAcceptCookies" = none →
      migrateCookieBehavior env (some dict) log = (log, .ok ())) := by
  refine ⟨?_, ?_, ?_, ?_, ?_, ?_, ?_, ?_, ?_⟩
  · simp [cookieConverter, looseEqualsNumber]
  · simp [cookieConverter, looseEqualsNumber]
  · simp [cookieConverter, looseEqualsNumber]
  · intro v
    unfold cookieConverter
    by_cases h0 : looseEqualsNumber env v 0 = true
    · simp [h0]
    · by_cases h1 : looseEqualsNumber env v 1 = true
      · simp [h0, h1]
      · simp [h0, h1]
  · intro h
    simp [migrateCookieBehavior, h, looseEqualsString]
  · intro h
    simp [migrateCookieBehavior, h, looseEqualsString]
  · intro h
    simp [migrateCookieBehavior, h, looseEqualsString]
  · intro v h
    by_cases h0 : looseEqualsString env v "never" = true
    · exact ⟨2, by simp, by simp [migrateCookieBehavior, h, h0]⟩
    · by_cases h1 : looseEqualsString env v "current page" = true
      · exact ⟨1, by simp, by simp [migrateCookieBehavior, h, h0, h1]⟩
      · exact ⟨0, by simp, by simp [migrateCookieBehavior, h, h0, h1]⟩
  · intro h
    simp [migrateCookieBehavior, h]

/-- Witness of C23: the example dictionary where cookies are accepted from the current
page. -/
theorem C23_cookie_policy_witness :
    currentPageCookieDict "NSHTTPAcceptCookies" = some (.string "current page") ∧
    migrateCookieBehavior examplePrefEnv (some currentPageCookieDict) [] =
      ([] ++ [PrefWrite.setIntPref "network.cookie.cookieBehavior" (.number 1)], .ok ()) :=
  ⟨rfl, (C23_cookie_policy examplePrefEnv currentPageCookieDict []).2.2.2.2.2.1 rfl⟩

/-! ## Theorems: String.js -/

theorem ToInteger_intCast (n : Int) : ToInteger (.finite (n : ℚ)) = .finite n := by
  simp [ToInteger]

theorem ToInteger_natCast (n : Nat) : ToInteger (.finite (n : ℚ)) = .finite (n : Int) := by
  simp [ToInteger]

theorem getD_lt_of_wellFormed (S : JSString) (h : S.WellFormed) (i : Nat) :
    S.getD i 0 < 0x10000 := by
  by_cases hi : i < S.length
  · rw [List.getD_eq_getElem _ _ hi]
    exact h _ (List.getElem_mem _)
  · rw [List.getD_eq_default _ _ (by omega)]
    decide

theorem codePointAt_finite (S : JSString) (p : Int) :
    String_codePointAt S (.finite (p : ℚ)) =
      if p < 0 ∨ p ≥ (S.length : Int) then none
      else if S.getD p.toNat 0 < 0xD800 ∨ S.getD p.toNat 0 > 0xDBFF ∨
          p + 1 = (S.length : Int) then some (S.getD p.toNat 0)
      else if S.getD (p + 1).toNat 0 < 0xDC00 ∨ S.getD (p + 1).toNat 0 > 0xDFFF then
        some (S.getD p.toNat 0)
      else some ((S.getD p.toNat 0 - 0xD800) * 0x400 +
        (S.getD (p + 1).toNat 0 - 0xDC00) + 0x10000) := by
  unfold String_codePointAt
  rw [ToInteger_intCast]

/-- C25: `String_codePointAt` on a string seen as its UTF-16 code units. For an
integer position it returns `undefined` exactly when the position is negative or at
least the length (and also for an infinite position); at a position `i` inside the
string, when the unit there is a high surrogate (0xD800..0xDBFF) and the next
position is inside the string and holds a low surrogate (0xDC00..0xDFFF), it returns
`(first - 0xD800) * 0x400 + (second - 0xDC00) + 0x10000`, and in every other case the
unit at `i`; on a string of 16-bit units every defined result is at most 0x10FFFF. -/
theorem C25_codePointAt (S : JSString) (p : Int) (i : Nat) (pos : JSNumber) :
    (String_codePointAt S (.finite (p : ℚ)) = none ↔ p < 0 ∨ p ≥ (S.length : Int)) ∧
    String_codePointAt S .posInf = none ∧ String_codePointAt S .negInf = none ∧
    (i < S.length → 0xD800 ≤ S.getD i 0 → S.getD i 0 ≤ 0xDBFF → i + 1 < S.length →
      0xDC00 ≤ S.getD (i + 1) 0 → S.getD (i + 1) 0 ≤ 0xDFFF →
      String_codePointAt S (.finite (i : ℚ)) =
        some ((S.getD i 0 - 0xD800) * 0x400 + (S.getD (i + 1) 0 - 0xDC00) + 0x10000)) ∧
    (i < S.length →
      ¬ (0xD800 ≤ S.getD i 0 ∧ S.getD i 0 ≤ 0xDBFF ∧ i + 1 < S.length ∧
        0xDC00 ≤ S.getD (i + 1) 0 ∧ S.getD (i + 1) 0 ≤ 0xDFFF) →
      String_codePointAt S (.finite (i : ℚ)) = some (S.getD i 0)) ∧
    (S.WellFormed → ∀ v, String_codePointAt S pos = some v → v ≤ 0x10FFFF) := by
  refine ⟨?_, rfl, rfl, ?_, ?_, ?_⟩
  · rw [codePointAt_finite]
    constructor
    · intro h
      by_contra hc
      rw [if_neg hc] at h
      split at h
      · cases h
      · split at h <;> cases h
    · intro h
      rw [if_pos h]
  · intro hi h1 h2 hn h3 h4
    have e := codePointAt_finite S (i : Int)
    simp only [Int.cast_natCast] at e
    rw [e]
    have c1 : ¬ ((i : Int) < 0 ∨ (i : Int) ≥ (S.length : Int)) := by omega
    have c2 : ¬ (S.getD i 0 < 0xD800 ∨ S.getD i 0 > 0xDBFF ∨
        (i : Int) + 1 = (S.length : Int)) := by omega
    have c3 : ¬ (S.getD (i + 1) 0 < 0xDC00 ∨ S.getD (i + 1) 0 > 0xDFFF) := by omega
    have t1 : ((i : Int)).toNat = i := Int.toNat_natCast i
    have t2 : ((i : Int) + 1).toNat = i + 1 := by omega
    rw [if_neg c1, t1, t2, if_neg c2, if_neg c3]
  · intro hi hn
    have e := codePointAt_finite S (i : Int)
    simp only [Int.cast_natCast] at e
    rw [e]
    have c1 : ¬ ((i : Int) < 0 ∨ (i : Int) ≥ (S.length : Int)) := by omega
    have t1 : ((i : Int)).toNat = i := Int.toNat_natCast i
    have t2 : ((i : Int) + 1).toNat = i + 1 := by omega
    rw [if_neg c1, t1, t2]
    split
    · rfl
    · split
      · rfl
      · exfalso
        apply hn
        omega
  · intro hw v hv
    unfold String_codePointAt at hv
    cases hp : ToInteger pos with
    | posInf => rw [hp] at hv; cases hv
    | negInf => rw [hp] at hv; cases hv
    | finite q =>
      rw [hp] at hv
      simp only at hv
      have b1 := getD_lt_of_wellFormed S hw q.toNat
      have b2 := getD_lt_of_wellFormed S hw (q + 1).toNat
      split at hv
      · cases hv
      · split at hv
        · cases hv; omega
        · split at hv
          · cases hv; omega
          · cases hv; omega

/-- Witness of C25: the units 0xD83D, 0xDE00 at position 0 give the code point
0x1F600. -/
theorem C25_codePointAt_witness :
    String_codePointAt [0xD83D, 0xDE00] (.finite ((0 : Nat) : ℚ)) =
      some (((([0xD83D, 0xDE00] : JSString).getD 0 0) - 0xD800) * 0x400 +
        ((([0xD83D, 0xDE00] : JSString).getD (0 + 1) 0) - 0xDC00) + 0x10000) ∧
    (((([0xD83D, 0xDE00] : JSString).getD 0 0) - 0xD800) * 0x400 +
        ((([0xD83D, 0xDE00] : JSString).getD (0 + 1) 0) - 0xDC00) + 0x10000) = 0x1F600 :=
  ⟨(C25_codePointAt [0xD83D, 0xDE00] 0 0 .nan).2.2.2.1 (by decide) (by decide) (by decide)
      (by decide) (by decide) (by decide),
    by decide⟩

theorem copies_zero (S : JSString) : copies 0 S = [] := rfl

theorem copies_one (S : JSString) : copies 1 S = S := by
  simp [copies]

theorem copies_add (a b : Nat) (S : JSString) :
    copies (a + b) S = copies a S ++ copies b S := by
  unfold copies
  rw [List.replicate_add, List.flatten_append]

theorem length_copies (n : Nat) (S : JSString) : (copies n S).length = n * S.length := by
  induction n with
  | zero => simp [copies]
  | succ k ih =>
    rw [copies_add, List.length_append, ih, copies_one]
    ring

theorem increment_of_lt (i : Nat) (h : i < 2 ^ 53) : increment i = i + 1 := by
  unfold increment
  rw [if_pos h]

theorem concatStrings_fits (maxLength : Nat) (a b : JSString)
    (h : a.length + b.length ≤ maxLength) : concatStrings maxLength a b = .ok (a ++ b) := by
  simp [concatStrings, h]

theorem concatStrings_overflow (maxLength : Nat) (a b : JSString)
    (h : maxLength < a.length + b.length) :
    concatStrings maxLength a b = .error "JSMSG_ALLOC_OVERFLOW" := by
  have h2 : ¬ (a.length + b.length ≤ maxLength) := by omega
  simp [concatStrings, h2]

theorem repeatDoubling_spec (maxLength : Nat) (S : JSString) (n : Nat)
    (hlen : n * S.length ≤ maxLength) :
    ∀ (fuel i : Nat) (result : JSString), 0 < i → i ≤ n → result = copies i S →
      n - i < fuel →
      ∃ j, repeatDoubling maxLength n fuel i result = some (.ok (j, copies j S)) ∧
        j ≤ n ∧ 0 < j := by
  intro fuel
  induction fuel with
  | zero => intro i result _ _ _ hf; omega
  | succ fuel ih =>
    intro i result hi hle hres hf
    rw [repeatDoubling]
    by_cases h : 2 * i ≤ n
    · have hl : result.length + result.length ≤ maxLength := by
        rw [hres, length_copies]
        have : 2 * i * S.length ≤ n * S.length := Nat.mul_le_mul_right _ h
        have e : 2 * i * S.length = i * S.length + i * S.length := by ring
        omega
      rw [if_pos h, concatStrings_fits _ _ _ hl]
      refine ih (2 * i) (result ++ result) (by omega) h ?_ (by omega)
      rw [hres, two_mul, copies_add]
    · rw [if_neg h]
      exact ⟨i, by rw [hres], hle, hi⟩

theorem repeatAppending_spec (maxLength : Nat) (S : JSString) (n : Nat)
    (hlen : n * S.length ≤ maxLength) (hn : n ≤ 2 ^ 53) :
    ∀ (fuel i : Nat) (result : JSString), i ≤ n → result = copies i S → n - i < fuel →
      repeatAppending maxLength S n fuel i result = some (.ok (copies n S)) := by
  intro fuel
  induction fuel with
  | zero => intro i result _ _ hf; omega
  | succ fuel ih =>
    intro i result hle hres hf
    rw [repeatAppending]
    by_cases h : i < n
    · have hl : result.length + S.length ≤ maxLength := by
        rw [hres, length_copies]
        have : (i + 1) * S.length ≤ n * S.length := Nat.mul_le_mul_right _ h
        have e : (i + 1) * S.length = i * S.length + S.length := by ring
        omega
      rw [if_pos h, concatStrings_fits _ _ _ hl, increment_of_lt i (by omega)]
      refine ih (i + 1) (result ++ S) (by omega) ?_ (by omega)
      rw [hres, copies_add, copies_one]
    · rw [if_neg h]
      have : i = n := by omega
      rw [hres, this]

theorem repeat_positive (maxLength fuel : Nat) (S : JSString) (n : Nat) (hn : 0 < n)
    (hlen : n * S.length ≤ maxLength) (hmax : n ≤ 2 ^ 53) (hfuel : n ≤ fuel) :
    String_repeat maxLength fuel S (.finite (n : ℚ)) = some (.ok (copies n S)) := by
  unfold String_repeat
  rw [ToInteger_natCast]
  have h1 : ¬ ((n : Int) < 0) := by omega
  have h2 : ¬ ((n : Int) = 0) := by omega
  simp only [h1, h2, ↓reduceIte, Int.toNat_natCast]
  obtain ⟨j, e1, e2, _⟩ := repeatDoubling_spec maxLength S n hlen fuel 1 S (by decide)
    (by omega) (copies_one S).symm (by omega)
  rw [e1]
  exact repeatAppending_spec maxLength S n hlen hmax fuel j _ e2 rfl (by omega)

theorem repeatDoubling_overflow (maxLength : Nat) (S : JSString) (n : Nat)
    (hS : 0 < S.length) :
    ∀ (fuel i : Nat) (result : JSString), 0 < i → result.length = i * S.length →
      i * S.length ≤ maxLength → maxLength - i * S.length < fuel →
      repeatDoubling maxLength n fuel i result = some (.error "JSMSG_ALLOC_OVERFLOW") ∨
      ∃ j r, repeatDoubling maxLength n fuel i result = some (.ok (j, r)) ∧
        r.length = j * S.length ∧ j * S.length ≤ maxLength := by
  intro fuel
  induction fuel with
  | zero => intro i result _ _ _ hf; omega
  | succ fuel ih =>
    intro i result hi hres hle hf
    rw [repeatDoubling]
    by_cases h : 2 * i ≤ n
    · rw [if_pos h]
      have e : 2 * i * S.length = i * S.length + i * S.length := by ring
      have hpos : 0 < i * S.length := Nat.mul_pos hi hS
      by_cases hl : result.length + result.length ≤ maxLength
      · rw [concatStrings_fits _ _ _ hl]
        refine ih (2 * i) (result ++ result) (by omega) ?_ ?_ ?_
        · rw [List.length_append, hres, e]
        · rw [e]; omega
        · rw [e]; omega
      · rw [concatStrings_overflow _ _ _ (by omega)]
        exact Or.inl rfl
    · rw [if_neg h]
      exact Or.inr ⟨i, result, rfl, hres, hle⟩

theorem repeatAppending_overflow (maxLength : Nat) (S : JSString) (n : Nat)
    (hS : 0 < S.length) (hlen : maxLength < n * S.length) (hmax : maxLength < 2 ^ 53) :
    ∀ (fuel i : Nat) (result : JSString), result.length = i * S.length →
      i * S.length ≤ maxLength → maxLength - i * S.length < fuel →
      repeatAppending maxLength S n fuel i result = some (.error "JSMSG_ALLOC_OVERFLOW") := by
  intro fuel
  induction fuel with
  | zero => intro i result _ _ hf; omega
  | succ fuel ih =>
    intro i result hres hle hf
    rw [repeatAppending]
    have hin : i < n := by
      by_contra hc
      have : n * S.length ≤ i * S.length := Nat.mul_le_mul_right _ (by omega)
      omega
    have hi : i ≤ i * S.length := Nat.le_mul_of_pos_right i hS
    have e : (i + 1) * S.length = i * S.length + S.length := by ring
    rw [if_pos hin]
    by_cases hl : result.length + S.length ≤ maxLength
    · rw [concatStrings_fits _ _ _ hl, increment_of_lt i (by omega)]
      refine ih (i + 1) (result ++ S) ?_ ?_ ?_
      · rw [List.length_append, hres, e]
      · rw [e]; omega
      · rw [e]; omega
    · rw [concatStrings_overflow _ _ _ (by omega)]

theorem repeat_overflow (maxLength fuel : Nat) (S : JSString) (n : Nat)
    (hlen : maxLength < n * S.length) (hfit : S.length ≤ maxLength)
    (hmax : maxLength < 2 ^ 53) (hfuel : maxLength < fuel) :
    String_repeat maxLength fuel S (.finite (n : ℚ)) =
      some (.error "JSMSG_ALLOC_OVERFLOW") := by
  have hS : 0 < S.length := by
    rcases Nat.eq_zero_or_pos S.length with h | h
    · rw [h] at hlen; simp at hlen
    · exact h
  have hn : 0 < n := by
    rcases Nat.eq_zero_or_pos n with h | h
    · rw [h] at hlen; simp at hlen
    · exact h
  unfold String_repeat
  rw [ToInteger_natCast]
  have h1 : ¬ ((n : Int) < 0) := by omega
  have h2 : ¬ ((n : Int) = 0) := by omega
  simp only [h1, h2, ↓reduceIte, Int.toNat_natCast]
  rcases repeatDoubling_overflow maxLength S n hS fuel 1 S (by decide) (by simp)
    (by simpa using hfit) (by simp; omega) with e | ⟨j, r, e, hr, hj⟩
  · rw [e]
  · rw [e]
    exact repeatAppending_overflow maxLength S n hS hlen hmax fuel j r hr hj (by omega)

theorem repeatDoubling_empty (maxLength n : Nat) :
    ∀ (fuel i : Nat), i ≤ n → (∃ k, i = 2 ^ k) →
      repeatDoubling maxLength n fuel i [] = none ∨
      ∃ k, repeatDoubling maxLength n fuel i [] = some (.ok (2 ^ k, [])) ∧ 2 ^ k ≤ n := by
  intro fuel
  induction fuel with
  | zero => intro i _ _; exact Or.inl rfl
  | succ fuel ih =>
    intro i hle hk
    rw [repeatDoubling]
    by_cases h : 2 * i ≤ n
    · rw [if_pos h, concatStrings_fits _ _ _ (by simp)]
      obtain ⟨k, rfl⟩ := hk
      exact ih (2 * 2 ^ k) h ⟨k + 1, by rw [pow_succ]; ring⟩
    · rw [if_neg h]
      obtain ⟨k, rfl⟩ := hk
      exact Or.inr ⟨k, rfl, hle⟩

theorem repeatAppending_stalls (maxLength n : Nat) (hn : 2 ^ 53 < n) :
    ∀ (fuel i : Nat), i < n → repeatAppending maxLength [] n fuel i [] = none := by
  intro fuel
  induction fuel with
  | zero => intro i _; rfl
  | succ fuel ih =>
    intro i hi
    rw [repeatAppending, if_pos hi, concatStrings_fits _ _ _ (by simp)]
    refine ih (increment i) ?_
    unfold increment
    split <;> omega

theorem repeat_empty_never_returns (maxLength fuel n : Nat) (hn : 2 ^ 53 < n)
    (hp : ∀ k, n ≠ 2 ^ k) :
    String_repeat maxLength fuel [] (.finite (n : ℚ)) = none := by
  unfold String_repeat
  rw [ToInteger_natCast]
  have h0 : 0 < 2 ^ 53 := by decide
  have h1 : ¬ ((n : Int) < 0) := by omega
  have h2 : ¬ ((n : Int) = 0) := by omega
  simp only [h1, h2, ↓reduceIte, Int.toNat_natCast]
  rcases repeatDoubling_empty maxLength n fuel 1 (by omega) ⟨0, rfl⟩ with e | ⟨k, e, hk⟩
  · rw [e]
  · rw [e]
    exact repeatAppending_stalls maxLength n hn fuel (2 ^ k)
      (lt_of_le_of_ne hk (fun h => hp k h.symm))

theorem not_pow_two (k : Nat) : 2 ^ 53 + 2 ≠ 2 ^ k := by
  intro h
  rcases Nat.lt_or_ge k 54 with hk | hk
  · have : 2 ^ k ≤ 2 ^ 53 := Nat.pow_le_pow_right (by decide) (by omega)
    omega
  · have : 2 ^ 54 ≤ 2 ^ k := Nat.pow_le_pow_right (by decide) hk
    omega

/-- C24, counterexample to the claim as stated: with a maximum string length of
`2^28 - 1`, the call `"ab".repeat(2^29)` throws when the doubled string would pass
that length (within `2^28` tests of each loop condition), and `"".repeat(2^53 + 2)`
returns nothing and throws nothing however long the loops run: the counter of the
second loop stays at `2^53`. -/
theorem C24_repeat_throws_or_never_returns :
    (∀ fuel, 2 ^ 28 ≤ fuel →
      String_repeat (2 ^ 28 - 1) fuel [97, 98] (.finite ((2 ^ 29 : Nat) : ℚ)) =
        some (.error "JSMSG_ALLOC_OVERFLOW")) ∧
    (¬ ∃ fuel r, String_repeat (2 ^ 28 - 1) fuel [] (.finite ((2 ^ 53 + 2 : Nat) : ℚ)) =
      some r) := by
  refine ⟨?_, ?_⟩
  · intro fuel hf
    exact repeat_overflow (2 ^ 28 - 1) fuel [97, 98] (2 ^ 29) (by decide) (by decide)
      (by decide) (by omega)
  · rintro ⟨fuel, r, h⟩
    rw [repeat_empty_never_returns (2 ^ 28 - 1) fuel (2 ^ 53 + 2) (by omega) not_pow_two] at h
    cases h

/-- C24, amended: for every string `S` and every integer count `n >= 0` with
`n <= 2^53` whose result fits in the maximum string length, `n * |S| <= maxLength`,
`String_repeat` ends within `n` tests of each loop condition and returns the
concatenation of exactly `n` copies of `S`, of length `n * |S|` (the empty string for
`n = 0`); when the result does not fit (and the maximum length is below 2^53) it
throws the allocation error; for a negative integer count and for the counts
`+Infinity` and `-Infinity` it throws the range error. -/
theorem C24_repeat_within_limits (maxLength fuel : Nat) (S : JSString) (n : Nat) :
    (n * S.length ≤ maxLength → n ≤ 2 ^ 53 → n ≤ fuel →
      String_repeat maxLength fuel S (.finite (n : ℚ)) = some (.ok (copies n S))) ∧
    copies n S = (List.replicate n S).flatten ∧
    (copies n S).length = n * S.length ∧
    String_repeat maxLength fuel S (.finite ((0 : Nat) : ℚ)) = some (.ok []) ∧
    (maxLength < n * S.length → S.length ≤ maxLength → maxLength < 2 ^ 53 →
      maxLength < fuel →
      String_repeat maxLength fuel S (.finite (n : ℚ)) =
        some (.error "JSMSG_ALLOC_OVERFLOW")) ∧
    String_repeat maxLength fuel S (.finite ((Int.negSucc n : Int) : ℚ)) =
      some (.error "JSMSG_REPEAT_RANGE") ∧
    String_repeat maxLength fuel S .posInf = some (.error "JSMSG_REPEAT_RANGE") ∧
    String_repeat maxLength fuel S .negInf = some (.error "JSMSG_REPEAT_RANGE") := by
  have h0 : String_repeat maxLength fuel S (.finite ((0 : Nat) : ℚ)) = some (.ok []) := by
    unfold String_repeat
    rw [ToInteger_natCast]
    simp
  refine ⟨?_, rfl, length_copies n S, h0, ?_, ?_, rfl, rfl⟩
  · intro hlen hmax hfuel
    cases n with
    | zero => rw [h0]; rfl
    | succ k => exact repeat_positive maxLength fuel S (k + 1) (by omega) hlen hmax hfuel
  · intro hlen hfit hmax hfuel
    exact repeat_overflow maxLength fuel S n hlen hfit hmax hfuel
  · unfold String_repeat
    rw [ToInteger_intCast]
    have h1 : (Int.negSucc n) < 0 := Int.negSucc_lt_zero n
    simp only [h1, ↓reduceIte]

/-- Witness of C24: with a maximum string length of `2^28 - 1`, three copies of "ab"
fit and are returned; with a maximum string length of 5 they do not fit, and the call
throws. -/
theorem C24_repeat_within_limits_witness :
    3 * ([97, 98] : JSString).length ≤ 2 ^ 28 - 1 ∧
    String_repeat (2 ^ 28 - 1) 3 [97, 98] (.finite ((3 : Nat) : ℚ)) =
      some (.ok [97, 98, 97, 98, 97, 98]) ∧
    5 < 3 * ([97, 98] : JSString).length ∧
    String_repeat 5 6 [97, 98] (.finite ((3 : Nat) : ℚ)) =
      some (.error "JSMSG_ALLOC_OVERFLOW") :=
  ⟨by decide,
    (C24_repeat_within_limits (2 ^ 28 - 1) 3 [97, 98] 3).1 (by decide) (by decide)
      (by decide),
    by decide,
    (C24_repeat_within_limits 5 6 [97, 98] 3).2.2.2.2.1 (by decide) (by decide)
      (by decide) (by decide)⟩

theorem fromCodePoint_valid (cp : Nat) (h : cp ≤ 0x10FFFF) :
    String_static_fromCodePoint [.finite (cp : ℚ)] =
      .ok (if cp ≤ 0xFFFF then [cp]
        else [(cp - 0x10000) / 0x400 + 0xD800, (cp - 0x10000) % 0x400 + 0xDC00]) := by
  have c1 : ¬ ((JSNumber.finite (cp : ℚ)) ≠ (ToInteger (.finite (cp : ℚ))).toNumber ∨
      JSNumber.finite (cp : ℚ) = .nan) := by
    rw [ToInteger_natCast]
    simp [JSInteger.toNumber]
  have c2 : ¬ ((cp : ℚ) < 0 ∨ (cp : ℚ) > 0x10FFFF) := by
    have h1 : (0 : ℚ) ≤ (cp : ℚ) := Nat.cast_nonneg cp
    have h2 : (cp : ℚ) ≤ 0x10FFFF := by exact_mod_cast h
    intro hc
    rcases hc with hc | hc
    · exact absurd hc (not_lt.mpr h1)
    · exact absurd hc (not_lt.mpr h2)
  unfold String_static_fromCodePoint
  rw [fromCodePointLoop, if_neg c1]
  simp only [if_neg c2, Rat.num_natCast, Int.toNat_natCast, List.nil_append]
  by_cases hs : cp ≤ 0xFFFF
  · have hm : cp % 0x10000 = cp := Nat.mod_eq_of_lt (by omega)
    simp [hs, fromCodePointLoop, fromCharCode, hm]
  · have h1 : ((cp - 0x10000) / 0x400 + 0xD800) % 0x10000 = (cp - 0x10000) / 0x400 + 0xD800 :=
      Nat.mod_eq_of_lt (by omega)
    have h2 : ((cp - 0x10000) % 0x400 + 0xDC00) % 0x10000 = (cp - 0x10000) % 0x400 + 0xDC00 :=
      Nat.mod_eq_of_lt (by omega)
    simp only [hs, ↓reduceIte, fromCodePointLoop, fromCharCode, List.map_cons, List.map_nil,
      h1, h2]

theorem fromCodePoint_invalid (x : JSNumber)
    (h : ∀ cp : Nat, cp ≤ 0x10FFFF → x ≠ .finite (cp : ℚ)) :
    String_static_fromCodePoint [x] = .error "JSMSG_NOT_A_CODEPOINT" := by
  unfold String_static_fromCodePoint
  cases x with
  | nan => simp [fromCodePointLoop]
  | posInf => simp [fromCodePointLoop, ToInteger, JSInteger.toNumber]
  | negInf => simp [fromCodePointLoop, ToInteger, JSInteger.toNumber]
  | finite q =>
    rw [fromCodePointLoop]
    by_cases c1 : JSNumber.finite q ≠ (ToInteger (.finite q)).toNumber ∨
        JSNumber.finite q = .nan
    · rw [if_pos c1]
    · rw [if_neg c1]
      simp only
      by_cases c2 : q < 0 ∨ q > 0x10FFFF
      · rw [if_pos c2]
      · exfalso
        have hq : q = ((Int.tdiv q.num q.den : Int) : ℚ) := by
          by_contra hne
          apply c1
          left
          simp only [ToInteger, JSInteger.toNumber, ne_eq, JSNumber.finite.injEq]
          exact hne
        have h0 : (0 : ℚ) ≤ q := not_lt.mp (fun hc => c2 (Or.inl hc))
        have h1 : q ≤ 0x10FFFF := not_lt.mp (fun hc => c2 (Or.inr hc))
        rw [hq] at h0 h1
        have h0i : (0 : Int) ≤ Int.tdiv q.num q.den := by exact_mod_cast h0
        have h1i : Int.tdiv q.num q.den ≤ 0x10FFFF := by exact_mod_cast h1
        apply h (Int.tdiv q.num q.den).toNat (by omega)
        have hc : (((Int.tdiv q.num q.den).toNat : Nat) : ℚ) =
            ((Int.tdiv q.num q.den : Int) : ℚ) := by
          have : (((Int.tdiv q.num q.den).toNat : Nat) : Int) = Int.tdiv q.num q.den :=
            Int.toNat_of_nonneg h0i
          exact_mod_cast this
        rw [hc, ← hq]

theorem codePointAt_zero (S : JSString) :
    String_codePointAt S (.finite 0) =
      if S.length = 0 then none
      else if S.getD 0 0 < 0xD800 ∨ S.getD 0 0 > 0xDBFF ∨ S.length = 1 then some (S.getD 0 0)
      else if S.getD 1 0 < 0xDC00 ∨ S.getD 1 0 > 0xDFFF then some (S.getD 0 0)
      else some ((S.getD 0 0 - 0xD800) * 0x400 + (S.getD 1 0 - 0xDC00) + 0x10000) := by
  have e := codePointAt_finite S 0
  simp only [Int.cast_zero] at e
  rw [e]
  cases S with
  | nil => simp
  | cons a rest =>
    have c1 : ¬ ((0 : Int) < 0 ∨ (0 : Int) ≥ ((a :: rest).length : Int)) := by
      simp only [List.length_cons]; omega
    have c2 : ¬ ((a :: rest).length = 0) := by simp
    have c3 : ((1 : Int) = ((a :: rest).length : Int)) ↔ (a :: rest).length = 1 := by
      simp only [List.length_cons]; omega
    rw [if_neg c1, if_neg c2]
    simp only [Int.toNat_zero, zero_add, Int.toNat_one, c3]

/-- C26: for every integer code point `cp` with `0 <= cp <= 0x10FFFF`,
`String_static_fromCodePoint(cp)` returns a string of one code unit, `cp`, when
`cp <= 0xFFFF`, and of a high surrogate followed by a low surrogate when
`cp > 0xFFFF`; `String_codePointAt` at position 0 of that string returns `cp`; and
`String_static_fromCodePoint` throws for every number that is not an integer of that
range (a fraction, NaN, an infinity, a negative or too large integer). -/
theorem C26_fromCodePoint_round_trip (cp : Nat) (h : cp ≤ 0x10FFFF) :
    (∃ s, String_static_fromCodePoint [.finite (cp : ℚ)] = .ok s ∧
      (cp ≤ 0xFFFF → s = [cp]) ∧
      (0xFFFF < cp → ∃ high low, s = [high, low] ∧ 0xD800 ≤ high ∧ high ≤ 0xDBFF ∧
        0xDC00 ≤ low ∧ low ≤ 0xDFFF) ∧
      String_codePointAt s (.finite 0) = some cp) ∧
    (∀ x : JSNumber, (∀ c : Nat, c ≤ 0x10FFFF → x ≠ .finite (c : ℚ)) →
      String_static_fromCodePoint [x] = .error "JSMSG_NOT_A_CODEPOINT") := by
  refine ⟨?_, fromCodePoint_invalid⟩
  by_cases hs : cp ≤ 0xFFFF
  · refine ⟨[cp], ?_, fun _ => rfl, fun hc => absurd hs (by omega), ?_⟩
    · rw [fromCodePoint_valid cp h, if_pos hs]
    · rw [codePointAt_zero]
      simp
  · refine ⟨[(cp - 0x10000) / 0x400 + 0xD800, (cp - 0x10000) % 0x400 + 0xDC00], ?_,
      fun hc => absurd hc hs, fun _ => ⟨_, _, rfl, by omega, by omega, by omega, by omega⟩, ?_⟩
    · rw [fromCodePoint_valid cp h, if_neg hs]
    · rw [codePointAt_zero]
      have a1 : ¬ (([(cp - 0x10000) / 0x400 + 0xD800,
          (cp - 0x10000) % 0x400 + 0xDC00] : JSString).length = 0) := by simp
      have a2 : ¬ ((cp - 0x10000) / 0x400 + 0xD800 < 0xD800 ∨
          (cp - 0x10000) / 0x400 + 0xD800 > 0xDBFF ∨
          ([(cp - 0x10000) / 0x400 + 0xD800,
            (cp - 0x10000) % 0x400 + 0xDC00] : JSString).length = 1) := by
        simp only [List.length_cons, List.length_nil]
        omega
      have a3 : ¬ ((cp - 0x10000) % 0x400 + 0xDC00 < 0xDC00 ∨
          (cp - 0x10000) % 0x400 + 0xDC00 > 0xDFFF) := by omega
      simp only [List.getD_cons_zero, List.getD_cons_succ, if_neg a1, if_neg a2,
        if_neg a3, Option.some.injEq]
      omega

/-- Witness of C26: the code point 0x1F600 gives a surrogate pair from which
`String_codePointAt` reads it back. -/
theorem C26_fromCodePoint_round_trip_witness :
    0x1F600 ≤ 0x10FFFF ∧
    ∃ s, String_static_fromCodePoint [.finite ((0x1F600 : Nat) : ℚ)] = .ok s ∧
      (0x1F600 ≤ 0xFFFF → s = [0x1F600]) ∧
      (0xFFFF < 0x1F600 → ∃ high low, s = [high, low] ∧ 0xD800 ≤ high ∧ high ≤ 0xDBFF ∧
        0xDC00 ≤ low ∧ low ≤ 0xDFFF) ∧
      String_codePointAt s (.finite 0) = some 0x1F600 :=
  ⟨by decide, (C26_fromCodePoint_round_trip 0x1F600 (by decide)).1⟩

end SafariProfileMigrator
